import Mathlib

/-!
# Compute-fields pipeline of the dataset save path

A shallow embedding of `base/dsfs/compute_fields.go`: the depth measure
`getDepth`, the constructor `newComputeFieldsFile`, the batch flush
`flushBatch` and the record-level consumer `handleRows`.

Values decoded from a body are JSON-like trees.  The collaborators the
pipeline calls (entry reader, entry buffers, statistics accumulator, JSON
decoder, schema validator) live in other packages; their outcomes are
supplied by a record of oracles, one per call site, so every branch of the
source is reachable in the model.
-/

namespace Dsfs

/-! ## JSON-like values and `getDepth` -/

/-- A decoded value, as `encoding/json` and the entry readers produce it:
scalars, arrays (`[]interface{}`) and objects (`map[string]interface{}`).
An object is listed as its key/value pairs in the order the `range` loop
happens to visit them.  The payload of a number plays no part in the
pipeline and is kept as an integer. -/
inductive JVal where
  | null : JVal
  | bool (b : Bool) : JVal
  | num (n : Int) : JVal
  | str (s : String) : JVal
  | arr (xs : List JVal) : JVal
  | obj (kvs : List (String × JVal)) : JVal

mutual
/-- The source's `getDepth`: the type switch has one arm for objects, one for
arrays, and a default arm returning the zero-initialised `depth`. -/
def getDepth : JVal → Nat
  | .obj kvs => getDepthObj kvs 0 + 1
  | .arr xs => getDepthArr xs 0 + 1
  | _ => 0
/-- The `for _, el := range v` loop of the array arm, `depth` being the
running maximum. -/
def getDepthArr : List JVal → Nat → Nat
  | [], depth => depth
  | el :: rest, depth =>
    getDepthArr rest (if getDepth el > depth then getDepth el else depth)
/-- The `for _, el := range v` loop of the object arm. -/
def getDepthObj : List (String × JVal) → Nat → Nat
  | [], depth => depth
  | (_, el) :: rest, depth =>
    getDepthObj rest (if getDepth el > depth then getDepth el else depth)
end

/-- The maximum of a list of depths, the maximum of no depths being 0. -/
def maxDepthOf (ds : List Nat) : Nat := ds.foldr max 0

/-! ## Data model of the pipeline -/

/-- One record of a body, `dsio.Entry`. -/
structure Entry where
  index : Nat
  key : String
  value : JVal

/-- Error values.  `ext` is an error returned by a collaborator (only its
text is kept, and it is never the strict-mode error), `wrap` is
`fmt.Errorf("<text>: %w", inner)`, `simple` is `fmt.Errorf` without an inner
error, and `strictMode n` is
`fmt.Errorf("%w. found at least %d errors", ErrStrictMode, n)`. -/
inductive Err where
  | ext (text : String) : Err
  | simple (text : String) : Err
  | wrap (text : String) (inner : Err) : Err
  | strictMode (n : Nat) : Err
deriving DecidableEq

/-- What `errors.Is(err, ErrStrictMode)` finds: the count reported by a
strict-mode validation error, looked for through the `%w` chain. -/
def Err.strictCount : Err → Option Nat
  | .strictMode n => some n
  | .wrap _ inner => inner.strictCount
  | _ => none

/-- The body-change classification kept in `SaveSwitches.bodyAct`. -/
inductive BodyAction where
  | BodyDefault : BodyAction
  | BodySame : BodyAction
  | BodyTooBig : BodyAction
deriving DecidableEq

/-- One call of `ReadEntry` on the entry reader: `bytes` is by how much the
tracked reader's byte count has grown when the call returns, `result` is the
entry or the decoding error. -/
structure Read where
  bytes : Nat
  result : Except String Entry

/-- A body as the record-level consumer meets it: the reads that come before
the end of the stream, and `tail`, the bytes counted between the last of
them and the end of the stream. -/
structure Body where
  reads : List Read
  tail : Nat

/-- The entries a list of reads decodes, in stream order. -/
def decoded : List Read → List Entry
  | [] => []
  | r :: rest =>
    match r.result with
    | .ok ent => ent :: decoded rest
    | .error _ => decoded rest

/-- The bytes a list of reads accounts for. -/
def readBytes : List Read → Nat
  | [] => 0
  | r :: rest => r.bytes + readBytes rest

/-- Every read of the list decodes an entry. -/
def allDecode : List Read → Bool
  | [] => true
  | r :: rest =>
    match r.result with
    | .ok _ => allDecode rest
    | .error _ => false

/-- The entries of a body, in stream order. -/
def Body.entries (b : Body) : List Entry := decoded b.reads

/-- The total number of bytes read from a body source. -/
def Body.length (b : Body) : Nat := readBytes b.reads + b.tail

/-- A body file, `qfs.File`: `size` is `some n` when the file is a
`qfs.SizeFile` whose `Size()` is `n`. -/
structure File where
  name : String
  size : Option Int
  content : Body

/-- The part of `dataset.Dataset` the pipeline reads and writes: the body
file, the flag `Structure.Strict`, the four derived fields of the structure,
and the inlined `Body` (`none` is Go's nil). -/
structure Dataset where
  bodyFile : Option File
  strict : Bool
  errCount : Nat
  entries : Nat
  depth : Nat
  length : Nat
  body : Option (List Entry)

/-- What the pipeline does that others can observe, in the order it does
it. -/
inductive Event where
  | accWrite (ent : Entry) : Event
  | accClose : Event
  | validated (errs : Nat) : Event
  | dropDiff : Event
  | setStructure (errCount entries depth length : Nat) : Event
  | setBody : Event
  | send (r : Option Err) : Event

/-- A value sent on the completion channel, if the event is a send. -/
def Event.sent : Event → Option (Option Err)
  | .send r => some r
  | _ => none

/-- The error count the validator reported, if the event is a validation. -/
def Event.errs : Event → Option Nat
  | .validated n => some n
  | _ => none

/-- The event seen from the statistics accumulator: an entry written
(`some ent`) or the close (`none`). -/
def Event.acc : Event → Option (Option Entry)
  | .accWrite ent => some (some ent)
  | .accClose => some none
  | _ => none

/-- The outcomes of the calls into other packages, one oracle per call site
of `compute_fields.go`, and the two package-level settings `batchSize` and
`BodySizeSmallEnoughToDiff`.  An oracle of type `Option String` gives the
text of the error the call returns, `none` being success; the oracles of the
row callback are indexed by the row number, `bufClose` by the number of the
flush.  `bufBytes` is `buf.Bytes()` of a closed batch buffer, `unmarshal` is
`json.Unmarshal`, `validate` is the length of the error list of
`jsch.Validate`, and `readAll` is the error of `dsio.ReadAll` on the diff
buffer. -/
structure Collab where
  batchSize : Nat
  bodySizeSmallEnoughToDiff : Nat
  newEntryReader : Option String
  jsonSchema : Option String
  newBatchBuf : Option String
  newDiffBuf : Option String
  accWriteEntry : Nat → Option String
  renewBatchBuf : Nat → Option String
  batchWriteEntry : Nat → Option String
  diffWriteEntry : Nat → Option String
  bufClose : Nat → Option String
  bufBytes : List Entry → List Nat
  unmarshal : List Nat → Except String JVal
  validate : JVal → Nat
  diffClose : Option String
  readAll : Option String

/-- The state of one save: the fields of `computeFieldsFile` the pipeline
changes, the local variables of `handleRows`, the count of the tracked
reader (`teeReader.BytesRead()`), and the trace of observable events.  An
entry buffer is the list of the entries written to it.  The counters are
Go `int`s; each is bounded by the number of entries or of bytes of the
stream, so they are natural numbers here. -/
structure Cff where
  ds : Dataset
  source : File
  bodySize : Int
  bodyAct : BodyAction
  diffMessageBuf : Option (List Entry)
  batches : Nat
  bytesRead : Nat
  batchBuf : List Entry
  valErrorCount : Nat
  entries : Nat
  depth : Nat
  trace : List Event

/-- Append an event to the trace. -/
def Cff.emit (s : Cff) (e : Event) : Cff := { s with trace := s.trace ++ [e] }

/-- The values sent on the completion channel, in order. -/
def Cff.sends (s : Cff) : List (Option Err) := s.trace.filterMap Event.sent

/-- The error counts the validator reported, batch by batch, in order. -/
def Cff.validations (s : Cff) : List Nat := s.trace.filterMap Event.errs

/-- The calls the statistics accumulator received, in order. -/
def Cff.accLog (s : Cff) : List (Option Entry) := s.trace.filterMap Event.acc

/-! ## The operations -/

/-- The `computeFieldsFile` that `newComputeFieldsFile` builds over the
stream source `bf`: the size is copied from the source when it is a
`qfs.SizeFile` and is -1 otherwise, and `sw.bodyAct` is set to
`BodyDefault`. -/
def Cff.over (ds : Dataset) (bf : File) : Cff :=
  let bodySize : Int :=
    match bf.size with
    | some n => n
    | none => -1
  { ds := ds, source := bf, bodySize := bodySize, bodyAct := .BodyDefault,
    diffMessageBuf := none, batches := 0, bytesRead := 0, batchBuf := [],
    valErrorCount := 0, entries := 0, depth := 0, trace := [] }

/-- The source's `newComputeFieldsFile`, up to the start of the background
consumer: it picks the stream source, copies its size and sets `bodyAct`. -/
def newComputeFieldsFile (ds : Dataset) (prev : Option Dataset) : Except Err Cff :=
  let bf := ds.bodyFile
  let bfPrev : Option File :=
    match prev with
    | some p => p.bodyFile
    | none => none
  match bf, bfPrev with
  | none, none => .error (.simple "bodyfile or previous bodyfile needed")
  | none, some f => .ok (Cff.over ds f)
  | some f, _ => .ok (Cff.over ds f)

/-- The source's `Size`. -/
def Cff.Size (s : Cff) : Int := s.bodySize

/-- The opening of `flushBatch`: the flush is counted and, when the diff
buffer is still kept and the bytes read exceed
`BodySizeSmallEnoughToDiff`, the diff buffer is closed and dropped and
`sw.bodyAct` becomes `BodyTooBig`. -/
def beginFlush (c : Collab) (s : Cff) : Cff :=
  let s := { s with batches := s.batches + 1 }
  if s.diffMessageBuf.isSome ∧ s.bytesRead > c.bodySizeSmallEnoughToDiff then
    { s with diffMessageBuf := none, bodyAct := .BodyTooBig }.emit .dropDiff
  else s

/-- The source's `flushBatch`: after `beginFlush` the buffer is closed, its
bytes are decoded as one JSON document and validated against the schema.
The progress event it may publish is sent from a detached task and changes
nothing here. -/
def flushBatch (c : Collab) (s : Cff) (buf : List Entry) : Cff × Except Err Nat :=
  let k := s.batches
  let s := beginFlush c s
  match c.bufClose k with
  | some e => (s, .error (.wrap "error closing buffer" (.ext e)))
  | none =>
    if (c.bufBytes buf).length = 0 then (s, .ok 0)
    else
      match c.unmarshal (c.bufBytes buf) with
      | .error e => (s, .error (.wrap "error parsing JSON bytes" (.ext e)))
      | .ok doc =>
        let n := c.validate doc
        let s := s.emit (.validated n)
        if s.ds.strict ∧ n > 0 then (s, .error (.strictMode n))
        else (s, .ok n)

/-- First part of the row callback: the depth of the entry raises the running
maximum, the entry is counted, and it is handed to the accumulator. -/
def countEntry (s : Cff) (ent : Entry) : Cff :=
  let d := getDepth ent.value
  let s := if d > s.depth then { s with depth := d } else s
  let s := { s with entries := s.entries + 1 }
  s.emit (.accWrite ent)

/-- A flush as both of its call sites in `handleRows` make it: the batch
buffer is flushed, an error ends the step, and otherwise the error count of
the batch is added to `valErrorCount`. -/
def flushAndCount (c : Collab) (s : Cff) : Cff × Option Err :=
  match flushBatch c s s.batchBuf with
  | (s, .error flushErr) => (s, some flushErr)
  | (s, .ok numValErrs) => ({ s with valErrorCount := s.valErrorCount + numValErrs }, none)

/-- Second part of the row callback, the block under
`if i%batchSize == 0 && i != 0`: the batch buffer is flushed and counted, and
a fresh batch buffer is allocated. -/
def flushIfDue (c : Collab) (s : Cff) (i : Nat) : Cff × Option Err :=
  if i % c.batchSize = 0 ∧ i ≠ 0 then
    match flushAndCount c s with
    | (s, some flushErr) => (s, some flushErr)
    | (s, none) =>
      match c.renewBatchBuf i with
      | some bufErr => (s, some (.wrap "allocating data buffer" (.ext bufErr)))
      | none => ({ s with batchBuf := [] }, none)
  else (s, none)

/-- Last part of the row callback: the entry is written to the batch buffer
and, while the diff buffer is kept, to the diff buffer. -/
def bufferEntry (c : Collab) (s : Cff) (i : Nat) (ent : Entry) : Cff × Option Err :=
  match c.batchWriteEntry i with
  | some e => (s, some (.wrap ("writing row " ++ toString i) (.ext e)))
  | none =>
    let s := { s with batchBuf := s.batchBuf ++ [ent] }
    match s.diffMessageBuf with
    | none => (s, none)
    | some buf =>
      match c.diffWriteEntry i with
      | some e => (s, some (.ext e))
      | none => ({ s with diffMessageBuf := some (buf ++ [ent]) }, none)

/-- The callback `handleRows` gives to `dsio.EachEntry`, called with the row
number, the entry and the read error; its body is `countEntry`, the call of
`acc.WriteEntry`, `flushIfDue` and `bufferEntry`, in this order, each error
ending the callback. -/
def onEntry (c : Collab) (s : Cff) (i : Nat) (ent : Entry) (err : Option String) :
    Cff × Option Err :=
  match err with
  | some e => (s, some (.wrap ("reading row " ++ toString i) (.ext e)))
  | none =>
    let s := countEntry s ent
    match c.accWriteEntry i with
    | some e => (s, some (.ext e))
    | none =>
      match flushIfDue c s i with
      | (s, some e) => (s, some e)
      | (s, none) => bufferEntry c s i ent

/-- The loop of `dsio.EachEntry` over the entry reader: a read that fails
ends the loop with its error, the end of the stream ends it with no error,
and every entry read goes to the callback with its row number.  The bytes
of a read are counted by the tracked reader before the read returns, and the
end of the stream is seen once the last byte is counted. -/
def eachEntry (c : Collab) (tail : Nat) : List Read → Nat → Cff → Cff × Option Err
  | [], _, s => ({ s with bytesRead := s.bytesRead + tail }, none)
  | r :: rest, num, s =>
    let s := { s with bytesRead := s.bytesRead + r.bytes }
    match r.result with
    | .error e => (s, some (.ext e))
    | .ok ent =>
      match onEntry c s num ent none with
      | (s, some e) => (s, some e)
      | (s, none) => eachEntry c tail rest (num + 1) s

/-- The closing steps of `handleRows`, after the last flush: the derived
fields are written, the accumulator is closed and, when the diff buffer is
still kept, it is closed and read back into `ds.Body`.  A failed close sends
its error and goes on to the read-back; a failed read-back leaves Go's nil
in `ds.Body`. -/
def finish (c : Collab) (s : Cff) : Cff :=
  let s := { s with ds := { s.ds with errCount := s.valErrorCount, entries := s.entries,
                                      depth := s.depth + 1, length := s.bytesRead } }
  let s := s.emit (.setStructure s.valErrorCount s.entries (s.depth + 1) s.bytesRead)
  let s := s.emit .accClose
  match s.diffMessageBuf with
  | none => s.emit (.send none)
  | some buf =>
    let s :=
      match c.diffClose with
      | some e => s.emit (.send (some (.wrap "closing body data buffer" (.ext e))))
      | none => s
    match c.readAll with
    | some e =>
      { s with ds := { s.ds with body := none } }.emit
        (.send (some (.wrap "inlining buffered body data" (.ext e))))
    | none =>
      ({ s with ds := { s.ds with body := some buf } }.emit .setBody).emit (.send none)

/-- The source's `handleRows` together with the task it starts, run to the
end over the body of the stream source. -/
def handleRows (c : Collab) (s : Cff) : Cff :=
  let s := { s with valErrorCount := 0, entries := 0, depth := 0 }
  match c.newEntryReader with
  | some e => s.emit (.send (some (.wrap "creating entry reader" (.ext e))))
  | none =>
    match c.jsonSchema with
    | some e => s.emit (.send (some (.ext e)))
    | none =>
      match c.newBatchBuf with
      | some e => s.emit (.send (some (.wrap "allocating data buffer" (.ext e))))
      | none =>
        let s := { s with batchBuf := [] }
        match c.newDiffBuf with
        | some e => s.emit (.send (some (.wrap "allocating data buffer" (.ext e))))
        | none =>
          let s := { s with diffMessageBuf := some [] }
          match eachEntry c s.source.content.tail s.source.content.reads 0 s with
          | (s, some e) => s.emit (.send (some (.wrap "processing body data" e)))
          | (s, none) =>
            match flushAndCount c s with
            | (s, some e) => s.emit (.send (some e))
            | (s, none) => finish c s

/-! ## Predicates used to state what a run does -/

/-- Every count of the list is 0. -/
def AllZero (vs : List Nat) : Prop := ∀ v ∈ vs, v = 0

/-- The shape of the validation counts `vs` of a stretch of a run that ends
with the strict-mode count `sc` (`none` when it does not end with a
strict-mode error): in strict mode all counts are 0 as long as no
strict-mode error is raised, and a strict-mode error reporting `n` comes
right after a validation that counted `n > 0`, the last of the stretch. -/
def ValShape (strict : Bool) (vs : List Nat) : Option Nat → Prop
  | none => strict = true → AllZero vs
  | some n => strict = true ∧ 0 < n ∧ ∃ zs, vs = zs ++ [n] ∧ AllZero zs

/-- The strict-mode count of the outcome of a step, if it is a strict-mode
error. -/
def strictOf (res : Option Err) : Option Nat :=
  match res with
  | some e => e.strictCount
  | none => none

/-- What a stretch of the consumer does to the state: it takes `s` to `s'`,
counts the entries `cnt` (depth, entry count, accumulator), writes the
entries `buf` to the buffers, and ends with `res`. -/
structure Run (c : Collab) (s s' : Cff) (cnt buf : List Entry) (res : Option Err) : Prop where
  ds : s'.ds = s.ds
  source : s'.source = s.source
  bodySize : s'.bodySize = s.bodySize
  sends : s'.sends = s.sends
  bytes : s.bytesRead ≤ s'.bytesRead
  dropped : s.diffMessageBuf = none → s'.diffMessageBuf = none ∧ s'.bodyAct = s.bodyAct
  vals : ∃ vs, s'.validations = s.validations ++ vs ∧ ValShape s.ds.strict vs (strictOf res) ∧
    (res = none → s'.valErrorCount = s.valErrorCount + vs.sum)
  depth : res = none →
    s'.depth = max s.depth (maxDepthOf (cnt.map fun e => getDepth e.value))
  entries : res = none → s'.entries = s.entries + cnt.length
  accLog : res = none → s'.accLog = s.accLog ++ cnt.map some
  kept : res = none → ∀ d, s.diffMessageBuf = some d →
    (s'.diffMessageBuf = some (d ++ buf) ∧ s'.bodyAct = s.bodyAct) ∨
    (s'.diffMessageBuf = none ∧ s'.bodyAct = .BodyTooBig ∧
      c.bodySizeSmallEnoughToDiff < s'.bytesRead)

/-- Every call into another package succeeds, and the bytes of a closed
batch buffer decode as JSON. -/
structure Collab.Sound (c : Collab) : Prop where
  newEntryReader : c.newEntryReader = none
  jsonSchema : c.jsonSchema = none
  newBatchBuf : c.newBatchBuf = none
  newDiffBuf : c.newDiffBuf = none
  accWriteEntry : ∀ i, c.accWriteEntry i = none
  renewBatchBuf : ∀ i, c.renewBatchBuf i = none
  batchWriteEntry : ∀ i, c.batchWriteEntry i = none
  diffWriteEntry : ∀ i, c.diffWriteEntry i = none
  bufClose : ∀ k, c.bufClose k = none
  unmarshal : ∀ es, ∃ doc, c.unmarshal (c.bufBytes es) = .ok doc
  diffClose : c.diffClose = none
  readAll : c.readAll = none

/-- The state in which `handleRows` enters the loop over the entries: the
three local counters are 0 and both buffers are freshly allocated. -/
def Cff.ready (s : Cff) : Cff :=
  { s with valErrorCount := 0, entries := 0, depth := 0, batchBuf := [],
           diffMessageBuf := some [] }

/-- The same state with `Structure.Strict` switched off. -/
def Cff.relax (s : Cff) : Cff := { s with ds := { s.ds with strict := false } }

/-- How the outcome `p` of a step from a state relates to the outcome `q`
of the same step from the relaxed state: when `p` ends well, `q` is `p`
relaxed, and in any case `q` has seen the validations of `p` and maybe
more. -/
def Sim (p q : Cff × Option Err) : Prop :=
  (p.2 = none → q = (p.1.relax, none)) ∧ p.1.validations <+: q.1.validations

/-! ## Sample inputs -/

/-- A sample set of collaborators in which every call succeeds.  A batch is
serialised as one byte per entry between two brackets, the byte being 0 when
the entry's value is not a number; the decoder gives the bytes back as an
array of numbers and the validator reports one error per 0. -/
def Collab.sample (batchSize threshold : Nat) : Collab :=
  { batchSize := batchSize
    bodySizeSmallEnoughToDiff := threshold
    newEntryReader := none
    jsonSchema := none
    newBatchBuf := none
    newDiffBuf := none
    accWriteEntry := fun _ => none
    renewBatchBuf := fun _ => none
    batchWriteEntry := fun _ => none
    diffWriteEntry := fun _ => none
    bufClose := fun _ => none
    bufBytes := fun es =>
      91 :: (es.map fun e => match e.value with
        | .num _ => 1
        | _ => 0) ++ [93]
    unmarshal := fun bs => .ok (.arr (bs.map fun b => .num b))
    validate := fun doc =>
      match doc with
      | .arr xs => (xs.filter fun v => match v with
        | .num 0 => true
        | _ => false).length
      | _ => 0
    diffClose := none
    readAll := none }

/-- A sample body: one read of `n` bytes per value, all decoding, and no
bytes after the last entry. -/
def Body.sample (n : Nat) (vs : List JVal) : Body :=
  { reads := vs.map fun v => { bytes := n, result := .ok { index := 0, key := "", value := v } }
    tail := 0 }

/-- A sample body file of unknown size holding the given body. -/
def File.sample (b : Body) : File := { name := "body.json", size := none, content := b }

/-- A sample dataset whose body file holds the given body. -/
def Dataset.sample (strict : Bool) (b : Body) : Dataset :=
  { bodyFile := some (File.sample b)
    strict := strict, errCount := 0, entries := 0, depth := 0, length := 0, body := none }

/-! ## Progress events -/

/-- The completion a save-progress event carries:
`float64(bytesRead) / float64(bodySize)`, kept as its two operands, or the
fixed 0.1 that `handleRows` uses when the size is not known. -/
inductive Completion where
  | ratio (bytesRead : Nat) (bodySize : Int) : Completion
  | placeholder : Completion
deriving DecidableEq

/-- A call of `publisher.Publish` with a save-progress event: the completion
of the event and the error the call returns, which the source only logs. -/
structure Published where
  completion : Completion
  evtErr : Option String
deriving DecidableEq

/-- The optional event bus of `computeFieldsFile`: `none` is the nil
publisher, and a publisher answers each event with the error of `Publish`. -/
abbrev Publisher := Option (Completion → Option String)

/-- The source's `flushBatch` with its publisher: the outcome of the flush
and the events published.  The event is published from a detached task; its
completion is taken where the task is started. -/
def flushBatchP (c : Collab) (pub : Publisher) (s : Cff) (buf : List Entry) :
    (Cff × Except Err Nat) × List Published :=
  let k := s.batches
  let s := beginFlush c s
  match c.bufClose k with
  | some e => ((s, .error (.wrap "error closing buffer" (.ext e))), [])
  | none =>
    if (c.bufBytes buf).length = 0 then ((s, .ok 0), [])
    else
      match c.unmarshal (c.bufBytes buf) with
      | .error e => ((s, .error (.wrap "error parsing JSON bytes" (.ext e))), [])
      | .ok doc =>
        let n := c.validate doc
        let s := s.emit (.validated n)
        if s.ds.strict ∧ n > 0 then ((s, .error (.strictMode n)), [])
        else
          match pub with
          | some publish =>
            if s.bodySize > 0 then
              ((s, .ok n), [{ completion := .ratio s.bytesRead s.bodySize,
                              evtErr := publish (.ratio s.bytesRead s.bodySize) }])
            else ((s, .ok n), [])
          | none => ((s, .ok n), [])

/-- The step `flushAndCount` with the publisher. -/
def flushAndCountP (c : Collab) (pub : Publisher) (s : Cff) :
    (Cff × Option Err) × List Published :=
  match flushBatchP c pub s s.batchBuf with
  | ((s, .error flushErr), evts) => ((s, some flushErr), evts)
  | ((s, .ok numValErrs), evts) =>
    (({ s with valErrorCount := s.valErrorCount + numValErrs }, none), evts)

/-- The step `flushIfDue` with the publisher. -/
def flushIfDueP (c : Collab) (pub : Publisher) (s : Cff) (i : Nat) :
    (Cff × Option Err) × List Published :=
  if i % c.batchSize = 0 ∧ i ≠ 0 then
    match flushAndCountP c pub s with
    | ((s, some flushErr), evts) => ((s, some flushErr), evts)
    | ((s, none), evts) =>
      match c.renewBatchBuf i with
      | some bufErr => ((s, some (.wrap "allocating data buffer" (.ext bufErr))), evts)
      | none => (({ s with batchBuf := [] }, none), evts)
  else ((s, none), [])

/-- The row callback with the publisher. -/
def onEntryP (c : Collab) (pub : Publisher) (s : Cff) (i : Nat) (ent : Entry)
    (err : Option String) : (Cff × Option Err) × List Published :=
  match err with
  | some e => ((s, some (.wrap ("reading row " ++ toString i) (.ext e))), [])
  | none =>
    let s := countEntry s ent
    match c.accWriteEntry i with
    | some e => ((s, some (.ext e)), [])
    | none =>
      match flushIfDueP c pub s i with
      | ((s, some e), evts) => ((s, some e), evts)
      | ((s, none), evts) => (bufferEntry c s i ent, evts)

/-- The loop of `dsio.EachEntry` with the publisher. -/
def eachEntryP (c : Collab) (pub : Publisher) (tail : Nat) :
    List Read → Nat → Cff → (Cff × Option Err) × List Published
  | [], _, s => (({ s with bytesRead := s.bytesRead + tail }, none), [])
  | r :: rest, num, s =>
    let s := { s with bytesRead := s.bytesRead + r.bytes }
    match r.result with
    | .error e => ((s, some (.ext e)), [])
    | .ok ent =>
      match onEntryP c pub s num ent none with
      | ((s, some e), evts) => ((s, some e), evts)
      | ((s, none), evts) =>
        ((eachEntryP c pub tail rest (num + 1) s).1,
          evts ++ (eachEntryP c pub tail rest (num + 1) s).2)

/-- The event `handleRows` publishes once its set-up is done: the completion
is 0.1, or the bytes read over the body size when the size is not
negative. -/
def startEvent (publish : Completion → Option String) (s : Cff) : Published :=
  if s.bodySize ≥ 0 then
    { completion := .ratio s.bytesRead s.bodySize,
      evtErr := publish (.ratio s.bytesRead s.bodySize) }
  else { completion := .placeholder, evtErr := publish .placeholder }

/-- The source's `handleRows` with its publisher: the state the run ends in
and the save-progress events published, in the order their tasks are
started. -/
def handleRowsP (c : Collab) (pub : Publisher) (s : Cff) : Cff × List Published :=
  let s := { s with valErrorCount := 0, entries := 0, depth := 0 }
  match c.newEntryReader with
  | some e => (s.emit (.send (some (.wrap "creating entry reader" (.ext e)))), [])
  | none =>
    match c.jsonSchema with
    | some e => (s.emit (.send (some (.ext e))), [])
    | none =>
      match c.newBatchBuf with
      | some e => (s.emit (.send (some (.wrap "allocating data buffer" (.ext e)))), [])
      | none =>
        let s := { s with batchBuf := [] }
        match c.newDiffBuf with
        | some e => (s.emit (.send (some (.wrap "allocating data buffer" (.ext e)))), [])
        | none =>
          let s := { s with diffMessageBuf := some [] }
          let started : List Published :=
            match pub with
            | some publish => [startEvent publish s]
            | none => []
          match eachEntryP c pub s.source.content.tail s.source.content.reads 0 s with
          | ((s, some e), evts) =>
            (s.emit (.send (some (.wrap "processing body data" e))), started ++ evts)
          | ((s, none), evts) =>
            match flushAndCountP c pub s with
            | ((s, some e), last) => (s.emit (.send (some e)), started ++ evts ++ last)
            | ((s, none), last) => (finish c s, started ++ evts ++ last)

/-- The number of validations of a list that do not raise the strict-mode
error. -/
def passed (strict : Bool) (vs : List Nat) : Nat :=
  (vs.filter fun v => !(strict && decide (0 < v))).length

/-- The four set-up steps of `handleRows` succeed. -/
def Collab.setUp (c : Collab) : Prop :=
  c.newEntryReader = none ∧ c.jsonSchema = none ∧ c.newBatchBuf = none ∧ c.newDiffBuf = none

/-- A sample body file of known size holding the given body. -/
def File.sized (size : Int) (b : Body) : File :=
  { name := "body.json", size := some size, content := b }

/-- What a stretch of the consumer that takes `s` to `s'` publishes: the
strictness and the body size are kept; nothing is published without a
publisher or when the body size is not positive; otherwise one event is
published for each validation of the stretch that does not raise the
strict-mode error, and each event carries a count of bytes over the body
size and the answer of the publisher to it. -/
structure Emits (pub : Publisher) (s s' : Cff) (evts : List Published) : Prop where
  strict : s'.ds.strict = s.ds.strict
  bodySize : s'.bodySize = s.bodySize
  quiet : pub = none ∨ s.bodySize ≤ 0 → evts = []
  count : pub.isSome = true → 0 < s.bodySize →
    passed s.ds.strict s'.validations = passed s.ds.strict s.validations + evts.length
  shape : ∀ publish, pub = some publish → ∀ e ∈ evts, ∃ b,
    e = { completion := .ratio b s.bodySize, evtErr := publish (.ratio b s.bodySize) }

/-- The count of the tracked reader at each call of `flushBatch` that the
loop over the entries makes, in order, when it runs over `reads` from the
row number `num` with `bytes` bytes read before: the bytes of a read are
counted before its entry reaches the callback, and the callback flushes
when the row number is a positive multiple of the batch size. -/
def loopPoints (batchSize : Nat) : List Read → Nat → Nat → List Nat
  | [], _, _ => []
  | r :: rest, num, bytes =>
    if num % batchSize = 0 ∧ num ≠ 0 then
      (bytes + r.bytes) :: loopPoints batchSize rest (num + 1) (bytes + r.bytes)
    else loopPoints batchSize rest (num + 1) (bytes + r.bytes)

/-- The count of the tracked reader at each call of `flushBatch` in a run
over a body that reads it to the end: the calls of the loop, and the last
call, made once all the bytes of the body are counted. -/
def flushPoints (batchSize : Nat) (b : Body) : List Nat :=
  loopPoints batchSize b.reads 0 0 ++ [b.length]

/-! ## The depth as a nesting level -/

/-- A scalar: a value that is neither an array nor an object. -/
def JVal.isScalar : JVal → Bool
  | .obj _ => false
  | .arr _ => false
  | _ => true

mutual
/-- The nesting levels of a value, following the words of the specification:
one number for each path from the value down to one of its leaves, the
number of containers (arrays and objects) on that path.  A scalar is a leaf
with no container above it, and a container without children is a leaf that
counts itself. -/
def levels : JVal → List Nat
  | .obj kvs => if kvs.isEmpty then [1] else (levelsObj kvs).map (· + 1)
  | .arr xs => if xs.isEmpty then [1] else (levelsArr xs).map (· + 1)
  | _ => [0]
/-- The levels of the paths that start in the elements of an array. -/
def levelsArr : List JVal → List Nat
  | [] => []
  | el :: rest => levels el ++ levelsArr rest
/-- The levels of the paths that start in the members of an object. -/
def levelsObj : List (String × JVal) → List Nat
  | [] => []
  | (_, el) :: rest => levels el ++ levelsObj rest
end

/-! ## The batches handed to `flushBatch` -/

/-- The step `flushAndCount` together with the batch buffer it hands to
`flushBatch`. -/
def flushAndCountL (c : Collab) (s : Cff) : (Cff × Option Err) × List (List Entry) :=
  (flushAndCount c s, [s.batchBuf])

/-- The step `flushIfDue` together with the batches handed to `flushBatch`. -/
def flushIfDueL (c : Collab) (s : Cff) (i : Nat) : (Cff × Option Err) × List (List Entry) :=
  if i % c.batchSize = 0 ∧ i ≠ 0 then
    match flushAndCountL c s with
    | ((s, some flushErr), log) => ((s, some flushErr), log)
    | ((s, none), log) =>
      match c.renewBatchBuf i with
      | some bufErr => ((s, some (.wrap "allocating data buffer" (.ext bufErr))), log)
      | none => (({ s with batchBuf := [] }, none), log)
  else ((s, none), [])

/-- The row callback together with the batches handed to `flushBatch`. -/
def onEntryL (c : Collab) (s : Cff) (i : Nat) (ent : Entry) (err : Option String) :
    (Cff × Option Err) × List (List Entry) :=
  match err with
  | some e => ((s, some (.wrap ("reading row " ++ toString i) (.ext e))), [])
  | none =>
    let s := countEntry s ent
    match c.accWriteEntry i with
    | some e => ((s, some (.ext e)), [])
    | none =>
      match flushIfDueL c s i with
      | ((s, some e), log) => ((s, some e), log)
      | ((s, none), log) => (bufferEntry c s i ent, log)

/-- The loop of `dsio.EachEntry` together with the batches handed to
`flushBatch`, in the order of the calls. -/
def eachEntryL (c : Collab) (tail : Nat) :
    List Read → Nat → Cff → (Cff × Option Err) × List (List Entry)
  | [], _, s => (({ s with bytesRead := s.bytesRead + tail }, none), [])
  | r :: rest, num, s =>
    let s := { s with bytesRead := s.bytesRead + r.bytes }
    match r.result with
    | .error e => ((s, some (.ext e)), [])
    | .ok ent =>
      match onEntryL c s num ent none with
      | ((s, some e), log) => ((s, some e), log)
      | ((s, none), log) =>
        ((eachEntryL c tail rest (num + 1) s).1, log ++ (eachEntryL c tail rest (num + 1) s).2)

/-- The source's `handleRows` together with the batches it hands to
`flushBatch`, in the order of the calls. -/
def handleRowsL (c : Collab) (s : Cff) : Cff × List (List Entry) :=
  let s := { s with valErrorCount := 0, entries := 0, depth := 0 }
  match c.newEntryReader with
  | some e => (s.emit (.send (some (.wrap "creating entry reader" (.ext e)))), [])
  | none =>
    match c.jsonSchema with
    | some e => (s.emit (.send (some (.ext e))), [])
    | none =>
      match c.newBatchBuf with
      | some e => (s.emit (.send (some (.wrap "allocating data buffer" (.ext e)))), [])
      | none =>
        let s := { s with batchBuf := [] }
        match c.newDiffBuf with
        | some e => (s.emit (.send (some (.wrap "allocating data buffer" (.ext e)))), [])
        | none =>
          let s := { s with diffMessageBuf := some [] }
          match eachEntryL c s.source.content.tail s.source.content.reads 0 s with
          | ((s, some e), log) => (s.emit (.send (some (.wrap "processing body data" e))), log)
          | ((s, none), log) =>
            match flushAndCountL c s with
            | ((s, some e), last) => (s.emit (.send (some e)), log ++ last)
            | ((s, none), last) => (finish c s, log ++ last)

/-- Where the loop stands after `num` entries: the batches flushed so far
(`done`) and the batch buffer (`buf`) hold the entries `es` read so far, in
order; every flushed batch is full; and the buffer holds between 1 and
`batchSize` entries once an entry has been read. -/
structure Batched (batchSize num : Nat) (done : List (List Entry)) (buf es : List Entry) :
    Prop where
  order : done.flatten ++ buf = es
  full : ∀ b ∈ done, b.length = batchSize
  count : done.length * batchSize + buf.length = num
  held : 0 < num → 1 ≤ buf.length ∧ buf.length ≤ batchSize

/-! ## The reading side: `computeFieldsFile.Read` -/

/-- One answer of the body file to a call of `Read`: the bytes it puts in
the caller's slice and the error it returns with them, `"EOF"` being the
text of `io.EOF`. -/
structure Pull where
  bytes : List Nat
  err : Option String

/-- The reading side of a `computeFieldsFile`: the answers the body file
still has to give, the bytes handed to the callers of `Read` so far, the
bytes written to the pipe so far, whether the pipe writer is closed, the
number of calls of `pipeWriter.Close`, and the count of the tracked
reader. -/
structure Feed where
  body : List Pull
  handed : List Nat
  piped : List Nat
  pipeClosed : Bool
  closes : Nat
  tracked : Nat

/-- The reading side that `newComputeFieldsFile` sets up over a body file:
nothing read yet and the pipe open. -/
def Feed.over (body : List Pull) : Feed :=
  { body := body, handed := [], piped := [], pipeClosed := false, closes := 0, tracked := 0 }

/-- One `Read` of `cff.teeReader`, the tracked reader over
`io.TeeReader(bf, pw)`, as the Go library documents it: the body file is
read, the bytes it gives are written to the pipe before the read returns,
and a write that fails (the pipe writer is closed) makes the read return
the count and the error of the write.  A body file with no answer left
returns no bytes and `io.EOF`.  The result is the new state, the bytes
returned and the error. -/
def teeRead (f : Feed) : Feed × List Nat × Option String :=
  match f.body with
  | [] => (f, [], some "EOF")
  | p :: rest =>
    let f := { f with body := rest }
    if p.bytes.length > 0 then
      if f.pipeClosed then (f, [], some "io: read/write on closed pipe")
      else
        ({ f with piped := f.piped ++ p.bytes, tracked := f.tracked + p.bytes.length },
          p.bytes, p.err)
    else (f, [], p.err)

/-- The source's `Read`: the count and the error are those of the tee
reader, and the pipe writer is closed when the text of the error is
"EOF".  The result is the new state, the count `n` and the error. -/
def Feed.Read (f : Feed) : Feed × Nat × Option String :=
  match teeRead f with
  | (f, bytes, err) =>
    let f := { f with handed := f.handed ++ bytes }
    if err = some "EOF" then
      ({ f with pipeClosed := true, closes := f.closes + 1 }, bytes.length, err)
    else (f, bytes.length, err)

/-- The state after `k` calls of `Read`. -/
def Feed.calls (f : Feed) : Nat → Feed
  | 0 => f
  | k + 1 => (f.calls k).Read.1

/-! ## Commit descriptions -/

/-- Modelled from the spec: a dataset version as the commit message
generator sees it (the function `generateCommitDescriptions` of `base/dsfs`
and what it calls are not among the source files; only its test in
`write_test.go` is).  A version lists the components that are present, by
kind ("meta", "structure", "readme", "body", ...), each with its fields. -/
abbrev Version := List (String × List (String × String))

/-- Modelled from the spec: the value of the component of a kind in a
version, `none` when the component is absent. -/
def Version.get (v : Version) (kind : String) : Option (List (String × String)) :=
  (v.find? fun kv => kv.1 = kind).map Prod.snd

/-- Modelled from the spec: the component kinds "present in either
version" that differ between the two versions. -/
def differing (prev next : Version) : List String :=
  (prev.map Prod.fst ++ next.map Prod.fst).eraseDups.filter fun kind =>
    decide (prev.get kind ≠ next.get kind)

/-- Modelled from the spec: `generateCommitDescriptions(ds, prev, bodyAct,
forceIfNoChanges)`, the short title and the long message, or the error.
A previous version that is entirely empty gives "created dataset" (the
spec: "created dataset" goes with a previous that "was entirely empty"; the
test file: "Need a previous commit, otherwise we just get the "created
dataset" message").  With a previous version that holds a component: "If
no component differs and the caller has not requested a forced update, the
generator fails with a "no changes" error; if forced, it returns a fixed
"forced update" message"; otherwise the changes are described, which is
left to `describe`. -/
def generateCommitDescriptions
    (describe : Version → Version → BodyAction → List String → String × String)
    (ds prev : Version) (bodyAct : BodyAction) (forceIfNoChanges : Bool) :
    Except String (String × String) :=
  if prev = [] then .ok ("created dataset", "created dataset")
  else if differing prev ds = [] then
    if forceIfNoChanges then .ok ("forced update", "forced update")
    else .error "no changes"
  else .ok (describe prev ds bodyAct (differing prev ds))

end Dsfs

/-! ## The component model (`base/component/kinds.go`)

The kinds of component, their `Compare`, `LoadAndFill`, `WriteTo` and
`DropDerivedValues`, and the sub-component map of `BaseComponent`.  Files,
decoders, the `dataset` values and `filepath.Join` belong to other packages;
what they answer is supplied by a record of functions, `World`.  Errors are
kept as their text and file contents as strings. -/

namespace Kinds

/-- The kinds of component that `kinds.go` declares. -/
inductive Kind where
  | filesys : Kind
  | dataset : Kind
  | meta : Kind
  | structure : Kind
  | commit : Kind
  | body : Kind
  | readme : Kind
  | transform : Kind
deriving DecidableEq

/-- A decoded file, `map[string]interface{}`. -/
abbrev Fields := List (String × Dsfs.JVal)

/-- The value a component points to, a `dataset.Meta`, `Structure`, `Commit`,
`Readme`, `Transform` or `Dataset`: its `Text` (readme and transform) and
its other fields. -/
structure Payload where
  text : String
  fields : Fields

/-- The fields the kinds add to `BaseComponent`: `Value` (`none` is Go's
nil), `DisableSerialization` of a meta component, whether a `Resolver` is
set (body, readme, transform), and `BodyFile`, `Structure`,
`InferredSchema` and `Value` of a body component. -/
structure Extra where
  value : Option Payload
  disableSerialization : Bool
  hasResolver : Bool
  bodyFile : Option String
  bodyStructure : Option Payload
  inferredSchema : Option Fields
  bodyValue : Option Dsfs.JVal

/-- The zero value of the added fields, as in `&MetaComponent{BaseComponent: base}`. -/
def Extra.zero : Extra :=
  { value := none, disableSerialization := false, hasResolver := false, bodyFile := none,
    bodyStructure := none, inferredSchema := none, bodyValue := none }

/-- A component: its kind, the fields of its embedded `BaseComponent`
(`Subcomponents`, `ProblemKind`, `ProblemMessage`, `SourceFile`, `IsLoaded`,
`Format`), and the fields its kind adds.  The sub-component map is listed as
its key/value pairs. -/
inductive Component where
  | mk (kind : Kind) (subcomponents : List (String × Component))
      (problemKind problemMessage sourceFile : String) (isLoaded : Bool) (format : String)
      (extra : Extra) : Component

/-- The fields of `BaseComponent` that `kinds.go` uses; the declaration of
the type is in another file of the package. -/
structure BaseComponent where
  subcomponents : List (String × Component)
  problemKind : String
  problemMessage : String
  sourceFile : String
  isLoaded : Bool
  format : String

/-- The zero value of `BaseComponent`. -/
def BaseComponent.zero : BaseComponent :=
  { subcomponents := [], problemKind := "", problemMessage := "", sourceFile := "",
    isLoaded := false, format := "" }

/-- The kind of a component. -/
def Component.kind : Component → Kind
  | .mk k _ _ _ _ _ _ _ => k

/-- The source's `Base`: the embedded `BaseComponent`. -/
def Component.Base : Component → BaseComponent
  | .mk _ subs pk pm sf il fmt _ =>
    { subcomponents := subs, problemKind := pk, problemMessage := pm, sourceFile := sf,
      isLoaded := il, format := fmt }

/-- The fields the kind adds. -/
def Component.extra : Component → Extra
  | .mk _ _ _ _ _ _ _ e => e

/-- A component of the given kind over a `BaseComponent`. -/
def Component.ofBase (k : Kind) (b : BaseComponent) (e : Extra) : Component :=
  .mk k b.subcomponents b.problemKind b.problemMessage b.sourceFile b.isLoaded b.format e

/-- The component with its embedded `BaseComponent` replaced. -/
def Component.withBase (c : Component) (b : BaseComponent) : Component :=
  Component.ofBase c.kind b c.extra

/-- The component with the fields of its kind replaced. -/
def Component.withExtra (c : Component) (e : Extra) : Component :=
  Component.ofBase c.kind c.Base e

/-- The part of `dataset.Dataset` that `LoadAndFill` assigns. -/
structure Dataset where
  Meta : Option Payload
  Structure : Option Payload
  Commit : Option Payload
  Readme : Option Payload
  Transform : Option Payload

/-- An entry reader, `dsio.EntryReader`: the schema of its structure, what
`dsio.GetTopLevelType` answers for it, and the results of its reads up to
the end of the stream. -/
structure Reader where
  schema : Option Fields
  topLevel : Except String String
  reads : List (Except String Dsfs.Entry)

/-- What the other packages answer.  `fillStruct` and `inlineScriptFile`
give the value as they leave it and their error; `marshal` is `json.Marshal`
of a value that may be nil, `marshalIndent` is `json.MarshalIndent`;
`writeFile` gives the error of `ioutil.WriteFile`; `join` is
`filepath.Join`; `serialize` is the bytes the entry writer of
`SerializeBody` holds once the entries are written and it is closed. -/
structure World where
  readFile : String → Except String String
  jsonUnmarshal : String → Except String Fields
  yamlUnmarshal : String → Except String Fields
  fillStruct : Kind → Fields → Payload × Option String
  inlineScriptFile : Payload → Payload × Option String
  isEmpty : Payload → Bool
  dropDerived : Payload → Payload
  marshal : Option Payload → Except String String
  marshalBody : Option Dsfs.JVal → Except String String
  marshalIndent : Payload → Except String String
  join : String → String → String
  writeFile : String → String → Option String
  newEntryReader : Option Payload → String → Except String Reader
  resolverGet : String → Except String String
  osOpen : String → Except String String
  detectSchema : String → String → Except String Fields
  requiresTabularSchema : Payload → Bool
  schemaIsNil : Payload → Bool
  tabularSchema : Option Dsfs.JVal → Except String Fields
  assignSchema : Fields → Payload → Payload
  newEntryWriter : Payload → Option String
  serialize : Payload → List Dsfs.Entry → String

/-! ### The sub-component map -/

/-- Reading a key of a map. -/
def mapGet (m : List (String × Component)) (name : String) : Option Component :=
  match m with
  | [] => none
  | (k, v) :: rest => if k = name then some v else mapGet rest name

/-- Assigning a key of a map: the value of the key is replaced, or the key
is added. -/
def mapSet (m : List (String × Component)) (name : String) (c : Component) :
    List (String × Component) :=
  match m with
  | [] => [(name, c)]
  | (k, v) :: rest => if k = name then (name, c) :: rest else (k, v) :: mapSet rest name c

/-- The source's `GetSubcomponent`. -/
def BaseComponent.GetSubcomponent (bc : BaseComponent) (name : String) : Option Component :=
  mapGet bc.subcomponents name

/-- The source's `SetSubcomponent`: the base after the call and the
component returned (`none` is nil). -/
def BaseComponent.SetSubcomponent (bc : BaseComponent) (name : String) (base : BaseComponent) :
    BaseComponent × Option Component :=
  let made : Option Component :=
    if name = "meta" then some (Component.ofBase .meta base Extra.zero)
    else if name = "commit" then some (Component.ofBase .commit base Extra.zero)
    else if name = "structure" then some (Component.ofBase .structure base Extra.zero)
    else if name = "readme" then some (Component.ofBase .readme base Extra.zero)
    else if name = "transform" then some (Component.ofBase .transform base Extra.zero)
    else if name = "body" then some (Component.ofBase .body base Extra.zero)
    else if name = "dataset" then some (Component.ofBase .dataset base Extra.zero)
    else none
  match made with
  | none => (bc, none)
  | some component =>
    ({ bc with subcomponents := mapSet bc.subcomponents name component }, some component)

/-! ### Loading -/

/-- The source's `SetErrorAsProblem`. -/
def BaseComponent.SetErrorAsProblem (bc : BaseComponent) (kind : String) (err : String) :
    BaseComponent :=
  { bc with problemKind := kind, problemMessage := err }

/-- The source's `LoadFile`: the base after the call and the decoded fields
(`none` is the nil map) or the error. -/
def BaseComponent.LoadFile (w : World) (bc : BaseComponent) :
    BaseComponent × Except String (Option Fields) :=
  if bc.isLoaded then (bc, .ok none)
  else
    match w.readFile bc.sourceFile with
    | .error err => (bc.SetErrorAsProblem "file-open" err, .error err)
    | .ok data =>
      let bc := { bc with isLoaded := true }
      if bc.format = "json" then
        match w.jsonUnmarshal data with
        | .error err => (bc.SetErrorAsProblem "parse" err, .error err)
        | .ok fields => (bc, .ok (some fields))
      else if bc.format = "yaml" then
        match w.yamlUnmarshal data with
        | .error err => (bc.SetErrorAsProblem "parse" err, .error err)
        | .ok fields => (bc, .ok (some fields))
      else if bc.format = "html" ∨ bc.format = "md" ∨ bc.format = "star" then
        (bc, .ok (some [("text", .str data)]))
      else (bc, .error ("unknown local file format \"" ++ bc.format ++ "\""))

/-- The assignment `ds.Meta = mc.Value` and its like for the other kinds. -/
def Dataset.assign (ds : Dataset) (k : Kind) (v : Payload) : Dataset :=
  match k with
  | .meta => { ds with Meta := some v }
  | .structure => { ds with Structure := some v }
  | .commit => { ds with Commit := some v }
  | .readme => { ds with Readme := some v }
  | .transform => { ds with Transform := some v }
  | _ => ds

/-- The block `LoadFile`, `Value = &T{}`, `fill.Struct` that the five
`LoadAndFill` share: the component after it and the error. -/
def loadValue (w : World) (c : Component) : Component × Option String :=
  match c.Base.LoadFile w with
  | (b, .error err) => (c.withBase b, some err)
  | (b, .ok fields) =>
    let c := c.withBase b
    let filled := w.fillStruct c.kind (fields.getD [])
    (c.withExtra { c.extra with value := some filled.1 }, filled.2)

/-- The `LoadAndFill` of a meta, structure or commit component: the
component and the dataset after the call, and the error. -/
def loadStructured (w : World) (c : Component) (ds : Option Dataset) :
    Component × Option Dataset × Option String :=
  if c.Base.isLoaded then (c, ds, none)
  else if c.extra.value.isSome then
    (c.withBase { c.Base with isLoaded := true }, ds, none)
  else
    match loadValue w c with
    | (c, some err) => (c, ds, some err)
    | (c, none) =>
      match c.extra.value with
      | some v => (c, ds.map fun d => d.assign c.kind v, none)
      | none => (c, ds, none)

/-- The `LoadAndFill` of a readme or transform component. -/
def loadScript (w : World) (c : Component) (ds : Option Dataset) :
    Component × Option Dataset × Option String :=
  if c.Base.isLoaded then (c, ds, none)
  else
    let loaded : Component × Option String :=
      if c.extra.value.isNone then loadValue w c else (c, none)
    match loaded with
    | (c, some err) => (c, ds, some err)
    | (c, none) =>
      let c := c.withBase { c.Base with isLoaded := true }
      match c.extra.value with
      | none => (c, ds, none)
      | some v =>
        if c.extra.hasResolver then
          let inlined := w.inlineScriptFile v
          let c := c.withExtra { c.extra with value := some inlined.1 }
          match inlined.2 with
          | some err => (c, ds, some err)
          | none => (c, ds.map fun d => d.assign c.kind inlined.1, none)
        else (c, ds.map fun d => d.assign c.kind v, none)

/-- The source's `OpenEntryReader`. -/
def OpenEntryReader (w : World) (file : String) (format : String) : Except String Reader :=
  match w.detectSchema format file with
  | .error err => .error err
  | .ok schema =>
    w.newEntryReader (some { text := "", fields := [("format", .str format),
      ("schema", .obj schema)] }) file

/-- The loop of the array arm of the body's `LoadAndFill`. -/
def readArray : List (Except String Dsfs.Entry) → List Dsfs.JVal →
    Except String (List Dsfs.JVal)
  | [], result => .ok result
  | .error err :: _, _ => .error err
  | .ok ent :: rest, result => readArray rest (result ++ [ent.value])

/-- Assigning a key of a `map[string]interface{}`. -/
def fieldSet (m : Fields) (key : String) (v : Dsfs.JVal) : Fields :=
  match m with
  | [] => [(key, v)]
  | (k, x) :: rest => if k = key then (key, v) :: rest else (k, x) :: fieldSet rest key v

/-- The loop of the object arm of the body's `LoadAndFill`. -/
def readObject : List (Except String Dsfs.Entry) → Fields → Except String Fields
  | [], result => .ok result
  | .error err :: _, _ => .error err
  | .ok ent :: rest, result => readObject rest (fieldSet result ent.key ent.value)

/-- The `LoadAndFill` of a body component. -/
def loadBody (w : World) (c : Component) (ds : Option Dataset) :
    Component × Option Dataset × Option String :=
  if c.extra.bodyValue.isSome then (c, ds, none)
  else
    let opened : Except String (Component × Reader) :=
      match c.extra.bodyFile with
      | some bf =>
        match w.newEntryReader c.extra.bodyStructure bf with
        | .error err => .error err
        | .ok entries => .ok (c, entries)
      | none =>
        if c.extra.hasResolver then
          match w.resolverGet c.Base.sourceFile with
          | .error err => .error err
          | .ok bf =>
            match w.newEntryReader c.extra.bodyStructure bf with
            | .error err => .error err
            | .ok entries => .ok (c, entries)
        else
          match w.osOpen c.Base.sourceFile with
          | .error err => .error err
          | .ok f =>
            match OpenEntryReader w f c.Base.format with
            | .error err => .error err
            | .ok entries =>
              .ok (c.withExtra { c.extra with inferredSchema := entries.schema }, entries)
    match opened with
    | .error err => (c, ds, some err)
    | .ok (c, entries) =>
      match entries.topLevel with
      | .error err => (c, ds, some err)
      | .ok topLevel =>
        if topLevel = "array" then
          match readArray entries.reads [] with
          | .error err => (c, ds, some err)
          | .ok result => (c.withExtra { c.extra with bodyValue := some (.arr result) }, ds, none)
        else
          match readObject entries.reads [] with
          | .error err => (c, ds, some err)
          | .ok result => (c.withExtra { c.extra with bodyValue := some (.obj result) }, ds, none)

/-- The source's `LoadAndFill`, by kind: the component and the dataset
after the call, and the error (`none` is nil). -/
def Component.LoadAndFill (w : World) (c : Component) (ds : Option Dataset) :
    Component × Option Dataset × Option String :=
  match c.kind with
  | .filesys => (c, ds, none)
  | .dataset => (c, ds, none)
  | .meta => loadStructured w c ds
  | .structure => loadStructured w c ds
  | .commit => loadStructured w c ds
  | .body => loadBody w c ds
  | .readme => loadScript w c ds
  | .transform => loadScript w c ds

/-! ### Comparing -/

/-- The source's `compareComponentData` at two values that may be nil. -/
def compareComponentData (w : World) (first second : Option Payload) : Bool × Option String :=
  match w.marshal first with
  | .error err => (false, some err)
  | .ok left =>
    match w.marshal second with
    | .error err => (false, some err)
    | .ok rite => (decide (left = rite), none)

/-- The source's `compareComponentData` at two body values. -/
def compareBodyData (w : World) (first second : Option Dsfs.JVal) : Bool × Option String :=
  match w.marshalBody first with
  | .error err => (false, some err)
  | .ok left =>
    match w.marshalBody second with
    | .error err => (false, some err)
    | .ok rite => (decide (left = rite), none)

/-- The read `Value.Text`: the text of a value that is present, and `none`
for a nil value, which the source dereferences without a check. -/
def textOf (v : Option Payload) : Option String :=
  match v with
  | some p => some p.text
  | none => none

/-- The text of the run-time panic of a nil dereference.  A call that
panics returns nothing; where the model has to give it an outcome, it gives
this text in the place of the error. -/
def nilDereference : String :=
  "panic: runtime error: invalid memory address or nil pointer dereference"

/-- The source's `Compare`, by kind of the receiver: both components after
the call, the answer and the error.  A filesys container refuses; every
other kind first checks that `compare` is of its own kind, then loads both
components and compares their values.  The transform arm reads `Value.Text`
of both values, which panics when one of them is nil. -/
def Component.Compare (w : World) (c compare : Component) :
    Component × Component × Bool × Option String :=
  match c.kind with
  | .filesys => (c, compare, false, some "cannot compare filesys component containers")
  | k =>
    if compare.kind ≠ k then (c, compare, false, none)
    else
      match c.LoadAndFill w none with
      | (c, _, some err) => (c, compare, false, some err)
      | (c, _, none) =>
        match compare.LoadAndFill w none with
        | (other, _, some err) => (c, other, false, some err)
        | (other, _, none) =>
          match k with
          | .structure =>
            let c := c.withExtra { c.extra with value := c.extra.value.map w.dropDerived }
            let other :=
              other.withExtra { other.extra with value := other.extra.value.map w.dropDerived }
            let r := compareComponentData w c.extra.value other.extra.value
            (c, other, r.1, r.2)
          | .body =>
            let r := compareBodyData w c.extra.bodyValue other.extra.bodyValue
            (c, other, r.1, r.2)
          | .transform =>
            match textOf c.extra.value, textOf other.extra.value with
            | some mine, some theirs => (c, other, decide (mine = theirs), none)
            | _, _ => (c, other, false, some nilDereference)
          | _ =>
            let r := compareComponentData w c.extra.value other.extra.value
            (c, other, r.1, r.2)

/-! ### Writing -/

/-- What a `WriteTo` leaves: the component after the call, the target file
and the error it returns, and the files it has written, path and content. -/
structure Written where
  comp : Component
  targetFile : String
  err : Option String
  files : List (String × String)

/-- The source's `writeComponentFile`. -/
def writeComponentFile (w : World) (c : Component) (value : Payload) (dirPath basefile : String) :
    Written :=
  match w.marshalIndent value with
  | .error err => { comp := c, targetFile := "", err := some err, files := [] }
  | .ok data =>
    let targetFile := w.join dirPath basefile
    match w.writeFile targetFile data with
    | some err => { comp := c, targetFile := "", err := some err, files := [] }
    | none => { comp := c, targetFile := targetFile, err := none, files := [(targetFile, data)] }

/-- The entries `SerializeBody` writes for a source. -/
def bodyEntries (source : Option Dsfs.JVal) : List Dsfs.Entry :=
  match source with
  | some (.arr data) =>
    (List.range data.length).zipWith (fun i val => { index := i, key := "", value := val }) data
  | some (.obj data) => data.map fun kv => { index := 0, key := kv.1, value := kv.2 }
  | _ => []

/-- The source's `SerializeBody`. -/
def SerializeBody (w : World) (source : Option Dsfs.JVal) (st : Payload) : Except String String :=
  let st' : Except String Payload :=
    if w.requiresTabularSchema st ∧ w.schemaIsNil st then
      match w.tabularSchema source with
      | .error err => .error ("serializing body: " ++ err)
      | .ok schema => .ok (w.assignSchema schema st)
    else .ok st
  match st' with
  | .error err => .error err
  | .ok st =>
    match w.newEntryWriter st with
    | some err => .error err
    | none => .ok (w.serialize st (bodyEntries source))

/-- The `WriteTo` of a structure or commit component, `basefile` being
"structure.json" or "commit.json". -/
def writeNonEmpty (w : World) (c : Component) (dirPath basefile : String) : Written :=
  match c.LoadAndFill w none with
  | (c, _, some err) => { comp := c, targetFile := "", err := some err, files := [] }
  | (c, _, none) =>
    match c.extra.value with
    | some v =>
      if ¬ w.isEmpty v then writeComponentFile w c v dirPath basefile
      else { comp := c, targetFile := "", err := none, files := [] }
    | none => { comp := c, targetFile := "", err := none, files := [] }

/-- The `WriteTo` of a readme or transform component, `stem` being "readme."
or "transform.": after a write that succeeds the function ends with
`return "", nil`, and a write that fails returns the named results. -/
def writeScript (w : World) (c : Component) (dirPath stem : String) : Written :=
  match c.LoadAndFill w none with
  | (c, _, some err) => { comp := c, targetFile := "", err := some err, files := [] }
  | (c, _, none) =>
    match c.extra.value with
    | some v =>
      if ¬ w.isEmpty v then
        let targetFile := w.join dirPath (stem ++ c.Base.format)
        match w.writeFile targetFile v.text with
        | some err => { comp := c, targetFile := targetFile, err := some err, files := [] }
        | none => { comp := c, targetFile := "", err := none, files := [(targetFile, v.text)] }
      else { comp := c, targetFile := "", err := none, files := [] }
    | none => { comp := c, targetFile := "", err := none, files := [] }

/-- The source's `WriteTo`, by kind. -/
def Component.WriteTo (w : World) (c : Component) (dirPath : String) : Written :=
  match c.kind with
  | .filesys =>
    { comp := c, targetFile := "", err := some "cannot write filesys component", files := [] }
  | .dataset =>
    { comp := c, targetFile := "", err := some "cannot write dataset component", files := [] }
  | .meta =>
    if c.extra.disableSerialization then
      { comp := c, targetFile := "", err := some "serialization is disabled", files := [] }
    else
      match c.LoadAndFill w none with
      | (c, _, some err) => { comp := c, targetFile := "", err := some err, files := [] }
      | (c, _, none) =>
        match c.extra.value with
        | some v => writeComponentFile w c v dirPath "meta.json"
        | none => { comp := c, targetFile := "", err := none, files := [] }
  | .structure => writeNonEmpty w c dirPath "structure.json"
  | .commit => writeNonEmpty w c dirPath "commit.json"
  | .readme => writeScript w c dirPath "readme."
  | .transform => writeScript w c dirPath "transform."
  | .body =>
    let loaded : Component × Option String :=
      if c.extra.bodyValue.isNone then
        match c.LoadAndFill w none with
        | (c, _, err) => (c, err)
      else (c, none)
    match loaded with
    | (c, some err) => { comp := c, targetFile := "", err := some err, files := [] }
    | (c, none) =>
      let body := c.extra.bodyValue
      match c.extra.bodyStructure with
      | none =>
        { comp := c, targetFile := "", err := some "cannot write body without a structure",
          files := [] }
      | some st =>
        match SerializeBody w body st with
        | .error err => { comp := c, targetFile := "", err := some err, files := [] }
        | .ok data =>
          let bodyFilename := "body." ++ c.Base.format
          let targetFile := w.join dirPath bodyFilename
          match w.writeFile targetFile data with
          | some err => { comp := c, targetFile := targetFile, err := some err, files := [] }
          | none =>
            { comp := c, targetFile := targetFile, err := none, files := [(targetFile, data)] }

/-- The scan of `filepath.Ext` from the end of the path: `rev` is what is
left of the path, last character first, and `acc` what has been passed. -/
def extScan : List Char → List Char → List Char
  | [], _ => []
  | ch :: rev, acc =>
    if ch = '/' then []
    else if ch = '.' then '.' :: acc
    else extScan rev (ch :: acc)

/-- The extension of a path as `filepath.Ext` gives it: the suffix that
starts at the last dot of the last element of the path, the dot included,
and the empty string when there is none. -/
def Ext (path : String) : String := String.mk (extScan path.toList.reverse [])

/-- The source's `NewBodyComponent`. -/
def NewBodyComponent (file : String) : Component :=
  Component.ofBase .body { BaseComponent.zero with sourceFile := file, format := Ext file }
    Extra.zero

/-! ### Dropping derived values -/

/-- A call of `DropDerivedValues` made while a component drops its derived
values: `name` is the key of the sub-component called in the map of its
container, and `via` the keys that lead from the component to that
container (empty for a sub-component of the component itself). -/
structure Call where
  via : List String
  name : String
deriving DecidableEq

mutual
/-- The source's `DropDerivedValues`, by kind: the component after the call
and the calls made on sub-components in turn.  A filesys container calls
every sub-component, a dataset component passes over the key "dataset" and
then drops the derived values of its own value, a body component does
nothing, and the other kinds drop the derived values of their value (a nil
value, which the source would dereference, is left as it is). -/
def Component.DropDerivedValues (w : World) : Component → Component × List Call
  | .mk .filesys subs pk pm sf il fmt e =>
    (.mk .filesys (dropEach w false subs).1 pk pm sf il fmt e, (dropEach w false subs).2)
  | .mk .dataset subs pk pm sf il fmt e =>
    (.mk .dataset (dropEach w true subs).1 pk pm sf il fmt
      { e with value := e.value.map w.dropDerived }, (dropEach w true subs).2)
  | .mk .body subs pk pm sf il fmt e => (.mk .body subs pk pm sf il fmt e, [])
  | .mk k subs pk pm sf il fmt e =>
    (.mk k subs pk pm sf il fmt { e with value := e.value.map w.dropDerived }, [])
/-- The loop `for compName := range Subcomponents` of a container,
`skipDataset` telling whether the key "dataset" is passed over. -/
def dropEach (w : World) (skipDataset : Bool) :
    List (String × Component) → List (String × Component) × List Call
  | [] => ([], [])
  | (compName, sub) :: rest =>
    if skipDataset ∧ compName = "dataset" then
      ((compName, sub) :: (dropEach w skipDataset rest).1, (dropEach w skipDataset rest).2)
    else
      ((compName, (Component.DropDerivedValues w sub).1) :: (dropEach w skipDataset rest).1,
        ({ via := [], name := compName } ::
          (Component.DropDerivedValues w sub).2.map fun call =>
            { via := compName :: call.via, name := call.name }) ++
          (dropEach w skipDataset rest).2)
end

/-! ### Sample inputs -/

/-- A sample world.  The file "missing.json" cannot be read and every other
path reads as its own name; the text "broken.json" does not decode; a
filled value takes its text from a single text field; a value is empty when
it has neither text nor fields; paths are joined with a slash; nothing else
fails. -/
def World.sample : World :=
  { readFile := fun p => if p = "missing.json" then .error "no such file" else .ok p
    jsonUnmarshal := fun data =>
      if data = "broken.json" then .error "invalid character" else .ok [("title", .str data)]
    yamlUnmarshal := fun data => .ok [("title", .str data)]
    fillStruct := fun _ fields =>
      ({ text := match fields with
          | [(_, .str t)] => t
          | _ => ""
         fields := fields }, none)
    inlineScriptFile := fun v => (v, none)
    isEmpty := fun v => v.text.isEmpty && v.fields.isEmpty
    dropDerived := fun v => { v with fields := [] }
    marshal := fun v =>
      match v with
      | some p => .ok p.text
      | none => .ok ""
    marshalBody := fun _ => .ok "body"
    marshalIndent := fun v => .ok v.text
    join := fun dir file => dir ++ "/" ++ file
    writeFile := fun _ _ => none
    newEntryReader := fun _ _ => .ok { schema := none, topLevel := .ok "array", reads := [] }
    resolverGet := fun p => .ok p
    osOpen := fun p => if p = "missing.csv" then .error "no such file" else .ok p
    detectSchema := fun _ _ => .ok []
    requiresTabularSchema := fun _ => false
    schemaIsNil := fun _ => false
    tabularSchema := fun _ => .ok []
    assignSchema := fun _ st => st
    newEntryWriter := fun _ => none
    serialize := fun _ entries => String.join (entries.map fun e => e.key) }

/-- A sample component of the given kind: zero base with the given source
file and format, not loaded, no value. -/
def Component.sample (k : Kind) (sourceFile format : String) : Component :=
  Component.ofBase k { BaseComponent.zero with sourceFile := sourceFile, format := format }
    Extra.zero

/-- The empty dataset, `&dataset.Dataset{}`. -/
def Dataset.zero : Dataset :=
  { Meta := none, Structure := none, Commit := none, Readme := none, Transform := none }

/-- What `LoadAndFill` looks at before it does anything: a body component
counts as loaded when it has a value, a container always, and the other
kinds when `IsLoaded` is set. -/
def Component.loaded (c : Component) : Bool :=
  match c.kind with
  | .body => c.extra.bodyValue.isSome
  | .filesys => true
  | .dataset => true
  | _ => c.Base.isLoaded

/-- The sample world with a serialization that tells a value that has
fields from one that has none. -/
def World.telling : World :=
  { World.sample with
    marshal := fun v =>
      match v with
      | some p => .ok (if p.fields.isEmpty then p.text else p.text ++ "+")
      | none => .ok "null" }

end Kinds

namespace Dsfs

/-! ### Facts about `getDepth` -/

theorem ite_gt_eq_max (a b : Nat) : (if a > b then a else b) = max b a := by
  split <;> omega

theorem getDepthArr_eq (xs : List JVal) (d : Nat) :
    getDepthArr xs d = max d (maxDepthOf (xs.map getDepth)) := by
  induction xs generalizing d with
  | nil => simp [getDepthArr, maxDepthOf]
  | cons x rest ih =>
    simp only [getDepthArr, ih, ite_gt_eq_max, maxDepthOf, List.map_cons, List.foldr_cons]
    omega

theorem getDepthObj_eq (kvs : List (String × JVal)) (d : Nat) :
    getDepthObj kvs d = max d (maxDepthOf ((kvs.map Prod.snd).map getDepth)) := by
  induction kvs generalizing d with
  | nil => simp [getDepthObj, maxDepthOf]
  | cons kv rest ih =>
    obtain ⟨k, v⟩ := kv
    simp only [getDepthObj, ih, ite_gt_eq_max, maxDepthOf, List.map_cons, List.foldr_cons]
    omega

theorem maxDepthOf_perm {l₁ l₂ : List Nat} (h : l₁.Perm l₂) :
    maxDepthOf l₁ = maxDepthOf l₂ := by
  induction h with
  | nil => rfl
  | cons x _ ih => simp only [maxDepthOf, List.foldr_cons] at ih ⊢; rw [ih]
  | swap x y l => simp only [maxDepthOf, List.foldr_cons]; omega
  | trans _ _ ih₁ ih₂ => exact ih₁.trans ih₂

/-- The order in which the fields of an object are visited does not change
its depth. -/
theorem getDepth_obj_perm {kvs₁ kvs₂ : List (String × JVal)} (h : kvs₁.Perm kvs₂) :
    getDepth (.obj kvs₁) = getDepth (.obj kvs₂) := by
  simp only [getDepth, getDepthObj_eq]
  rw [maxDepthOf_perm ((h.map Prod.snd).map getDepth)]

/-! ### Facts about the steps of the pipeline -/

@[simp] theorem emit_ds (s : Cff) (e : Event) : (s.emit e).ds = s.ds := rfl
@[simp] theorem emit_source (s : Cff) (e : Event) : (s.emit e).source = s.source := rfl
@[simp] theorem emit_bodySize (s : Cff) (e : Event) : (s.emit e).bodySize = s.bodySize := rfl
@[simp] theorem emit_bodyAct (s : Cff) (e : Event) : (s.emit e).bodyAct = s.bodyAct := rfl
@[simp] theorem emit_diffMessageBuf (s : Cff) (e : Event) :
    (s.emit e).diffMessageBuf = s.diffMessageBuf := rfl
@[simp] theorem emit_batches (s : Cff) (e : Event) : (s.emit e).batches = s.batches := rfl
@[simp] theorem emit_bytesRead (s : Cff) (e : Event) : (s.emit e).bytesRead = s.bytesRead := rfl
@[simp] theorem emit_batchBuf (s : Cff) (e : Event) : (s.emit e).batchBuf = s.batchBuf := rfl
@[simp] theorem emit_valErrorCount (s : Cff) (e : Event) :
    (s.emit e).valErrorCount = s.valErrorCount := rfl
@[simp] theorem emit_entries (s : Cff) (e : Event) : (s.emit e).entries = s.entries := rfl
@[simp] theorem emit_depth (s : Cff) (e : Event) : (s.emit e).depth = s.depth := rfl
@[simp] theorem emit_trace (s : Cff) (e : Event) : (s.emit e).trace = s.trace ++ [e] := rfl

theorem emit_sends (s : Cff) (e : Event) :
    (s.emit e).sends = s.sends ++ (Event.sent e).toList := by
  cases e <;> simp [Cff.sends, Cff.emit, List.filterMap_append, Event.sent]

theorem emit_validations (s : Cff) (e : Event) :
    (s.emit e).validations = s.validations ++ (Event.errs e).toList := by
  cases e <;> simp [Cff.validations, Cff.emit, List.filterMap_append, Event.errs]

theorem emit_accLog (s : Cff) (e : Event) :
    (s.emit e).accLog = s.accLog ++ (Event.acc e).toList := by
  cases e <;> simp [Cff.accLog, Cff.emit, List.filterMap_append, Event.acc]

/-- Updating fields other than the trace leaves the three logs as they were. -/
theorem logs_of_trace {s t : Cff} (h : t.trace = s.trace) :
    t.sends = s.sends ∧ t.validations = s.validations ∧ t.accLog = s.accLog := by
  simp [Cff.sends, Cff.validations, Cff.accLog, h]

theorem beginFlush_frame (c : Collab) (s : Cff) :
    (beginFlush c s).ds = s.ds ∧ (beginFlush c s).source = s.source ∧
    (beginFlush c s).bodySize = s.bodySize ∧
    (beginFlush c s).bytesRead = s.bytesRead ∧
    (beginFlush c s).batchBuf = s.batchBuf ∧
    (beginFlush c s).valErrorCount = s.valErrorCount ∧
    (beginFlush c s).entries = s.entries ∧
    (beginFlush c s).depth = s.depth ∧
    (beginFlush c s).sends = s.sends ∧
    (beginFlush c s).accLog = s.accLog ∧
    (beginFlush c s).validations = s.validations := by
  unfold beginFlush
  simp only
  split_ifs <;>
    simp [emit_sends, emit_accLog, emit_validations, Event.sent, Event.acc, Event.errs,
      Cff.sends, Cff.accLog, Cff.validations]

theorem beginFlush_diff (c : Collab) (s : Cff) :
    (s.diffMessageBuf = none →
      (beginFlush c s).diffMessageBuf = none ∧ (beginFlush c s).bodyAct = s.bodyAct) ∧
    (∀ buf, s.diffMessageBuf = some buf →
      (s.bytesRead ≤ c.bodySizeSmallEnoughToDiff ∧
        (beginFlush c s).diffMessageBuf = some buf ∧ (beginFlush c s).bodyAct = s.bodyAct) ∨
      (c.bodySizeSmallEnoughToDiff < s.bytesRead ∧
        (beginFlush c s).diffMessageBuf = none ∧ (beginFlush c s).bodyAct = .BodyTooBig)) := by
  unfold beginFlush
  simp only
  refine ⟨fun h => ?_, fun buf h => ?_⟩
  · simp [h]
  · by_cases hb : s.bytesRead > c.bodySizeSmallEnoughToDiff
    · right; simp [h, hb]
    · left; simp [h, hb]; omega

theorem flushBatch_cases (c : Collab) (s : Cff) (buf : List Entry) :
    (∃ e, flushBatch c s buf = (beginFlush c s, .error e) ∧ e.strictCount = none) ∨
    flushBatch c s buf = (beginFlush c s, .ok 0) ∨
    (∃ n, flushBatch c s buf = ((beginFlush c s).emit (.validated n), .ok n) ∧
      (s.ds.strict = true → n = 0)) ∨
    (∃ n, flushBatch c s buf = ((beginFlush c s).emit (.validated n), .error (.strictMode n)) ∧
      s.ds.strict = true ∧ 0 < n) := by
  unfold flushBatch
  simp only
  split
  · exact Or.inl ⟨_, rfl, rfl⟩
  · split_ifs with h
    · exact Or.inr (Or.inl rfl)
    · split
      · exact Or.inl ⟨_, rfl, rfl⟩
      · split_ifs with h2
        · refine Or.inr (Or.inr (Or.inr ⟨_, rfl, ?_, h2.2⟩))
          simpa [beginFlush_frame] using h2.1
        · refine Or.inr (Or.inr (Or.inl ⟨_, rfl, ?_⟩))
          intro hs
          simp only [emit_ds, (beginFlush_frame c s).1, hs, true_and] at h2
          omega

theorem AllZero.nil : AllZero [] := by simp [AllZero]

theorem AllZero.append {vs ws : List Nat} (h₁ : AllZero vs) (h₂ : AllZero ws) :
    AllZero (vs ++ ws) := by
  intro v hv
  rcases List.mem_append.1 hv with h | h
  · exact h₁ v h
  · exact h₂ v h

theorem AllZero.sum {vs : List Nat} (h : AllZero vs) : vs.sum = 0 := by
  induction vs with
  | nil => rfl
  | cons v rest ih =>
    have hv : v = 0 := h v (by simp)
    have hr : AllZero rest := fun w hw => h w (by simp [hw])
    simp [hv, ih hr]

theorem ValShape.after {strict : Bool} {vs ws : List Nat} {sc : Option Nat}
    (h₁ : ValShape strict vs none) (h₂ : ValShape strict ws sc) :
    ValShape strict (vs ++ ws) sc := by
  cases sc with
  | none => exact fun hs => (h₁ hs).append (h₂ hs)
  | some n =>
    obtain ⟨hs, hn, zs, rfl, hz⟩ := h₂
    exact ⟨hs, hn, vs ++ zs, by simp, (h₁ hs).append hz⟩

theorem maxDepthOf_append (xs ys : List Nat) :
    maxDepthOf (xs ++ ys) = max (maxDepthOf xs) (maxDepthOf ys) := by
  induction xs with
  | nil => simp [maxDepthOf]
  | cons x rest ih =>
    simp only [maxDepthOf, List.cons_append, List.foldr_cons] at ih ⊢
    rw [ih]; omega

theorem Run.refl (c : Collab) (s : Cff) : Run c s s [] [] none where
  ds := rfl
  source := rfl
  bodySize := rfl
  sends := rfl
  bytes := Nat.le_refl _
  dropped := fun h => ⟨h, rfl⟩
  vals := ⟨[], by simp, fun _ => AllZero.nil, fun _ => by simp⟩
  depth := fun _ => by simp [maxDepthOf]
  entries := fun _ => by simp
  accLog := fun _ => by simp
  kept := fun _ d h => Or.inl ⟨by simp [h], rfl⟩

theorem Run.trans {c : Collab} {s s' s'' : Cff} {a₁ a₂ b₁ b₂ : List Entry} {res : Option Err}
    (h₁ : Run c s s' a₁ b₁ none) (h₂ : Run c s' s'' a₂ b₂ res) :
    Run c s s'' (a₁ ++ a₂) (b₁ ++ b₂) res where
  ds := h₂.ds.trans h₁.ds
  source := h₂.source.trans h₁.source
  bodySize := h₂.bodySize.trans h₁.bodySize
  sends := h₂.sends.trans h₁.sends
  bytes := Nat.le_trans h₁.bytes h₂.bytes
  dropped := fun h => by
    obtain ⟨a, b⟩ := h₁.dropped h
    obtain ⟨a', b'⟩ := h₂.dropped a
    exact ⟨a', b'.trans b⟩
  vals := by
    obtain ⟨vs, hv, hs, hc⟩ := h₁.vals
    obtain ⟨ws, hw, hs', hc'⟩ := h₂.vals
    rw [h₁.ds] at hs'
    refine ⟨vs ++ ws, by rw [hw, hv, List.append_assoc], hs.after hs', fun hr => ?_⟩
    rw [hc' hr, hc rfl, List.sum_append, Nat.add_assoc]
  depth := fun hr => by
    rw [h₂.depth hr, h₁.depth rfl, List.map_append, maxDepthOf_append, Nat.max_assoc]
  entries := fun hr => by
    rw [h₂.entries hr, h₁.entries rfl, List.length_append, Nat.add_assoc]
  accLog := fun hr => by
    rw [h₂.accLog hr, h₁.accLog rfl, List.map_append, List.append_assoc]
  kept := fun hr d hb => by
    rcases h₁.kept rfl d hb with ⟨hd, ha⟩ | ⟨hd, ha, hlt⟩
    · rcases h₂.kept hr _ hd with ⟨hd', ha'⟩ | ⟨hd', ha', hlt'⟩
      · exact Or.inl ⟨by rw [hd', List.append_assoc], ha'.trans ha⟩
      · exact Or.inr ⟨hd', ha', hlt'⟩
    · obtain ⟨hd', ha'⟩ := h₂.dropped hd
      exact Or.inr ⟨hd', ha'.trans ha, Nat.lt_of_lt_of_le hlt h₂.bytes⟩

/-- A stretch that ends well may be followed by a failure that is not the
strict-mode error. -/
theorem Run.fail {c : Collab} {s s' : Cff} {a b a' b' : List Entry} (e : Err)
    (h : Run c s s' a b none) (he : e.strictCount = none) : Run c s s' a' b' (some e) where
  ds := h.ds
  source := h.source
  bodySize := h.bodySize
  sends := h.sends
  bytes := h.bytes
  dropped := h.dropped
  vals := by
    obtain ⟨vs, hv, hs, _⟩ := h.vals
    exact ⟨vs, hv, by simpa [strictOf, he] using hs, fun hr => by cases hr⟩
  depth := fun hr => by cases hr
  entries := fun hr => by cases hr
  accLog := fun hr => by cases hr
  kept := fun hr => by cases hr

/-- The entries named by a stretch that fails do not matter. -/
theorem Run.relist {c : Collab} {s s' : Cff} {a b a' b' : List Entry} {e : Err}
    (h : Run c s s' a b (some e)) : Run c s s' a' b' (some e) where
  ds := h.ds
  source := h.source
  bodySize := h.bodySize
  sends := h.sends
  bytes := h.bytes
  dropped := h.dropped
  vals := h.vals
  depth := fun hr => by cases hr
  entries := fun hr => by cases hr
  accLog := fun hr => by cases hr
  kept := fun hr => by cases hr

/-- A step that consumes no entry and treats the diff buffer as `beginFlush`
does is a stretch of a run. -/
theorem Run.of_flush {c : Collab} {s s' : Cff} (vs : List Nat) (res : Option Err)
    (hds : s'.ds = s.ds) (hsrc : s'.source = s.source) (hbs : s'.bodySize = s.bodySize)
    (hsends : s'.sends = s.sends) (hbytes : s'.bytesRead = s.bytesRead)
    (hdiff : s'.diffMessageBuf = (beginFlush c s).diffMessageBuf)
    (hact : s'.bodyAct = (beginFlush c s).bodyAct)
    (hvals : s'.validations = s.validations ++ vs)
    (hshape : ValShape s.ds.strict vs (strictOf res))
    (hcount : res = none → s'.valErrorCount = s.valErrorCount + vs.sum)
    (hdepth : s'.depth = s.depth) (hentries : s'.entries = s.entries)
    (hacc : s'.accLog = s.accLog) : Run c s s' [] [] res where
  ds := hds
  source := hsrc
  bodySize := hbs
  sends := hsends
  bytes := by omega
  dropped := fun h => by
    rw [hdiff, hact]
    exact (beginFlush_diff c s).1 h
  vals := ⟨vs, hvals, hshape, hcount⟩
  depth := fun _ => by simp [maxDepthOf, hdepth]
  entries := fun _ => by simp [hentries]
  accLog := fun _ => by simp [hacc]
  kept := fun _ d h => by
    rw [hdiff, hact, hbytes]
    rcases (beginFlush_diff c s).2 d h with ⟨_, h1, h2⟩ | ⟨h0, h1, h2⟩
    · exact Or.inl ⟨by simp [h1], h2⟩
    · exact Or.inr ⟨h1, h2, h0⟩

theorem flushAndCount_run (c : Collab) (s : Cff) :
    Run c s (flushAndCount c s).1 [] [] (flushAndCount c s).2 := by
  obtain ⟨f1, f2, f3, f4, f5, f6, f7, f8, f9, f10, f11⟩ := beginFlush_frame c s
  unfold flushAndCount
  rcases flushBatch_cases c s s.batchBuf with ⟨e, h, he⟩ | h | ⟨n, h, hn⟩ | ⟨n, h, hs, hn⟩ <;>
    rw [h] <;> simp only
  · exact Run.of_flush [] _ f1 f2 f3 f9 f4 rfl rfl (by simp [f11])
      (by simpa [strictOf, he, ValShape] using fun _ => AllZero.nil)
      (fun hr => by cases hr) f8 f7 f10
  · exact Run.of_flush [] _ f1 f2 f3 (by rw [← f9]; rfl) f4 rfl rfl
      (by rw [← f11]; simp)
      (fun _ => AllZero.nil) (fun _ => by simpa using f6) f8 f7 (by rw [← f10]; rfl)
  · refine Run.of_flush [n] _ f1 f2 f3 ?_ f4 rfl rfl ?_ ?_ (fun _ => by simpa using f6) f8 f7 ?_
    · show ((beginFlush c s).emit _).sends = _
      simp [emit_sends, Event.sent, f9]
    · show ((beginFlush c s).emit _).validations = _
      simp [emit_validations, Event.errs, f11]
    · intro hst v hv
      simp only [List.mem_singleton] at hv
      rw [hv]; exact hn hst
    · show ((beginFlush c s).emit _).accLog = _
      simp [emit_accLog, Event.acc, f10]
  · refine Run.of_flush [n] _ f1 f2 f3 ?_ f4 rfl rfl ?_ ?_ (fun hr => by cases hr) f8 f7 ?_
    · simp [emit_sends, Event.sent, f9]
    · simp [emit_validations, Event.errs, f11]
    · exact ⟨hs, hn, [], by simp, AllZero.nil⟩
    · simp [emit_accLog, Event.acc, f10]

theorem flushIfDue_run (c : Collab) (s : Cff) (i : Nat) :
    Run c s (flushIfDue c s i).1 [] [] (flushIfDue c s i).2 := by
  unfold flushIfDue
  split_ifs with hdue
  · have h := flushAndCount_run c s
    rcases hfc : flushAndCount c s with ⟨s', r⟩
    rw [hfc] at h
    cases r with
    | some e => exact h
    | none =>
      simp only
      cases hr : c.renewBatchBuf i with
      | some bufErr => exact h.fail _ rfl
      | none =>
        simp only
        have h2 : Run c s' { s' with batchBuf := [] } [] [] none :=
          { Run.refl c s' with }
        exact h.trans h2
  · exact Run.refl c s

theorem countEntry_frame (s : Cff) (ent : Entry) :
    (countEntry s ent).ds = s.ds ∧ (countEntry s ent).source = s.source ∧
    (countEntry s ent).bodySize = s.bodySize ∧
    (countEntry s ent).bytesRead = s.bytesRead ∧
    (countEntry s ent).diffMessageBuf = s.diffMessageBuf ∧
    (countEntry s ent).bodyAct = s.bodyAct ∧
    (countEntry s ent).valErrorCount = s.valErrorCount ∧
    (countEntry s ent).entries = s.entries + 1 ∧
    (countEntry s ent).depth = max s.depth (getDepth ent.value) ∧
    (countEntry s ent).sends = s.sends ∧
    (countEntry s ent).accLog = s.accLog ++ [some ent] ∧
    (countEntry s ent).validations = s.validations := by
  unfold countEntry
  simp only
  split_ifs with h <;>
    simp [emit_sends, emit_accLog, emit_validations, Event.sent, Event.acc, Event.errs,
      Cff.sends, Cff.accLog, Cff.validations] <;> omega

theorem countEntry_run (c : Collab) (s : Cff) (ent : Entry) :
    Run c s (countEntry s ent) [ent] [] none := by
  obtain ⟨f1, f2, f3, f4, f5, f6, f7, f8, f9, f10, f11, f12⟩ := countEntry_frame s ent
  exact
    { ds := f1, source := f2, bodySize := f3, sends := f10
      bytes := by omega
      dropped := fun h => ⟨by rw [f5, h], f6⟩
      vals := ⟨[], by simp [f12], fun _ => AllZero.nil, fun _ => by simp [f7]⟩
      depth := fun _ => by simp [f9, maxDepthOf]
      entries := fun _ => by simp [f8]
      accLog := fun _ => by simp [f11]
      kept := fun _ d h => Or.inl ⟨by simp [f5, h], f6⟩ }

/-- A step that changes neither the logs, the counters nor the diff buffer,
and does not lower the byte count, is a stretch of a run. -/
theorem Run.of_same {c : Collab} {s t : Cff} (h1 : t.ds = s.ds) (h2 : t.source = s.source)
    (h3 : t.bodySize = s.bodySize) (h4 : t.trace = s.trace) (h5 : s.bytesRead ≤ t.bytesRead)
    (h6 : t.valErrorCount = s.valErrorCount) (h7 : t.depth = s.depth)
    (h8 : t.entries = s.entries) (h9 : t.bodyAct = s.bodyAct)
    (h10 : t.diffMessageBuf = s.diffMessageBuf) : Run c s t [] [] none := by
  obtain ⟨l1, l2, l3⟩ := logs_of_trace h4
  exact
    { ds := h1, source := h2, bodySize := h3, sends := l1, bytes := h5
      dropped := fun h => ⟨by rw [h10, h], h9⟩
      vals := ⟨[], by simp [l2], fun _ => AllZero.nil, fun _ => by simp [h6]⟩
      depth := fun _ => by simp [h7, maxDepthOf]
      entries := fun _ => by simp [h8]
      accLog := fun _ => by simp [l3]
      kept := fun _ d h => Or.inl ⟨by simp [h10, h], h9⟩ }

theorem bufferEntry_run (c : Collab) (s : Cff) (i : Nat) (ent : Entry) :
    Run c s (bufferEntry c s i ent).1 [] [ent] (bufferEntry c s i ent).2 := by
  have base : ∀ t : Cff, t.ds = s.ds → t.source = s.source → t.bodySize = s.bodySize →
      t.trace = s.trace → t.bytesRead = s.bytesRead → t.valErrorCount = s.valErrorCount →
      t.depth = s.depth → t.entries = s.entries → t.bodyAct = s.bodyAct →
      (∀ d, s.diffMessageBuf = some d → t.diffMessageBuf = some (d ++ [ent])) →
      (s.diffMessageBuf = none → t.diffMessageBuf = none) →
      Run c s t [] [ent] none := by
    intro t h1 h2 h3 h4 h5 h6 h7 h8 h9 h10 h11
    obtain ⟨l1, l2, l3⟩ := logs_of_trace h4
    exact
      { ds := h1, source := h2, bodySize := h3, sends := l1
        bytes := by omega
        dropped := fun h => ⟨h11 h, h9⟩
        vals := ⟨[], by simp [l2], fun _ => AllZero.nil, fun _ => by simp [h6]⟩
        depth := fun _ => by simp [h7, maxDepthOf]
        entries := fun _ => by simp [h8]
        accLog := fun _ => by simp [l3]
        kept := fun _ d h => Or.inl ⟨h10 d h, h9⟩ }
  unfold bufferEntry
  cases hb : c.batchWriteEntry i with
  | some e => exact (Run.refl c s).fail _ rfl
  | none =>
    simp only
    cases hd : s.diffMessageBuf with
    | none =>
      simp only
      exact base _ rfl rfl rfl rfl rfl rfl rfl rfl rfl (by simp [hd]) (fun _ => rfl)
    | some d =>
      simp only
      cases hw : c.diffWriteEntry i with
      | some e =>
        exact Run.fail _ (Run.of_same rfl rfl rfl rfl (Nat.le_refl _) rfl rfl rfl rfl hd.symm) rfl
      | none =>
        simp only
        exact base _ rfl rfl rfl rfl rfl rfl rfl rfl rfl (by simp [hd]) (by simp [hd])

theorem onEntry_run (c : Collab) (s : Cff) (i : Nat) (ent : Entry) :
    Run c s (onEntry c s i ent none).1 [ent] [ent] (onEntry c s i ent none).2 := by
  unfold onEntry
  simp only
  have h1 := countEntry_run c s ent
  cases ha : c.accWriteEntry i with
  | some e => exact h1.fail _ rfl
  | none =>
    simp only
    have h2 := flushIfDue_run c (countEntry s ent) i
    rcases hf : flushIfDue c (countEntry s ent) i with ⟨s₂, r⟩
    rw [hf] at h2
    cases r with
    | some e => exact (h1.trans h2).relist
    | none =>
      simp only
      have h3 := bufferEntry_run c s₂ i ent
      exact h1.trans (h2.trans h3)

theorem eachEntry_run (c : Collab) (tail : Nat) (reads : List Read) (num : Nat) (s : Cff) :
    Run c s (eachEntry c tail reads num s).1 (decoded reads) (decoded reads)
      (eachEntry c tail reads num s).2 := by
  induction reads generalizing num s with
  | nil =>
    unfold eachEntry
    exact Run.of_same rfl rfl rfl rfl (Nat.le_add_right _ _) rfl rfl rfl rfl rfl
  | cons r rest ih =>
    unfold eachEntry
    simp only
    have hb : Run c s { s with bytesRead := s.bytesRead + r.bytes } [] [] none :=
      Run.of_same rfl rfl rfl rfl (Nat.le_add_right _ _) rfl rfl rfl rfl rfl
    cases hr : r.result with
    | error e => exact hb.fail _ rfl
    | ok ent =>
      simp only
      have h1 := onEntry_run c { s with bytesRead := s.bytesRead + r.bytes } num ent
      rcases ho : onEntry c { s with bytesRead := s.bytesRead + r.bytes } num ent none with ⟨s₂, q⟩
      rw [ho] at h1
      cases q with
      | some e => exact (hb.trans h1).relist
      | none =>
        simp only
        have h2 := ih (num + 1) s₂
        have h3 := hb.trans (h1.trans h2)
        simpa [decoded, hr] using h3

theorem flushAndCount_bytes (c : Collab) (s : Cff) :
    (flushAndCount c s).1.bytesRead = s.bytesRead := by
  have hb := (beginFlush_frame c s).2.2.2.1
  unfold flushAndCount
  rcases flushBatch_cases c s s.batchBuf with ⟨e, h, _⟩ | h | ⟨n, h, _⟩ | ⟨n, h, _, _⟩ <;>
    rw [h] <;> simpa using hb

theorem flushIfDue_bytes (c : Collab) (s : Cff) (i : Nat) :
    (flushIfDue c s i).1.bytesRead = s.bytesRead := by
  have hb := flushAndCount_bytes c s
  unfold flushIfDue
  split_ifs
  · rcases hfc : flushAndCount c s with ⟨s', r⟩
    rw [hfc] at hb
    cases r with
    | some e => exact hb
    | none => cases c.renewBatchBuf i <;> exact hb
  · rfl

theorem bufferEntry_bytes (c : Collab) (s : Cff) (i : Nat) (ent : Entry) :
    (bufferEntry c s i ent).1.bytesRead = s.bytesRead := by
  unfold bufferEntry
  cases c.batchWriteEntry i with
  | some e => rfl
  | none =>
    simp only
    cases s.diffMessageBuf with
    | none => rfl
    | some d => cases c.diffWriteEntry i <;> rfl

theorem onEntry_bytes (c : Collab) (s : Cff) (i : Nat) (ent : Entry) :
    (onEntry c s i ent none).1.bytesRead = s.bytesRead := by
  have h1 := (countEntry_frame s ent).2.2.2.1
  have h2 := flushIfDue_bytes c (countEntry s ent) i
  unfold onEntry
  simp only
  cases c.accWriteEntry i with
  | some e => exact h1
  | none =>
    simp only
    rcases hf : flushIfDue c (countEntry s ent) i with ⟨s₂, r⟩
    rw [hf] at h2
    cases r with
    | some e => exact h2.trans h1
    | none => exact (bufferEntry_bytes c s₂ i ent).trans (h2.trans h1)

/-- A run of the loop that ends without error has decoded every read and has
counted every byte of the body. -/
theorem eachEntry_ok (c : Collab) (tail : Nat) (reads : List Read) (num : Nat) (s : Cff)
    (h : (eachEntry c tail reads num s).2 = none) :
    allDecode reads = true ∧
    (eachEntry c tail reads num s).1.bytesRead = s.bytesRead + readBytes reads + tail := by
  induction reads generalizing num s with
  | nil => simp [eachEntry, allDecode, readBytes]
  | cons r rest ih =>
    unfold eachEntry at h ⊢
    simp only at h ⊢
    cases hr : r.result with
    | error e => simp [hr] at h
    | ok ent =>
      simp only [hr] at h ⊢
      have h1 := onEntry_bytes c { s with bytesRead := s.bytesRead + r.bytes } num ent
      rcases ho : onEntry c { s with bytesRead := s.bytesRead + r.bytes } num ent none with ⟨s₂, q⟩
      rw [ho] at h h1
      cases q with
      | some e => simp at h
      | none =>
        simp only at h h1 ⊢
        obtain ⟨hd, hbytes⟩ := ih (num + 1) s₂ h
        refine ⟨by simpa [allDecode, hr] using hd, ?_⟩
        rw [hbytes, h1]
        simp [readBytes]
        omega

theorem Run.congr {c : Collab} {s s' : Cff} {a b : List Entry} {e e' : Err}
    (h : Run c s s' a b (some e)) (he : e'.strictCount = e.strictCount) :
    Run c s s' a b (some e') where
  ds := h.ds
  source := h.source
  bodySize := h.bodySize
  sends := h.sends
  bytes := h.bytes
  dropped := h.dropped
  vals := by
    obtain ⟨vs, hv, hs, _⟩ := h.vals
    exact ⟨vs, hv, by simpa [strictOf, he] using hs, fun hr => by cases hr⟩
  depth := fun hr => by cases hr
  entries := fun hr => by cases hr
  accLog := fun hr => by cases hr
  kept := fun hr => by cases hr

theorem flushAndCount_diff (c : Collab) (s : Cff) :
    (flushAndCount c s).1.diffMessageBuf = (beginFlush c s).diffMessageBuf ∧
    (flushAndCount c s).1.bodyAct = (beginFlush c s).bodyAct := by
  unfold flushAndCount
  rcases flushBatch_cases c s s.batchBuf with ⟨e, h, _⟩ | h | ⟨n, h, _⟩ | ⟨n, h, _, _⟩ <;>
    rw [h] <;> exact ⟨rfl, rfl⟩

/-- The three ways `handleRows` ends: a set-up step fails, the loop or the
last flush fails, or the closing steps are reached. -/
theorem handleRows_cases (c : Collab) (s : Cff) :
    (∃ (t : Cff) (e : Err), handleRows c s = t.emit (.send (some e)) ∧ e.strictCount = none ∧
      t.trace = s.trace ∧ t.ds = s.ds ∧ t.bodyAct = s.bodyAct ∧
      (c.newEntryReader ≠ none ∨ c.jsonSchema ≠ none ∨ c.newBatchBuf ≠ none ∨
        c.newDiffBuf ≠ none)) ∨
    (∃ (t : Cff) (e : Err), handleRows c s = t.emit (.send (some e)) ∧
      Run c s.ready t s.source.content.entries s.source.content.entries (some e)) ∨
    (∃ (s₁ s₂ : Cff), handleRows c s = finish c s₂ ∧
      eachEntry c s.source.content.tail s.source.content.reads 0 s.ready = (s₁, none) ∧
      flushAndCount c s₁ = (s₂, none) ∧
      c.newEntryReader = none ∧ c.jsonSchema = none ∧ c.newBatchBuf = none ∧
      c.newDiffBuf = none) := by
  unfold handleRows
  simp only
  cases h1 : c.newEntryReader with
  | some e => exact Or.inl ⟨_, _, rfl, rfl, rfl, rfl, rfl, by simp⟩
  | none =>
    cases h2 : c.jsonSchema with
    | some e => exact Or.inl ⟨_, _, rfl, rfl, rfl, rfl, rfl, by simp⟩
    | none =>
      cases h3 : c.newBatchBuf with
      | some e => exact Or.inl ⟨_, _, rfl, rfl, rfl, rfl, rfl, by simp⟩
      | none =>
        cases h4 : c.newDiffBuf with
        | some e => exact Or.inl ⟨_, _, rfl, rfl, rfl, rfl, rfl, by simp⟩
        | none =>
          simp only
          right
          have he := eachEntry_run c s.source.content.tail s.source.content.reads 0 s.ready
          change Run c s.ready _ s.source.content.entries s.source.content.entries _ at he
          rcases hl : eachEntry c s.source.content.tail s.source.content.reads 0 s.ready
            with ⟨s₁, q⟩
          rw [hl] at he
          have hl' : eachEntry c s.source.content.tail s.source.content.reads 0
              { ds := s.ds, source := s.source, bodySize := s.bodySize, bodyAct := s.bodyAct,
                diffMessageBuf := some [], batches := s.batches, bytesRead := s.bytesRead,
                batchBuf := [], valErrorCount := 0, entries := 0, depth := 0,
                trace := s.trace } = (s₁, q) := hl
          rw [hl']
          cases q with
          | some e => exact Or.inl ⟨_, _, rfl, he.congr rfl⟩
          | none =>
            simp only
            have hf := flushAndCount_run c s₁
            rcases hfc : flushAndCount c s₁ with ⟨s₂, q⟩
            rw [hfc] at hf
            cases q with
            | some e =>
              have := he.trans hf
              simp only [List.append_nil] at this
              exact Or.inl ⟨_, _, rfl, this⟩
            | none => exact Or.inr ⟨s₁, s₂, rfl, rfl, hfc, by simp⟩

theorem finish_frame (c : Collab) (s : Cff) :
    (finish c s).ds.errCount = s.valErrorCount ∧ (finish c s).ds.entries = s.entries ∧
    (finish c s).ds.depth = s.depth + 1 ∧ (finish c s).ds.length = s.bytesRead ∧
    (finish c s).ds.strict = s.ds.strict ∧ (finish c s).bodyAct = s.bodyAct ∧
    (finish c s).validations = s.validations := by
  unfold finish
  simp only
  cases s.diffMessageBuf with
  | none => simp [emit_validations, Event.errs, Cff.validations]
  | some d =>
    cases c.diffClose <;> cases c.readAll <;>
      simp [emit_validations, Event.errs, Cff.validations]

/-- The trace of the closing steps: the write of the derived fields, the
close of the accumulator, and then one of five endings. -/
theorem finish_trace (c : Collab) (s : Cff) :
    ∃ post, (finish c s).trace =
      s.trace ++ .setStructure s.valErrorCount s.entries (s.depth + 1) s.bytesRead ::
        .accClose :: post ∧
      ((s.diffMessageBuf = none ∧ post = [.send none] ∧ (finish c s).ds.body = s.ds.body) ∨
       (∃ d, s.diffMessageBuf = some d ∧ c.diffClose = none ∧ c.readAll = none ∧
          post = [.setBody, .send none] ∧ (finish c s).ds.body = some d) ∨
       (∃ d e, s.diffMessageBuf = some d ∧ c.diffClose = some e ∧ c.readAll = none ∧
          post = [.send (some (.wrap "closing body data buffer" (.ext e))), .setBody,
            .send none] ∧ (finish c s).ds.body = some d) ∨
       (∃ d e, s.diffMessageBuf = some d ∧ c.diffClose = none ∧ c.readAll = some e ∧
          post = [.send (some (.wrap "inlining buffered body data" (.ext e)))]) ∨
       (∃ d e e', s.diffMessageBuf = some d ∧ c.diffClose = some e ∧ c.readAll = some e' ∧
          post = [.send (some (.wrap "closing body data buffer" (.ext e))),
            .send (some (.wrap "inlining buffered body data" (.ext e')))])) := by
  unfold finish
  simp only
  cases hd : s.diffMessageBuf with
  | none => exact ⟨_, by simp, Or.inl ⟨rfl, rfl, rfl⟩⟩
  | some d =>
    cases hc : c.diffClose with
    | none =>
      cases hr : c.readAll with
      | none => exact ⟨_, by simp, Or.inr (Or.inl ⟨d, rfl, rfl, rfl, rfl, rfl⟩)⟩
      | some e => exact ⟨_, by simp, Or.inr (Or.inr (Or.inr (Or.inl ⟨d, e, rfl, rfl, rfl, rfl⟩)))⟩
    | some e =>
      cases hr : c.readAll with
      | none => exact ⟨_, by simp, Or.inr (Or.inr (Or.inl ⟨d, e, rfl, rfl, rfl, rfl, rfl⟩))⟩
      | some e' =>
        exact ⟨_, by simp, Or.inr (Or.inr (Or.inr (Or.inr ⟨d, e, e', rfl, rfl, rfl, rfl⟩)))⟩

/-! ## The claims -/

/-- C1: `getDepth` is 0 on every scalar (string, number, boolean, null) and
is 1 + the maximum of `getDepth` over the children on an object or an array,
the maximum over no children being 0, so an empty object or array has depth
1; the three sample values have depths 0, 2 and 3. -/
theorem getDepth_spec :
    (∀ s : String, getDepth (.str s) = 0) ∧
    (∀ n : Int, getDepth (.num n) = 0) ∧
    (∀ b : Bool, getDepth (.bool b) = 0) ∧
    getDepth .null = 0 ∧
    (∀ xs : List JVal, getDepth (.arr xs) = 1 + maxDepthOf (xs.map getDepth)) ∧
    (∀ kvs : List (String × JVal),
      getDepth (.obj kvs) = 1 + maxDepthOf (kvs.map fun kv => getDepth kv.2)) ∧
    maxDepthOf [] = 0 ∧ getDepth (.arr []) = 1 ∧ getDepth (.obj []) = 1 ∧
    getDepth (.str "foo") = 0 ∧
    getDepth (.arr [.str "a", .str "b", .arr [.num 1, .num 2, .num 3]]) = 2 ∧
    getDepth (.obj [("foo", .str "bar"), ("bar", .str "baz"),
      ("baz", .obj [("foo", .str "bar"),
        ("bar", .arr [.str "foo", .str "bar", .str "baz"])])]) = 3 := by
  refine ⟨fun _ => rfl, fun _ => rfl, fun _ => rfl, rfl, ?_, ?_,
    rfl, rfl, rfl, rfl, rfl, rfl⟩
  · intro xs
    simp [getDepth, getDepthArr_eq, Nat.add_comm]
  · intro kvs
    simp [getDepth, getDepthObj_eq, Nat.add_comm, List.map_map, Function.comp_def]

theorem over_fields (ds : Dataset) (bf : File) :
    (Cff.over ds bf).trace = [] ∧ (Cff.over ds bf).ds = ds ∧ (Cff.over ds bf).source = bf ∧
    (Cff.over ds bf).bodyAct = .BodyDefault ∧ (Cff.over ds bf).bytesRead = 0 := by
  simp [Cff.over]

theorem ready_fields (s : Cff) :
    s.ready.trace = s.trace ∧ s.ready.ds = s.ds ∧ s.ready.source = s.source ∧
    s.ready.bodyAct = s.bodyAct ∧ s.ready.bytesRead = s.bytesRead ∧
    s.ready.diffMessageBuf = some [] ∧ s.ready.valErrorCount = 0 ∧ s.ready.entries = 0 ∧
    s.ready.depth = 0 ∧ s.ready.sends = s.sends ∧ s.ready.validations = s.validations ∧
    s.ready.accLog = s.accLog := by
  simp [Cff.ready, Cff.sends, Cff.validations, Cff.accLog]

/-- A run in which nil is sent has passed the set-up, the loop and the last
flush without error and has reached the closing steps. -/
theorem success_shape (c : Collab) (s : Cff) (h0 : s.trace = [])
    (h : none ∈ (handleRows c s).sends) :
    ∃ (s₁ s₂ : Cff), handleRows c s = finish c s₂ ∧
      eachEntry c s.source.content.tail s.source.content.reads 0 s.ready = (s₁, none) ∧
      flushAndCount c s₁ = (s₂, none) ∧
      Run c s.ready s₁ s.source.content.entries s.source.content.entries none ∧
      Run c s₁ s₂ [] [] none ∧
      s₁.bytesRead = s.bytesRead + s.source.content.length := by
  have hs0 : s.sends = [] := by simp [Cff.sends, h0]
  rcases handleRows_cases c s with ⟨t, e, he, _, ht, _⟩ | ⟨t, e, he, hr⟩ | ⟨s₁, s₂, he, h1, h2, _⟩
  · rw [he, emit_sends] at h
    have : t.sends = [] := by simp [Cff.sends, ht, h0]
    simp [this, Event.sent] at h
  · rw [he, emit_sends, hr.sends, (ready_fields s).2.2.2.2.2.2.2.2.2.1, hs0] at h
    simp [Event.sent] at h
  · refine ⟨s₁, s₂, he, h1, h2, ?_, ?_, ?_⟩
    · have := eachEntry_run c s.source.content.tail s.source.content.reads 0 s.ready
      rw [h1] at this
      exact this
    · have := flushAndCount_run c s₁
      rw [h2] at this
      exact this
    · have := (eachEntry_ok c s.source.content.tail s.source.content.reads 0 s.ready
        (by rw [h1])).2
      rw [h1] at this
      simp only at this
      rw [this, (ready_fields s).2.2.2.2.1, Body.length]
      omega

/-- C2: after a run in which nil is sent on the completion channel,
`Structure.Depth` is 1 + the maximum of `getDepth` over the values of the
decoded entries, which is 1 for a body with no entries and 1 + `getDepth v`
for a body of the single entry `v`: 1 for the entry "foo" and 3 for the
entry {"a":{"b":1}}. -/
theorem depth_after_success (c : Collab) (ds : Dataset) (bf : File)
    (h : none ∈ (handleRows c (Cff.over ds bf)).sends) :
    (handleRows c (Cff.over ds bf)).ds.depth =
      1 + maxDepthOf (bf.content.entries.map fun e => getDepth e.value) ∧
    (bf.content.entries = [] → (handleRows c (Cff.over ds bf)).ds.depth = 1) ∧
    (∀ ent, bf.content.entries = [ent] →
      (handleRows c (Cff.over ds bf)).ds.depth = 1 + getDepth ent.value) ∧
    1 + getDepth (.str "foo") = 1 ∧
    1 + getDepth (.obj [("a", .obj [("b", .num 1)])]) = 3 := by
  obtain ⟨s₁, s₂, he, _, _, r1, r2, _⟩ := success_shape c (Cff.over ds bf) rfl h
  have hd : (handleRows c (Cff.over ds bf)).ds.depth =
      1 + maxDepthOf (bf.content.entries.map fun e => getDepth e.value) := by
    have := (r1.trans r2).depth rfl
    rw [he, (finish_frame c s₂).2.2.1, this, (ready_fields _).2.2.2.2.2.2.2.2.1]
    simp [Cff.over]
    omega
  refine ⟨hd, fun h0 => ?_, fun ent h1 => ?_, rfl, rfl⟩
  · rw [hd, h0]; rfl
  · rw [hd, h1]; simp [maxDepthOf]

/-- C2 at the bodies whose single entry is "foo" and {"a":{"b":1}}: nil is
sent and the final depth is 1 and 3. -/
theorem depth_after_success_witness :
    (none ∈ (handleRows (Collab.sample 5 100)
        (Cff.over (Dataset.sample false (Body.sample 5 [.str "foo"]))
          (File.sample (Body.sample 5 [.str "foo"])))).sends ∧
      (handleRows (Collab.sample 5 100)
        (Cff.over (Dataset.sample false (Body.sample 5 [.str "foo"]))
          (File.sample (Body.sample 5 [.str "foo"])))).ds.depth = 1) ∧
    (handleRows (Collab.sample 5 100)
      (Cff.over (Dataset.sample false (Body.sample 5 [.obj [("a", .obj [("b", .num 1)])]]))
        (File.sample (Body.sample 5 [.obj [("a", .obj [("b", .num 1)])]])))).ds.depth = 3 :=
  ⟨⟨by decide,
    ((depth_after_success (Collab.sample 5 100)
      (Dataset.sample false (Body.sample 5 [.str "foo"]))
      (File.sample (Body.sample 5 [.str "foo"])) (by decide)).2.2.1 _ rfl).trans rfl⟩,
   ((depth_after_success (Collab.sample 5 100)
      (Dataset.sample false (Body.sample 5 [.obj [("a", .obj [("b", .num 1)])]]))
      (File.sample (Body.sample 5 [.obj [("a", .obj [("b", .num 1)])]]))
      (by decide)).2.2.1 _ rfl).trans rfl⟩

/-- C6: after a run in which nil is sent on the completion channel,
`Structure.Entries` is the number of entries decoded from the body stream and
`Structure.Length` is the total number of bytes read from the body source. -/
theorem entries_length_after_success (c : Collab) (ds : Dataset) (bf : File)
    (h : none ∈ (handleRows c (Cff.over ds bf)).sends) :
    (handleRows c (Cff.over ds bf)).ds.entries = bf.content.entries.length ∧
    (handleRows c (Cff.over ds bf)).ds.length = bf.content.length := by
  obtain ⟨s₁, s₂, he, _, h2, r1, r2, hb⟩ := success_shape c (Cff.over ds bf) rfl h
  have hb2 := flushAndCount_bytes c s₁
  rw [h2] at hb2
  constructor
  · have := (r1.trans r2).entries rfl
    rw [he, (finish_frame c s₂).2.1, this, (ready_fields _).2.2.2.2.2.2.2.1]
    simp [Cff.over]
  · rw [he, (finish_frame c s₂).2.2.2.1]
    simp only at hb2
    rw [hb2, hb]
    simp [Cff.over]

/-- C6 at a body of three entries read in 7 bytes each: nil is sent, three
entries are counted and the length is 21. -/
theorem entries_length_after_success_witness :
    none ∈ (handleRows (Collab.sample 2 100)
      (Cff.over (Dataset.sample false (Body.sample 7 [.num 1, .str "x", .num 3]))
        (File.sample (Body.sample 7 [.num 1, .str "x", .num 3])))).sends ∧
    (handleRows (Collab.sample 2 100)
      (Cff.over (Dataset.sample false (Body.sample 7 [.num 1, .str "x", .num 3]))
        (File.sample (Body.sample 7 [.num 1, .str "x", .num 3])))).ds.entries = 3 ∧
    (handleRows (Collab.sample 2 100)
      (Cff.over (Dataset.sample false (Body.sample 7 [.num 1, .str "x", .num 3]))
        (File.sample (Body.sample 7 [.num 1, .str "x", .num 3])))).ds.length = 21 :=
  ⟨by decide,
   (entries_length_after_success (Collab.sample 2 100)
      (Dataset.sample false (Body.sample 7 [.num 1, .str "x", .num 3]))
      (File.sample (Body.sample 7 [.num 1, .str "x", .num 3])) (by decide)).1.trans rfl,
   (entries_length_after_success (Collab.sample 2 100)
      (Dataset.sample false (Body.sample 7 [.num 1, .str "x", .num 3]))
      (File.sample (Body.sample 7 [.num 1, .str "x", .num 3])) (by decide)).2.trans rfl⟩

/-- If a trace `T ++ R` sends nil at some point and `T` sends nothing, the
send is in `R`. -/
theorem split_at_send {T R pre post : List Event} (hT : ∀ x ∈ T, x ≠ .send none)
    (h : pre ++ .send none :: post = T ++ R) :
    ∃ m, pre = T ++ m ∧ R = m ++ .send none :: post := by
  induction T generalizing pre with
  | nil => exact ⟨pre, rfl, by simpa using h.symm⟩
  | cons t T' ih =>
    cases pre with
    | nil =>
      simp only [List.nil_append, List.cons_append, List.cons.injEq] at h
      exact absurd h.1.symm (hT t (by simp))
    | cons p pre' =>
      simp only [List.cons_append, List.cons.injEq] at h
      obtain ⟨m, hm, hR⟩ := ih (fun x hx => hT x (by simp [hx])) h.2
      exact ⟨m, by rw [h.1, hm]; rfl, hR⟩

theorem no_send_of_sends_nil {s : Cff} (h : s.sends = []) : ∀ x ∈ s.trace, x ≠ .send none := by
  intro x hx hx'
  have : none ∈ s.sends := by
    rw [Cff.sends, List.mem_filterMap]
    exact ⟨x, hx, by rw [hx']; rfl⟩
  rw [h] at this
  cases this

/-- C9: whenever nil is sent on the completion channel, the write of
`ErrCount`, `Entries`, `Depth` and `Length` to the dataset record (with the
values the record ends with) has come before the send, and so have the calls
the accumulator received: every entry of the body in stream order and then
one close; the accumulator receives nothing after that. -/
theorem nil_sent_after_writes (c : Collab) (ds : Dataset) (bf : File) (pre post : List Event)
    (h : (handleRows c (Cff.over ds bf)).trace = pre ++ .send none :: post) :
    Event.setStructure (handleRows c (Cff.over ds bf)).ds.errCount
      (handleRows c (Cff.over ds bf)).ds.entries (handleRows c (Cff.over ds bf)).ds.depth
      (handleRows c (Cff.over ds bf)).ds.length ∈ pre ∧
    pre.filterMap Event.acc = bf.content.entries.map some ++ [none] ∧
    (handleRows c (Cff.over ds bf)).accLog = bf.content.entries.map some ++ [none] := by
  have hmem : none ∈ (handleRows c (Cff.over ds bf)).sends := by
    rw [Cff.sends, h, List.mem_filterMap]
    exact ⟨.send none, by simp, rfl⟩
  obtain ⟨s₁, s₂, he, _, _, r1, r2, _⟩ := success_shape c (Cff.over ds bf) rfl hmem
  have hr := r1.trans r2
  have hsends : s₂.sends = [] := by
    rw [hr.sends, (ready_fields _).2.2.2.2.2.2.2.2.2.1]; rfl
  have hacc : s₂.accLog = bf.content.entries.map some := by
    rw [hr.accLog rfl, (ready_fields _).2.2.2.2.2.2.2.2.2.2.2]
    simp [Cff.over, Cff.accLog]
  obtain ⟨f1, f2, f3, f4, _⟩ := finish_frame c s₂
  obtain ⟨tl, htr, hcases⟩ := finish_trace c s₂
  rw [he] at h ⊢
  rw [f1, f2, f3, f4]
  have hacc_tl : ∀ x ∈ tl, x.acc = none := by
    rcases hcases with ⟨_, h, _⟩ | ⟨_, _, _, _, h, _⟩ | ⟨_, _, _, _, _, h, _⟩ |
      ⟨_, _, _, _, _, h⟩ | ⟨_, _, _, _, _, _, h⟩ <;>
    · rw [h]; intro x hx; simp at hx
      rcases hx with rfl | rfl | rfl <;> rfl
  rw [h] at htr
  obtain ⟨m, hm, hR⟩ := split_at_send (no_send_of_sends_nil hsends) htr
  have hm2 : ∃ m', m = .setStructure s₂.valErrorCount s₂.entries (s₂.depth + 1) s₂.bytesRead ::
      .accClose :: m' ∧ tl = m' ++ .send none :: post := by
    match m, hR with
    | [], hR => simp at hR
    | [x], hR => simp at hR
    | x :: y :: m', hR =>
      simp only [List.cons_append, List.cons.injEq] at hR
      exact ⟨m', by rw [← hR.1, ← hR.2.1], hR.2.2⟩
  obtain ⟨m', rfl, htl⟩ := hm2
  have hm' : m'.filterMap Event.acc = [] := by
    rw [List.filterMap_eq_nil_iff]
    intro x hx
    exact hacc_tl x (by rw [htl]; simp [hx])
  have hpost : (Event.send none :: post).filterMap Event.acc = [] := by
    rw [List.filterMap_eq_nil_iff]
    intro x hx
    exact hacc_tl x (by rw [htl]; exact List.mem_append_right _ hx)
  refine ⟨by rw [hm]; simp, ?_, ?_⟩
  · rw [hm, List.filterMap_append, List.filterMap_cons, List.filterMap_cons]
    show s₂.accLog ++ _ = _
    rw [hacc]
    simp [Event.acc, hm']
  · rw [Cff.accLog, h, hm, List.filterMap_append, List.filterMap_append, hpost]
    show (s₂.accLog ++ _) ++ _ = _
    rw [hacc]
    simp [Event.acc, hm']

theorem flushBatch_diff (c : Collab) (s : Cff) (buf : List Entry) :
    (flushBatch c s buf).1.diffMessageBuf = (beginFlush c s).diffMessageBuf ∧
    (flushBatch c s buf).1.bodyAct = (beginFlush c s).bodyAct := by
  rcases flushBatch_cases c s buf with ⟨e, h, _⟩ | h | ⟨n, h, _⟩ | ⟨n, h, _, _⟩ <;>
    rw [h] <;> exact ⟨rfl, rfl⟩

theorem finish_diff (c : Collab) (s : Cff) :
    (finish c s).diffMessageBuf = s.diffMessageBuf := by
  unfold finish
  simp only
  cases hd : s.diffMessageBuf with
  | none => rfl
  | some d => cases c.diffClose <;> cases c.readAll <;> rfl

theorem finish_sends (c : Collab) (s : Cff) (h : s.sends = []) (hn : none ∈ (finish c s).sends) :
    (s.diffMessageBuf = none ∧ (finish c s).ds.body = s.ds.body) ∨
    (∃ d, s.diffMessageBuf = some d ∧ (finish c s).ds.body = some d) := by
  obtain ⟨tl, htr, hcases⟩ := finish_trace c s
  have hs : (finish c s).sends = tl.filterMap Event.sent := by
    rw [Cff.sends, htr, List.filterMap_append]
    show s.sends ++ _ = _
    rw [h]
    simp [Event.sent]
  rw [hs] at hn
  rcases hcases with ⟨h1, _, h2⟩ | ⟨d, h1, _, _, _, h2⟩ | ⟨d, _, h1, _, _, _, h2⟩ |
    ⟨_, _, _, _, _, h⟩ | ⟨_, _, _, _, _, _, h⟩
  · exact Or.inl ⟨h1, h2⟩
  · exact Or.inr ⟨d, h1, h2⟩
  · exact Or.inr ⟨d, h1, h2⟩
  · rw [h] at hn; simp [Event.sent] at hn
  · rw [h] at hn; simp [Event.sent] at hn

/-- C7: at a flush that finds the diff buffer kept and more bytes read than
`BodySizeSmallEnoughToDiff`, the buffer is dropped and `bodyAct` becomes
`BodyTooBig`; no step of the consumer brings a dropped buffer back; and
after a run in which nil is sent, `bodyAct` is `BodyTooBig` and `ds.Body` is
what it was before exactly when the bytes read from the body exceed the
threshold, and otherwise `bodyAct` is `BodyDefault` and `ds.Body` holds the
entries of the body in stream order. -/
theorem diff_buffer_policy (c : Collab) (ds : Dataset) (bf : File) :
    (∀ (s : Cff) (buf d : List Entry), s.diffMessageBuf = some d →
      c.bodySizeSmallEnoughToDiff < s.bytesRead →
      (flushBatch c s buf).1.diffMessageBuf = none ∧
      (flushBatch c s buf).1.bodyAct = .BodyTooBig) ∧
    (∀ (s : Cff) (buf : List Entry), s.diffMessageBuf = none →
      (flushBatch c s buf).1.diffMessageBuf = none) ∧
    (∀ (s : Cff) (i : Nat) (ent : Entry), s.diffMessageBuf = none →
      (onEntry c s i ent none).1.diffMessageBuf = none) ∧
    (∀ (s : Cff) (tail num : Nat) (reads : List Read), s.diffMessageBuf = none →
      (eachEntry c tail reads num s).1.diffMessageBuf = none) ∧
    (∀ s : Cff, s.diffMessageBuf = none → (finish c s).diffMessageBuf = none) ∧
    (none ∈ (handleRows c (Cff.over ds bf)).sends →
      ((handleRows c (Cff.over ds bf)).bodyAct = .BodyTooBig ↔
        c.bodySizeSmallEnoughToDiff < bf.content.length) ∧
      (c.bodySizeSmallEnoughToDiff < bf.content.length →
        (handleRows c (Cff.over ds bf)).bodyAct = .BodyTooBig ∧
        (handleRows c (Cff.over ds bf)).ds.body = ds.body) ∧
      (bf.content.length ≤ c.bodySizeSmallEnoughToDiff →
        (handleRows c (Cff.over ds bf)).bodyAct = .BodyDefault ∧
        (handleRows c (Cff.over ds bf)).ds.body = some bf.content.entries)) := by
  refine ⟨fun s buf d hd hb => ?_, fun s buf hd => ?_, fun s i ent hd => ?_,
    fun s tail num reads hd => ?_, fun s hd => ?_, fun h => ?_⟩
  · obtain ⟨h1, h2⟩ := flushBatch_diff c s buf
    rw [h1, h2]
    rcases (beginFlush_diff c s).2 d hd with ⟨hle, _, _⟩ | ⟨_, h3, h4⟩
    · omega
    · exact ⟨h3, h4⟩
  · rw [(flushBatch_diff c s buf).1]
    exact ((beginFlush_diff c s).1 hd).1
  · exact ((onEntry_run c s i ent).dropped hd).1
  · exact ((eachEntry_run c tail reads num s).dropped hd).1
  · rw [finish_diff, hd]
  · obtain ⟨s₁, s₂, he, _, h2, r1, r2, hb⟩ := success_shape c (Cff.over ds bf) rfl h
    have hsends : s₂.sends = [] := by
      rw [(r1.trans r2).sends, (ready_fields _).2.2.2.2.2.2.2.2.2.1]; rfl
    have hds : s₂.ds = ds := by
      rw [(r1.trans r2).ds, (ready_fields _).2.1]; rfl
    have hlen : s₁.bytesRead = bf.content.length := by
      rw [hb]; simp [Cff.over]
    obtain ⟨g1, g2⟩ := flushAndCount_diff c s₁
    rw [h2] at g1 g2
    simp only at g1 g2
    have hact : (handleRows c (Cff.over ds bf)).bodyAct = s₂.bodyAct := by
      rw [he]; exact (finish_frame c s₂).2.2.2.2.2.1
    rw [he] at h
    have hfin := finish_sends c s₂ hsends h
    rw [← he, hds] at hfin
    rw [hact]
    have key : (c.bodySizeSmallEnoughToDiff < bf.content.length →
          s₂.bodyAct = .BodyTooBig ∧ (handleRows c (Cff.over ds bf)).ds.body = ds.body) ∧
        (bf.content.length ≤ c.bodySizeSmallEnoughToDiff →
          s₂.bodyAct = .BodyDefault ∧
          (handleRows c (Cff.over ds bf)).ds.body = some bf.content.entries) := by
      rcases r1.kept rfl [] (ready_fields _).2.2.2.2.2.1 with ⟨k1, k2⟩ | ⟨k1, k2, k3⟩
      · rw [(ready_fields _).2.2.2.1] at k2
        simp only [List.nil_append] at k1
        rcases (beginFlush_diff c s₁).2 _ k1 with ⟨b1, b2, b3⟩ | ⟨b1, b2, b3⟩
        · rw [hlen] at b1
          rw [← g1] at b2
          rw [← g2, k2] at b3
          refine ⟨fun hgt => by omega, fun _ => ⟨b3, ?_⟩⟩
          rcases hfin with ⟨f1, _⟩ | ⟨d, f1, f2⟩
          · rw [f1] at b2; cases b2
          · rw [f1] at b2
            cases b2
            exact f2
        · rw [hlen] at b1
          rw [← g1] at b2
          rw [← g2] at b3
          refine ⟨fun _ => ⟨b3, ?_⟩, fun hle => by omega⟩
          rcases hfin with ⟨_, f2⟩ | ⟨d, f1, _⟩
          · exact f2
          · rw [f1] at b2; cases b2
      · rw [hlen] at k3
        obtain ⟨b2, b3⟩ := (beginFlush_diff c s₁).1 k1
        rw [← g1] at b2
        rw [← g2, k2] at b3
        refine ⟨fun _ => ⟨b3, ?_⟩, fun hle => by omega⟩
        rcases hfin with ⟨_, f2⟩ | ⟨d, f1, _⟩
        · exact f2
        · rw [f1] at b2; cases b2
    refine ⟨⟨fun ht => ?_, fun hgt => (key.1 hgt).1⟩, key.1, key.2⟩
    by_contra hle
    have := (key.2 (by omega)).1
    rw [this] at ht
    cases ht

/-- Every run sends at least one value and at most two, and exactly one
when the close of the kept diff buffer does not fail. -/
theorem sends_count (c : Collab) (ds : Dataset) (bf : File) :
    (c.diffClose = none → (handleRows c (Cff.over ds bf)).sends.length = 1) ∧
    ((handleRows c (Cff.over ds bf)).sends.length = 1 ∨
      (handleRows c (Cff.over ds bf)).sends.length = 2) := by
  rcases handleRows_cases c (Cff.over ds bf) with
    ⟨t, e, he, _, ht, _⟩ | ⟨t, e, he, hr⟩ | ⟨s₁, s₂, he, h1, h2, _⟩
  · have : t.sends = [] := by rw [Cff.sends, ht]; rfl
    rw [he, emit_sends, this]
    simp [Event.sent]
  · have : t.sends = [] := by rw [hr.sends, (ready_fields _).2.2.2.2.2.2.2.2.2.1]; rfl
    rw [he, emit_sends, this]
    simp [Event.sent]
  · have r1 := eachEntry_run c (Cff.over ds bf).source.content.tail
      (Cff.over ds bf).source.content.reads 0 (Cff.over ds bf).ready
    have r2 := flushAndCount_run c s₁
    rw [h1] at r1
    rw [h2] at r2
    have hs : s₂.sends = [] := by
      rw [(r1.trans r2).sends, (ready_fields _).2.2.2.2.2.2.2.2.2.1]; rfl
    obtain ⟨tl, htr, hcases⟩ := finish_trace c s₂
    have hsends : (finish c s₂).sends = tl.filterMap Event.sent := by
      rw [Cff.sends, htr, List.filterMap_append]
      show s₂.sends ++ _ = _
      rw [hs]
      simp [Event.sent]
    rw [he, hsends]
    rcases hcases with ⟨_, h, _⟩ | ⟨_, _, _, _, h, _⟩ | ⟨_, _, _, hc, _, h, _⟩ |
      ⟨_, _, _, _, _, h⟩ | ⟨_, _, _, _, hc, _, h⟩
    · rw [h]; simp [Event.sent]
    · rw [h]; simp [Event.sent]
    · rw [h]; simp [Event.sent, hc]
    · rw [h]; simp [Event.sent]
    · rw [h]; simp [Event.sent, hc]

/-- C8 at the failing input: when the close of the kept diff buffer fails,
`handleRows` sends the close error and then, the read-back succeeding, sends
nil as well: two values on the completion channel. -/
theorem two_sends_when_diff_close_fails :
    (handleRows { Collab.sample 5 100 with diffClose := some "close failed" }
      (Cff.over (Dataset.sample false (Body.sample 5 [.str "foo"]))
        (File.sample (Body.sample 5 [.str "foo"])))).sends =
      [some (.wrap "closing body data buffer" (.ext "close failed")), none] := by
  decide

/-- C10: `newComputeFieldsFile` fails, with the error "bodyfile or previous
bodyfile needed", exactly when the next dataset has no body file and the
previous dataset is absent or has no body file; when the next dataset has a
body file it is the stream source, when only the previous one has a body
file that one is the stream source, and `Size` is the size of the source,
-1 when the source gives none. -/
theorem newComputeFieldsFile_spec (ds : Dataset) (prev : Option Dataset) :
    (newComputeFieldsFile ds prev = .error (.simple "bodyfile or previous bodyfile needed") ↔
      ds.bodyFile = none ∧ (prev = none ∨ ∃ p, prev = some p ∧ p.bodyFile = none)) ∧
    (∀ e, newComputeFieldsFile ds prev = .error e →
      e = .simple "bodyfile or previous bodyfile needed") ∧
    (∀ f, ds.bodyFile = some f →
      ∃ cff, newComputeFieldsFile ds prev = .ok cff ∧ cff.source = f ∧
        cff.bodyAct = .BodyDefault ∧ (∀ n, f.size = some n → cff.Size = n) ∧
        (f.size = none → cff.Size = -1)) ∧
    (∀ p f, ds.bodyFile = none → prev = some p → p.bodyFile = some f →
      ∃ cff, newComputeFieldsFile ds prev = .ok cff ∧ cff.source = f ∧
        cff.bodyAct = .BodyDefault ∧ (∀ n, f.size = some n → cff.Size = n) ∧
        (f.size = none → cff.Size = -1)) := by
  have hsize : ∀ f : File, (∀ n, f.size = some n → (Cff.over ds f).Size = n) ∧
      (f.size = none → (Cff.over ds f).Size = -1) := by
    intro f
    constructor
    · intro n hn; simp [Cff.Size, Cff.over, hn]
    · intro hn; simp [Cff.Size, Cff.over, hn]
  unfold newComputeFieldsFile
  cases hb : ds.bodyFile with
  | some f =>
    refine ⟨by simp, by simp, fun g hg => ?_, by simp⟩
    cases hg
    exact ⟨_, rfl, rfl, rfl, hsize f⟩
  | none =>
    cases prev with
    | none => simp
    | some p =>
      cases hp : p.bodyFile with
      | none =>
        simp only [hp]
        refine ⟨by simp [hp], by simp, by simp, fun q g _ hq hg => ?_⟩
        cases hq
        rw [hp] at hg
        cases hg
      | some f =>
        refine ⟨by simp [hp], by simp [hp], by simp, fun q g _ hq hg => ?_⟩
        cases hq
        rw [hp] at hg
        cases hg
        simp only [hp]
        exact ⟨_, rfl, rfl, rfl, hsize f⟩

/-- With the set-up succeeding, `handleRows` is the loop, the last flush and
the closing steps, the first error being sent. -/
theorem handleRows_eq (c : Collab) (s : Cff) (h1 : c.newEntryReader = none)
    (h2 : c.jsonSchema = none) (h3 : c.newBatchBuf = none) (h4 : c.newDiffBuf = none) :
    handleRows c s =
      match eachEntry c s.source.content.tail s.source.content.reads 0 s.ready with
      | (s₁, some e) => s₁.emit (.send (some (.wrap "processing body data" e)))
      | (s₁, none) =>
        match flushAndCount c s₁ with
        | (s₂, some e) => s₂.emit (.send (some e))
        | (s₂, none) => finish c s₂ := by
  unfold handleRows
  simp only [h1, h2, h3, h4]
  rfl

theorem finish_errs (c : Collab) (s : Cff) (h : s.sends = []) :
    ∀ e, some e ∈ (finish c s).sends → e.strictCount = none := by
  obtain ⟨tl, htr, hcases⟩ := finish_trace c s
  have hs : (finish c s).sends = tl.filterMap Event.sent := by
    rw [Cff.sends, htr, List.filterMap_append]
    show s.sends ++ _ = _
    rw [h]
    simp [Event.sent]
  rw [hs]
  intro e he
  rcases hcases with ⟨_, h, _⟩ | ⟨_, _, _, _, h, _⟩ | ⟨_, _, _, _, _, h, _⟩ |
    ⟨_, _, _, _, _, h⟩ | ⟨_, _, _, _, _, _, h⟩
  · rw [h] at he; simp [Event.sent] at he
  · rw [h] at he; simp [Event.sent] at he
  · rw [h] at he; simp [Event.sent] at he; rw [he]; rfl
  · rw [h] at he; simp [Event.sent] at he; rw [he]; rfl
  · rw [h] at he; simp [Event.sent] at he; rcases he with rfl | rfl <;> rfl

theorem flushBatch_sound (c : Collab) (hc : c.Sound) (s : Cff) (buf : List Entry) :
    ∀ e, (flushBatch c s buf).2 = .error e → ∃ n, e = .strictMode n ∧ s.ds.strict = true := by
  intro e he
  unfold flushBatch at he
  simp only [hc.bufClose] at he
  split_ifs at he with h
  obtain ⟨doc, hdoc⟩ := hc.unmarshal buf
  simp only [hdoc] at he
  split_ifs at he with h2
  · simp only [Except.error.injEq] at he
    exact ⟨_, he.symm, by simpa [(beginFlush_frame c s).1] using h2.1⟩

theorem flushAndCount_sound (c : Collab) (hc : c.Sound) (s : Cff) :
    ∀ e, (flushAndCount c s).2 = some e → ∃ n, e = .strictMode n ∧ s.ds.strict = true := by
  intro e he
  have := flushBatch_sound c hc s s.batchBuf
  unfold flushAndCount at he
  rcases hf : flushBatch c s s.batchBuf with ⟨s', r⟩
  rw [hf] at he this
  cases r with
  | error e' =>
    simp only [Option.some.injEq] at he
    exact he ▸ this e' rfl
  | ok n => simp at he

theorem flushIfDue_sound (c : Collab) (hc : c.Sound) (s : Cff) (i : Nat) :
    ∀ e, (flushIfDue c s i).2 = some e → ∃ n, e = .strictMode n ∧ s.ds.strict = true := by
  intro e he
  have := flushAndCount_sound c hc s
  unfold flushIfDue at he
  split_ifs at he
  · rcases hf : flushAndCount c s with ⟨s', r⟩
    rw [hf] at he this
    cases r with
    | some e' =>
      simp only [Option.some.injEq] at he
      exact he ▸ this e' rfl
    | none => simp [hc.renewBatchBuf] at he

theorem bufferEntry_sound (c : Collab) (hc : c.Sound) (s : Cff) (i : Nat) (ent : Entry) :
    (bufferEntry c s i ent).2 = none := by
  unfold bufferEntry
  simp only [hc.batchWriteEntry]
  cases s.diffMessageBuf with
  | none => rfl
  | some d => simp [hc.diffWriteEntry]

theorem onEntry_sound (c : Collab) (hc : c.Sound) (s : Cff) (i : Nat) (ent : Entry) :
    ∀ e, (onEntry c s i ent none).2 = some e → ∃ n, e = .strictMode n ∧ s.ds.strict = true := by
  intro e he
  have h1 := flushIfDue_sound c hc (countEntry s ent) i
  rw [(countEntry_frame s ent).1] at h1
  unfold onEntry at he
  simp only [hc.accWriteEntry] at he
  rcases hf : flushIfDue c (countEntry s ent) i with ⟨s₂, r⟩
  rw [hf] at he h1
  cases r with
  | some e' =>
    simp only [Option.some.injEq] at he
    exact he ▸ h1 e' rfl
  | none =>
    simp only [bufferEntry_sound c hc] at he
    cases he

theorem eachEntry_sound (c : Collab) (hc : c.Sound) (tail : Nat) (reads : List Read)
    (hd : allDecode reads = true) (num : Nat) (s : Cff) :
    ∀ e, (eachEntry c tail reads num s).2 = some e →
      ∃ n, e = .strictMode n ∧ s.ds.strict = true := by
  induction reads generalizing num s with
  | nil => intro e he; simp [eachEntry] at he
  | cons r rest ih =>
    intro e he
    unfold eachEntry at he
    simp only at he
    cases hr : r.result with
    | error x => simp [allDecode, hr] at hd
    | ok ent =>
      simp only [hr] at he
      have hd' : allDecode rest = true := by simpa [allDecode, hr] using hd
      have h1 := onEntry_sound c hc { s with bytesRead := s.bytesRead + r.bytes } num ent
      have hrun := onEntry_run c { s with bytesRead := s.bytesRead + r.bytes } num ent
      rcases ho : onEntry c { s with bytesRead := s.bytesRead + r.bytes } num ent none
        with ⟨s₂, q⟩
      rw [ho] at he h1 hrun
      cases q with
      | some e' =>
        simp only [Option.some.injEq] at he
        exact he ▸ h1 e' rfl
      | none =>
        obtain ⟨n, hn, hs⟩ := ih hd' (num + 1) s₂ e he
        exact ⟨n, hn, by rw [← hs, hrun.ds]⟩

theorem sample_sound (batchSize threshold : Nat) : (Collab.sample batchSize threshold).Sound where
  newEntryReader := rfl
  jsonSchema := rfl
  newBatchBuf := rfl
  newDiffBuf := rfl
  accWriteEntry := fun _ => rfl
  renewBatchBuf := fun _ => rfl
  batchWriteEntry := fun _ => rfl
  diffWriteEntry := fun _ => rfl
  bufClose := fun _ => rfl
  unmarshal := fun _ => ⟨_, rfl⟩
  diffClose := rfl
  readAll := rfl

/-- With every collaborator succeeding, the closing steps send nil and
nothing else. -/
theorem finish_sound (c : Collab) (hc : c.Sound) (s : Cff) (h : s.sends = []) :
    (finish c s).sends = [none] := by
  obtain ⟨tl, htr, hcases⟩ := finish_trace c s
  have hs : (finish c s).sends = tl.filterMap Event.sent := by
    rw [Cff.sends, htr, List.filterMap_append]
    show s.sends ++ _ = _
    rw [h]
    simp [Event.sent]
  rw [hs]
  rcases hcases with ⟨_, h, _⟩ | ⟨_, _, _, _, h, _⟩ | ⟨_, _, _, hx, _, _, _⟩ |
    ⟨_, _, _, _, hx, _⟩ | ⟨_, _, _, _, hx, _, _⟩
  · rw [h]; simp [Event.sent]
  · rw [h]; simp [Event.sent]
  · rw [hc.diffClose] at hx; cases hx
  · rw [hc.readAll] at hx; cases hx
  · rw [hc.diffClose] at hx; cases hx

/-- With every collaborator succeeding and every entry decoding, a run ends
with nil or with the strict-mode error; with `Strict` off it ends with
nil. -/
theorem sound_run (c : Collab) (hc : c.Sound) (s : Cff) (h0 : s.trace = [])
    (hd : allDecode s.source.content.reads = true) :
    (handleRows c s).sends = [none] ∨
    (s.ds.strict = true ∧ ∃ n, (∃ e, (handleRows c s).sends = [some e] ∧
      e.strictCount = some n)) := by
  have hs0 : s.ready.sends = [] := by
    rw [(ready_fields s).2.2.2.2.2.2.2.2.2.1, Cff.sends, h0]; rfl
  rw [handleRows_eq c s hc.newEntryReader hc.jsonSchema hc.newBatchBuf hc.newDiffBuf]
  have r1 := eachEntry_run c s.source.content.tail s.source.content.reads 0 s.ready
  have e1 := eachEntry_sound c hc s.source.content.tail s.source.content.reads hd 0 s.ready
  rcases hl : eachEntry c s.source.content.tail s.source.content.reads 0 s.ready with ⟨s₁, q⟩
  rw [hl] at r1 e1
  cases q with
  | some e =>
    obtain ⟨n, rfl, hst⟩ := e1 e rfl
    right
    refine ⟨by rw [← hst, (ready_fields s).2.1], n,
      .wrap "processing body data" (.strictMode n), ?_, rfl⟩
    simp only
    rw [emit_sends, r1.sends, hs0]
    rfl
  | none =>
    simp only
    have r2 := flushAndCount_run c s₁
    have e2 := flushAndCount_sound c hc s₁
    rcases hf : flushAndCount c s₁ with ⟨s₂, q⟩
    rw [hf] at r2 e2
    cases q with
    | some e =>
      obtain ⟨n, rfl, hst⟩ := e2 e rfl
      right
      refine ⟨by rw [← hst, r1.ds, (ready_fields s).2.1], n, .strictMode n, ?_, rfl⟩
      simp only
      rw [emit_sends, r2.sends, r1.sends, hs0]
      rfl
    | none =>
      left
      exact finish_sound c hc s₂ (by rw [r2.sends, r1.sends, hs0])

/-- C3 as stated fails: with `Strict` off and every entry of the body
decoding, a run in which the schema of the structure does not build sends
that error and no nil. -/
theorem nonstrict_failure_without_validation :
    (Dataset.sample false (Body.sample 5 [.num 1])).strict = false ∧
    allDecode (Body.sample 5 [.num 1]).reads = true ∧
    (handleRows { Collab.sample 5 100 with jsonSchema := some "invalid schema" }
      (Cff.over (Dataset.sample false (Body.sample 5 [.num 1]))
        (File.sample (Body.sample 5 [.num 1])))).sends = [some (.ext "invalid schema")] ∧
    none ∉ (handleRows { Collab.sample 5 100 with jsonSchema := some "invalid schema" }
      (Cff.over (Dataset.sample false (Body.sample 5 [.num 1]))
        (File.sample (Body.sample 5 [.num 1])))).sends := by
  refine ⟨rfl, rfl, rfl, by decide⟩

/-- C3, amended: with `Structure.Strict` off, no run sends the strict-mode
error, so validation errors never abort the save; a run that sends nil
leaves in `Structure.ErrCount` the sum of the error counts the validator
reported for the flushed batches; and when every entry decodes and no call
into a collaborator fails, the run sends nil, and only nil. -/
theorem nonstrict_counts (c : Collab) (ds : Dataset) (bf : File) (hs : ds.strict = false) :
    (∀ e, some e ∈ (handleRows c (Cff.over ds bf)).sends → e.strictCount = none) ∧
    (none ∈ (handleRows c (Cff.over ds bf)).sends →
      (handleRows c (Cff.over ds bf)).ds.errCount =
        (handleRows c (Cff.over ds bf)).validations.sum) ∧
    (c.Sound → allDecode bf.content.reads = true →
      (handleRows c (Cff.over ds bf)).sends = [none] ∧
      (handleRows c (Cff.over ds bf)).ds.errCount =
        (handleRows c (Cff.over ds bf)).validations.sum) := by
  have part2 : none ∈ (handleRows c (Cff.over ds bf)).sends →
      (handleRows c (Cff.over ds bf)).ds.errCount =
        (handleRows c (Cff.over ds bf)).validations.sum := by
    intro h
    obtain ⟨s₁, s₂, he, _, _, r1, r2, _⟩ := success_shape c (Cff.over ds bf) rfl h
    obtain ⟨vs, hv, _, hcount⟩ := (r1.trans r2).vals
    rw [he, (finish_frame c s₂).1, (finish_frame c s₂).2.2.2.2.2.2, hv, hcount rfl,
      (ready_fields _).2.2.2.2.2.2.1, (ready_fields _).2.2.2.2.2.2.2.2.2.2.1]
    simp [Cff.over, Cff.validations]
  refine ⟨fun e he => ?_, part2, fun hc hd => ?_⟩
  · rcases handleRows_cases c (Cff.over ds bf) with
      ⟨t, e', h1, h2, ht, _⟩ | ⟨t, e', h1, hr⟩ | ⟨s₁, s₂, h1, h2, h3, _⟩
    · have : t.sends = [] := by rw [Cff.sends, ht]; rfl
      rw [h1, emit_sends, this] at he
      simp [Event.sent] at he
      rw [he]; exact h2
    · have : t.sends = [] := by rw [hr.sends, (ready_fields _).2.2.2.2.2.2.2.2.2.1]; rfl
      rw [h1, emit_sends, this] at he
      simp [Event.sent] at he
      obtain ⟨vs, _, hshape, _⟩ := hr.vals
      rw [(ready_fields _).2.1] at hshape
      rw [he]
      cases hsc : e'.strictCount with
      | none => rfl
      | some n =>
        simp only [strictOf, hsc, ValShape] at hshape
        have : ds.strict = true := hshape.1
        rw [hs] at this
        cases this
    · have r1 := eachEntry_run c (Cff.over ds bf).source.content.tail
        (Cff.over ds bf).source.content.reads 0 (Cff.over ds bf).ready
      have r2 := flushAndCount_run c s₁
      rw [h2] at r1
      rw [h3] at r2
      rw [h1] at he
      exact finish_errs c s₂
        (by rw [(r1.trans r2).sends, (ready_fields _).2.2.2.2.2.2.2.2.2.1]; rfl) e he
  · rcases sound_run c hc (Cff.over ds bf) rfl hd with h | ⟨hst, _⟩
    · exact ⟨h, part2 (by rw [h]; simp)⟩
    · have : ds.strict = true := hst
      rw [hs] at this
      cases this

/-- C3 amended, at a body of five entries, three of them invalid, flushed in
batches of two: nil is sent and the error count is 3. -/
theorem nonstrict_counts_witness :
    (Dataset.sample false (Body.sample 4 [.str "x", .num 1, .str "y", .num 3, .str "z"])).strict
      = false ∧
    (handleRows (Collab.sample 2 100)
      (Cff.over (Dataset.sample false (Body.sample 4 [.str "x", .num 1, .str "y", .num 3, .str "z"]))
        (File.sample (Body.sample 4 [.str "x", .num 1, .str "y", .num 3, .str "z"])))).sends
      = [none] ∧
    (handleRows (Collab.sample 2 100)
      (Cff.over (Dataset.sample false (Body.sample 4 [.str "x", .num 1, .str "y", .num 3, .str "z"]))
        (File.sample (Body.sample 4 [.str "x", .num 1, .str "y", .num 3, .str "z"])))).ds.errCount
      = 3 :=
  ⟨rfl,
   ((nonstrict_counts (Collab.sample 2 100)
      (Dataset.sample false (Body.sample 4 [.str "x", .num 1, .str "y", .num 3, .str "z"]))
      (File.sample (Body.sample 4 [.str "x", .num 1, .str "y", .num 3, .str "z"])) rfl).2.2
      (sample_sound 2 100) rfl).1,
   ((nonstrict_counts (Collab.sample 2 100)
      (Dataset.sample false (Body.sample 4 [.str "x", .num 1, .str "y", .num 3, .str "z"]))
      (File.sample (Body.sample 4 [.str "x", .num 1, .str "y", .num 3, .str "z"])) rfl).2.2
      (sample_sound 2 100) rfl).2.trans rfl⟩

/-- In strict mode a run either sends no strict-mode error, every validation
having counted 0, or sends one value, a strict-mode error whose count is
that of the last validation, the only one that counted more than 0. -/
theorem strict_outcome (c : Collab) (ds : Dataset) (bf : File) (hs : ds.strict = true) :
    ((∀ e, some e ∈ (handleRows c (Cff.over ds bf)).sends → e.strictCount = none) ∧
      AllZero (handleRows c (Cff.over ds bf)).validations) ∨
    (∃ e n, (handleRows c (Cff.over ds bf)).sends = [some e] ∧ e.strictCount = some n ∧
      0 < n ∧ ∃ zs, (handleRows c (Cff.over ds bf)).validations = zs ++ [n] ∧ AllZero zs) := by
  rcases handleRows_cases c (Cff.over ds bf) with
    ⟨t, e', h1, h2, ht, _⟩ | ⟨t, e', h1, hr⟩ | ⟨s₁, s₂, h1, h2, h3, _⟩
  · left
    have hts : t.sends = [] := by rw [Cff.sends, ht]; rfl
    have htv : t.validations = [] := by rw [Cff.validations, ht]; rfl
    rw [h1, emit_sends, emit_validations, hts, htv]
    refine ⟨fun e he => ?_, by simp [Event.errs, AllZero]⟩
    simp [Event.sent] at he
    rw [he]; exact h2
  · have hts : t.sends = [] := by rw [hr.sends, (ready_fields _).2.2.2.2.2.2.2.2.2.1]; rfl
    obtain ⟨vs, hv, hshape, _⟩ := hr.vals
    rw [(ready_fields _).2.1] at hshape
    have hv' : t.validations = vs := by
      rw [hv, (ready_fields _).2.2.2.2.2.2.2.2.2.2.1]; rfl
    have hsd : (Cff.over ds bf).ds.strict = true := hs
    rw [h1, emit_sends, emit_validations, hts, hv']
    cases hsc : e'.strictCount with
    | none =>
      left
      simp only [strictOf, hsc, ValShape] at hshape
      refine ⟨fun e he => ?_, by simpa [Event.errs] using hshape hsd⟩
      simp [Event.sent] at he
      rw [he]; exact hsc
    | some n =>
      right
      simp only [strictOf, hsc, ValShape] at hshape
      obtain ⟨_, hn, zs, hz, hzs⟩ := hshape
      exact ⟨e', n, by simp [Event.sent], hsc, hn, zs, by simp [Event.errs, hz], hzs⟩
  · left
    have r1 := eachEntry_run c (Cff.over ds bf).source.content.tail
      (Cff.over ds bf).source.content.reads 0 (Cff.over ds bf).ready
    have r2 := flushAndCount_run c s₁
    rw [h2] at r1
    rw [h3] at r2
    have hr := r1.trans r2
    obtain ⟨vs, hv, hshape, _⟩ := hr.vals
    rw [(ready_fields _).2.1] at hshape
    have hv' : s₂.validations = vs := by
      rw [hv, (ready_fields _).2.2.2.2.2.2.2.2.2.2.1]; rfl
    rw [h1, (finish_frame c s₂).2.2.2.2.2.2, hv']
    exact ⟨finish_errs c s₂ (by rw [hr.sends, (ready_fields _).2.2.2.2.2.2.2.2.2.1]; rfl),
      hshape hs⟩

/-- C4: with `Structure.Strict` on, a strict-mode validation error is sent
if and only if some batch the validator saw has at least one validation
error; the error is then the only value sent, the batch is the first one
with an error and the last one validated, and the count the error reports,
more than 0, is the sum of the counts of all batches validated. -/
theorem strict_mode_failure (c : Collab) (ds : Dataset) (bf : File) (hs : ds.strict = true) :
    ((∃ e n, some e ∈ (handleRows c (Cff.over ds bf)).sends ∧ e.strictCount = some n) ↔
      ∃ v ∈ (handleRows c (Cff.over ds bf)).validations, 0 < v) ∧
    (∀ e n, some e ∈ (handleRows c (Cff.over ds bf)).sends → e.strictCount = some n →
      (handleRows c (Cff.over ds bf)).sends = [some e] ∧ 0 < n ∧
      (∃ zs, (handleRows c (Cff.over ds bf)).validations = zs ++ [n] ∧ AllZero zs) ∧
      (handleRows c (Cff.over ds bf)).validations.sum = n) := by
  rcases strict_outcome c ds bf hs with ⟨h1, h2⟩ | ⟨e, n, h1, h2, h3, zs, h4, h5⟩
  · refine ⟨⟨fun ⟨e, n, he, hn⟩ => ?_, fun ⟨v, hv, hpos⟩ => ?_⟩, fun e n he hn => ?_⟩
    · rw [h1 e he] at hn; cases hn
    · have := h2 v hv
      omega
    · rw [h1 e he] at hn; cases hn
  · refine ⟨⟨fun _ => ⟨n, by rw [h4]; simp, h3⟩, fun _ => ⟨e, n, by rw [h1]; simp, h2⟩⟩,
      fun e' n' he' hn' => ?_⟩
    rw [h1] at he'
    simp only [List.mem_singleton, Option.some.injEq] at he'
    subst he'
    rw [h2] at hn'
    cases hn'
    exact ⟨h1, h3, ⟨zs, h4, h5⟩, by rw [h4, List.sum_append, h5.sum]; simp⟩

/-- C4 at a body of five entries, three of them invalid, flushed in batches
of two: the strict-mode error of the first batch, reporting 1, is the value
sent, and the first batch is the only one validated. -/
theorem strict_mode_failure_witness :
    (Dataset.sample true (Body.sample 4 [.str "x", .num 1, .str "y", .num 3, .str "z"])).strict
      = true ∧
    (handleRows (Collab.sample 2 100)
      (Cff.over (Dataset.sample true (Body.sample 4 [.str "x", .num 1, .str "y", .num 3, .str "z"]))
        (File.sample (Body.sample 4 [.str "x", .num 1, .str "y", .num 3, .str "z"])))).sends
      = [some (.wrap "processing body data" (.strictMode 1))] ∧
    (handleRows (Collab.sample 2 100)
      (Cff.over (Dataset.sample true (Body.sample 4 [.str "x", .num 1, .str "y", .num 3, .str "z"]))
        (File.sample (Body.sample 4 [.str "x", .num 1, .str "y", .num 3, .str "z"])))).validations.sum
      = 1 :=
  ⟨rfl,
   ((strict_mode_failure (Collab.sample 2 100)
      (Dataset.sample true (Body.sample 4 [.str "x", .num 1, .str "y", .num 3, .str "z"]))
      (File.sample (Body.sample 4 [.str "x", .num 1, .str "y", .num 3, .str "z"])) rfl).2
      (.wrap "processing body data" (.strictMode 1)) 1 (by decide) rfl).1,
   ((strict_mode_failure (Collab.sample 2 100)
      (Dataset.sample true (Body.sample 4 [.str "x", .num 1, .str "y", .num 3, .str "z"]))
      (File.sample (Body.sample 4 [.str "x", .num 1, .str "y", .num 3, .str "z"])) rfl).2
      (.wrap "processing body data" (.strictMode 1)) 1 (by decide) rfl).2.2.2⟩

theorem Run.grows {c : Collab} {s s' : Cff} {a b : List Entry} {res : Option Err}
    (h : Run c s s' a b res) : s.validations <+: s'.validations := by
  obtain ⟨vs, hv, _⟩ := h.vals
  exact ⟨vs, hv.symm⟩

theorem beginFlush_relax (c : Collab) (s : Cff) :
    beginFlush c s.relax = (beginFlush c s).relax := by
  unfold beginFlush
  simp only
  by_cases h : s.diffMessageBuf.isSome ∧ s.bytesRead > c.bodySizeSmallEnoughToDiff
  · have h' : s.relax.diffMessageBuf.isSome ∧ s.relax.bytesRead > c.bodySizeSmallEnoughToDiff := h
    rw [if_pos h, if_pos h']
    rfl
  · have h' : ¬(s.relax.diffMessageBuf.isSome ∧
        s.relax.bytesRead > c.bodySizeSmallEnoughToDiff) := h
    rw [if_neg h, if_neg h']
    rfl

/-- The outcomes of a flush from a state and from the relaxed state, side by
side: they differ only where the first raises the strict-mode error. -/
theorem flushBatch_both (c : Collab) (s : Cff) (buf : List Entry) :
    (∃ e, flushBatch c s buf = (beginFlush c s, .error e) ∧
      flushBatch c s.relax buf = ((beginFlush c s).relax, .error e)) ∨
    (flushBatch c s buf = (beginFlush c s, .ok 0) ∧
      flushBatch c s.relax buf = ((beginFlush c s).relax, .ok 0)) ∨
    (∃ n, flushBatch c s buf = ((beginFlush c s).emit (.validated n), .ok n) ∧
      flushBatch c s.relax buf = (((beginFlush c s).emit (.validated n)).relax, .ok n)) ∨
    (∃ n, flushBatch c s buf = ((beginFlush c s).emit (.validated n), .error (.strictMode n)) ∧
      flushBatch c s.relax buf = (((beginFlush c s).emit (.validated n)).relax, .ok n)) := by
  have hb : s.relax.batches = s.batches := rfl
  have hrel : ∀ e : Event, ((beginFlush c s).relax.emit e).ds.strict = false := fun _ => rfl
  cases h1 : c.bufClose s.batches with
  | some e =>
    refine Or.inl ⟨.wrap "error closing buffer" (.ext e), ?_, ?_⟩
    · unfold flushBatch; simp only [h1]
    · unfold flushBatch; simp only [beginFlush_relax, hb, h1]
  | none =>
    by_cases h2 : (c.bufBytes buf).length = 0
    · refine Or.inr (Or.inl ⟨?_, ?_⟩)
      · unfold flushBatch; simp only [h1, if_pos h2]
      · unfold flushBatch; simp only [beginFlush_relax, hb, h1, if_pos h2]
    · cases h3 : c.unmarshal (c.bufBytes buf) with
      | error e =>
        refine Or.inl ⟨.wrap "error parsing JSON bytes" (.ext e), ?_, ?_⟩
        · unfold flushBatch; simp only [h1, if_neg h2, h3]
        · unfold flushBatch; simp only [beginFlush_relax, hb, h1, if_neg h2, h3]
      | ok doc =>
        have hneg : ¬(((beginFlush c s).relax.emit (.validated (c.validate doc))).ds.strict = true ∧
            c.validate doc > 0) := fun h => by
          have h' := h.1
          rw [hrel] at h'
          cases h'
        by_cases hst : ((beginFlush c s).emit (.validated (c.validate doc))).ds.strict = true ∧
            c.validate doc > 0
        · refine Or.inr (Or.inr (Or.inr ⟨c.validate doc, ?_, ?_⟩))
          · unfold flushBatch; simp only [h1, if_neg h2, h3, if_pos hst]
          · unfold flushBatch
            simp only [beginFlush_relax, hb, h1, if_neg h2, h3, if_neg hneg]
            rfl
        · refine Or.inr (Or.inr (Or.inl ⟨c.validate doc, ?_, ?_⟩))
          · unfold flushBatch; simp only [h1, if_neg h2, h3, if_neg hst]
          · unfold flushBatch
            simp only [beginFlush_relax, hb, h1, if_neg h2, h3, if_neg hneg]
            rfl

theorem flushAndCount_sim (c : Collab) (s : Cff) :
    Sim (flushAndCount c s) (flushAndCount c s.relax) := by
  have hb : s.relax.batchBuf = s.batchBuf := rfl
  unfold flushAndCount
  rw [hb]
  rcases flushBatch_both c s s.batchBuf with ⟨e, h1, h2⟩ | ⟨h1, h2⟩ | ⟨n, h1, h2⟩ | ⟨n, h1, h2⟩ <;>
    rw [h1, h2]
  · exact ⟨(fun h => nomatch h), List.prefix_refl _⟩
  · exact ⟨fun _ => rfl, List.prefix_refl _⟩
  · exact ⟨fun _ => rfl, List.prefix_refl _⟩
  · exact ⟨(fun h => nomatch h), List.prefix_refl _⟩

theorem flushIfDue_sim (c : Collab) (s : Cff) (i : Nat) :
    Sim (flushIfDue c s i) (flushIfDue c s.relax i) := by
  have h := flushAndCount_sim c s
  unfold flushIfDue
  by_cases hdue : i % c.batchSize = 0 ∧ i ≠ 0
  · rw [if_pos hdue, if_pos hdue]
    rcases hp : flushAndCount c s with ⟨s', r⟩
    rcases hq : flushAndCount c s.relax with ⟨t', r'⟩
    rw [hp, hq] at h
    cases r with
    | some e =>
      refine ⟨(fun hn => nomatch hn), ?_⟩
      have hpre : s'.validations <+: t'.validations := h.2
      cases r' with
      | some e' => exact hpre
      | none => cases c.renewBatchBuf i <;> exact hpre
    | none =>
      have := h.1 rfl
      simp only [Prod.mk.injEq] at this
      obtain ⟨rfl, rfl⟩ := this
      simp only
      cases c.renewBatchBuf i with
      | some e => exact ⟨(fun hn => nomatch hn), List.prefix_refl _⟩
      | none => exact ⟨fun _ => rfl, List.prefix_refl _⟩
  · rw [if_neg hdue, if_neg hdue]
    exact ⟨fun _ => rfl, List.prefix_refl _⟩

theorem countEntry_relax (s : Cff) (ent : Entry) :
    countEntry s.relax ent = (countEntry s ent).relax := by
  unfold countEntry
  simp only
  by_cases h : getDepth ent.value > s.depth
  · have h' : getDepth ent.value > s.relax.depth := h
    rw [if_pos h, if_pos h']
    rfl
  · have h' : ¬ getDepth ent.value > s.relax.depth := h
    rw [if_neg h, if_neg h']
    rfl

theorem bufferEntry_relax (c : Collab) (s : Cff) (i : Nat) (ent : Entry) :
    bufferEntry c s.relax i ent = ((bufferEntry c s i ent).1.relax, (bufferEntry c s i ent).2) := by
  unfold bufferEntry
  cases c.batchWriteEntry i with
  | some e => rfl
  | none =>
    simp only
    have hd : s.relax.diffMessageBuf = s.diffMessageBuf := rfl
    rw [hd]
    cases s.diffMessageBuf with
    | none => rfl
    | some d => cases c.diffWriteEntry i <;> rfl

theorem onEntry_sim (c : Collab) (s : Cff) (i : Nat) (ent : Entry) :
    Sim (onEntry c s i ent none) (onEntry c s.relax i ent none) := by
  have h := flushIfDue_sim c (countEntry s ent) i
  unfold onEntry
  simp only [countEntry_relax]
  cases c.accWriteEntry i with
  | some e => exact ⟨(fun hn => nomatch hn), List.prefix_refl _⟩
  | none =>
    simp only
    rcases hp : flushIfDue c (countEntry s ent) i with ⟨s', r⟩
    rcases hq : flushIfDue c (countEntry s ent).relax i with ⟨t', r'⟩
    rw [hp, hq] at h
    cases r with
    | some e =>
      refine ⟨(fun hn => nomatch hn), ?_⟩
      have hpre : s'.validations <+: t'.validations := h.2
      cases r' with
      | some e' => exact hpre
      | none => exact hpre.trans (bufferEntry_run c t' i ent).grows
    | none =>
      have := h.1 rfl
      simp only [Prod.mk.injEq] at this
      obtain ⟨rfl, rfl⟩ := this
      simp only
      rw [bufferEntry_relax]
      exact ⟨fun hn => by rw [hn], List.prefix_refl _⟩

theorem eachEntry_sim (c : Collab) (tail : Nat) (reads : List Read) (num : Nat) (s : Cff) :
    Sim (eachEntry c tail reads num s) (eachEntry c tail reads num s.relax) := by
  induction reads generalizing num s with
  | nil => exact ⟨fun _ => rfl, List.prefix_refl _⟩
  | cons r rest ih =>
    unfold eachEntry
    simp only
    have hb : ({ s.relax with bytesRead := s.relax.bytesRead + r.bytes } : Cff) =
        ({ s with bytesRead := s.bytesRead + r.bytes } : Cff).relax := rfl
    rw [hb]
    cases r.result with
    | error e => exact ⟨(fun hn => nomatch hn), List.prefix_refl _⟩
    | ok ent =>
      simp only
      have h := onEntry_sim c { s with bytesRead := s.bytesRead + r.bytes } num ent
      rcases hp : onEntry c { s with bytesRead := s.bytesRead + r.bytes } num ent none
        with ⟨s', q⟩
      rcases hq : onEntry c ({ s with bytesRead := s.bytesRead + r.bytes } : Cff).relax num
        ent none with ⟨t', q'⟩
      rw [hp, hq] at h
      cases q with
      | some e =>
        refine ⟨(fun hn => nomatch hn), ?_⟩
        have hpre : s'.validations <+: t'.validations := h.2
        cases q' with
        | some e' => exact hpre
        | none => exact hpre.trans (eachEntry_run c tail rest (num + 1) t').grows
      | none =>
        have := h.1 rfl
        simp only [Prod.mk.injEq] at this
        obtain ⟨rfl, rfl⟩ := this
        exact ih (num + 1) s'

/-- After a run in which nil is sent, `Structure.ErrCount` is the sum of the
counts the validator reported. -/
theorem errCount_after_success (c : Collab) (s : Cff) (h0 : s.trace = [])
    (h : none ∈ (handleRows c s).sends) :
    (handleRows c s).ds.errCount = (handleRows c s).validations.sum := by
  obtain ⟨s₁, s₂, he, _, _, r1, r2, _⟩ := success_shape c s h0 h
  obtain ⟨vs, hv, _, hcount⟩ := (r1.trans r2).vals
  rw [he, (finish_frame c s₂).1, (finish_frame c s₂).2.2.2.2.2.2, hv, hcount rfl,
    (ready_fields _).2.2.2.2.2.2.1, (ready_fields _).2.2.2.2.2.2.2.2.2.2.1]
  simp [Cff.validations, h0]

/-- A run that sends nil in strict mode leaves the same error count as the
run from the relaxed state. -/
theorem relaxed_errCount_of_success (c : Collab) (hc : c.Sound) (s : Cff) (h0 : s.trace = [])
    (h : none ∈ (handleRows c s).sends) :
    (handleRows c s.relax).ds.errCount = (handleRows c s).ds.errCount := by
  obtain ⟨s₁, s₂, he, h1, h2, _⟩ := success_shape c s h0 h
  have sim1 := eachEntry_sim c s.source.content.tail s.source.content.reads 0 s.ready
  rw [h1] at sim1
  have e1 : eachEntry c s.relax.source.content.tail s.relax.source.content.reads 0
      s.relax.ready = (s₁.relax, none) := sim1.1 rfl
  have sim2 := flushAndCount_sim c s₁
  rw [h2] at sim2
  have e2 : flushAndCount c s₁.relax = (s₂.relax, none) := sim2.1 rfl
  rw [handleRows_eq c s.relax hc.newEntryReader hc.jsonSchema hc.newBatchBuf hc.newDiffBuf,
    e1]
  simp only
  rw [e2, he]
  simp only
  rw [(finish_frame c s₂).1, (finish_frame c s₂.relax).1]
  rfl

/-- The run from the relaxed state has seen every validation of the run from
the state itself. -/
theorem relaxed_validations (c : Collab) (hc : c.Sound) (s : Cff) :
    (handleRows c s).validations <+: (handleRows c s.relax).validations := by
  rw [handleRows_eq c s hc.newEntryReader hc.jsonSchema hc.newBatchBuf hc.newDiffBuf,
    handleRows_eq c s.relax hc.newEntryReader hc.jsonSchema hc.newBatchBuf hc.newDiffBuf]
  have sim1 := eachEntry_sim c s.source.content.tail s.source.content.reads 0 s.ready
  have hrel : eachEntry c s.relax.source.content.tail s.relax.source.content.reads 0
      s.relax.ready = eachEntry c s.source.content.tail s.source.content.reads 0
      s.ready.relax := rfl
  rw [hrel]
  have tailgrow : ∀ t : Cff, t.validations <+:
      (match flushAndCount c t with
        | (s₂, some e) => s₂.emit (.send (some e))
        | (s₂, none) => finish c s₂).validations := by
    intro t
    have r := flushAndCount_run c t
    rcases hf : flushAndCount c t with ⟨t₂, q⟩
    rw [hf] at r
    cases q with
    | some e =>
      simp only [emit_validations, Event.errs, Option.toList, List.append_nil]
      exact r.grows
    | none =>
      simp only [(finish_frame c t₂).2.2.2.2.2.2]
      exact r.grows
  rcases hp : eachEntry c s.source.content.tail s.source.content.reads 0 s.ready with ⟨s₁, q⟩
  rcases hq : eachEntry c s.source.content.tail s.source.content.reads 0 s.ready.relax
    with ⟨t₁, q'⟩
  rw [hp, hq] at sim1
  cases q with
  | some e =>
    simp only [emit_validations, Event.errs, Option.toList, List.append_nil]
    have hpre : s₁.validations <+: t₁.validations := sim1.2
    cases q' with
    | some e' =>
      simp only [emit_validations, Event.errs, Option.toList, List.append_nil]
      exact hpre
    | none => exact hpre.trans (tailgrow t₁)
  | none =>
    have := sim1.1 rfl
    simp only [Prod.mk.injEq] at this
    obtain ⟨rfl, rfl⟩ := this
    simp only
    have sim2 := flushAndCount_sim c s₁
    rcases hp2 : flushAndCount c s₁ with ⟨s₂, q₂⟩
    rcases hq2 : flushAndCount c s₁.relax with ⟨t₂, q₂'⟩
    rw [hp2, hq2] at sim2
    cases q₂ with
    | some e =>
      simp only [emit_validations, Event.errs, Option.toList, List.append_nil]
      have hpre : s₂.validations <+: t₂.validations := sim2.2
      cases q₂' with
      | some e' =>
        simp only [emit_validations, Event.errs, Option.toList, List.append_nil]
        exact hpre
      | none =>
        simp only [(finish_frame c t₂).2.2.2.2.2.2]
        exact hpre
    | none =>
      have := sim2.1 rfl
      simp only [Prod.mk.injEq] at this
      obtain ⟨rfl, rfl⟩ := this
      simp only [(finish_frame c s₂).2.2.2.2.2.2, (finish_frame c s₂.relax).2.2.2.2.2.2]
      exact List.prefix_refl _

theorem sum_le_of_prefix {l₁ l₂ : List Nat} (h : l₁ <+: l₂) : l₁.sum ≤ l₂.sum := by
  obtain ⟨t, rfl⟩ := h
  rw [List.sum_append]
  omega

/-- C5 as stated fails: a body of five entries, three of them invalid,
flushed in batches of two, has 3 validation errors in total (the error count
of the save with `Strict` off), and the save with `Strict` on fails with a
strict-mode error that reports 1, which is not at least 3. -/
theorem strict_count_below_total :
    (handleRows (Collab.sample 2 100)
      (Cff.over (Dataset.sample false (Body.sample 4 [.str "x", .num 1, .str "y", .num 3, .str "z"]))
        (File.sample (Body.sample 4 [.str "x", .num 1, .str "y", .num 3, .str "z"])))).ds.errCount
      = 3 ∧
    (handleRows (Collab.sample 2 100)
      (Cff.over (Dataset.sample true (Body.sample 4 [.str "x", .num 1, .str "y", .num 3, .str "z"]))
        (File.sample (Body.sample 4 [.str "x", .num 1, .str "y", .num 3, .str "z"])))).sends
      = [some (.wrap "processing body data" (.strictMode 1))] ∧
    Err.strictCount (.wrap "processing body data" (.strictMode 1)) = some 1 ∧
    ¬ (3 ≤ 1) := by
  refine ⟨rfl, rfl, rfl, by decide⟩

/-- C5, amended: with `Structure.Strict` on, every entry decoding and no
call into a collaborator failing, a body with `N > 0` validation errors in
total (the error count of the same save with `Strict` off) makes the save
fail with a strict-mode validation error, the only value sent, whose count
`n` is at least 1 and at most `N`: it is the count of the first batch with
an error, the last batch validated. -/
theorem strict_count_bounds (c : Collab) (ds : Dataset) (bf : File) (hs : ds.strict = true)
    (hc : c.Sound) (hd : allDecode bf.content.reads = true)
    (hN : 0 < (handleRows c (Cff.over { ds with strict := false } bf)).ds.errCount) :
    ∃ e n, (handleRows c (Cff.over ds bf)).sends = [some e] ∧ e.strictCount = some n ∧
      0 < n ∧ n ≤ (handleRows c (Cff.over { ds with strict := false } bf)).ds.errCount ∧
      ∃ zs, (handleRows c (Cff.over ds bf)).validations = zs ++ [n] ∧ AllZero zs := by
  have hrelax : Cff.over { ds with strict := false } bf = (Cff.over ds bf).relax := rfl
  rw [hrelax] at hN ⊢
  have hrs : (handleRows c (Cff.over ds bf).relax).sends = [none] := by
    rcases sound_run c hc (Cff.over ds bf).relax rfl hd with h | ⟨hst, _⟩
    · exact h
    · cases hst
  have hrN := errCount_after_success c (Cff.over ds bf).relax rfl (by rw [hrs]; simp)
  rcases strict_outcome c ds bf hs with ⟨h1, h2⟩ | ⟨e, n, h1, h2, h3, zs, h4, h5⟩
  · exfalso
    have hsucc : none ∈ (handleRows c (Cff.over ds bf)).sends := by
      rcases sound_run c hc (Cff.over ds bf) rfl hd with h | ⟨_, n, e, h, hn⟩
      · rw [h]; simp
      · have := h1 e (by rw [h]; simp)
        rw [this] at hn
        cases hn
    have e1 := relaxed_errCount_of_success c hc (Cff.over ds bf) rfl hsucc
    have e2 := errCount_after_success c (Cff.over ds bf) rfl hsucc
    rw [e1, e2, h2.sum] at hN
    omega
  · refine ⟨e, n, h1, h2, h3, ?_, zs, h4, h5⟩
    have := sum_le_of_prefix (relaxed_validations c hc (Cff.over ds bf))
    rw [h4, List.sum_append, h5.sum] at this
    rw [hrN]
    simpa using this

/-- C5 amended, at the body of five entries, three of them invalid, flushed
in batches of two: the save with `Strict` off counts 3 errors and the strict
save sends one value, a strict-mode error whose count is between 1 and 3. -/
theorem strict_count_bounds_witness :
    (Dataset.sample true (Body.sample 4 [.str "x", .num 1, .str "y", .num 3, .str "z"])).strict
      = true ∧
    allDecode (Body.sample 4 [.str "x", .num 1, .str "y", .num 3, .str "z"]).reads = true ∧
    ∃ e n, (handleRows (Collab.sample 2 100)
        (Cff.over (Dataset.sample true (Body.sample 4 [.str "x", .num 1, .str "y", .num 3, .str "z"]))
          (File.sample (Body.sample 4 [.str "x", .num 1, .str "y", .num 3, .str "z"])))).sends
        = [some e] ∧ e.strictCount = some n ∧ 0 < n ∧ n ≤ 3 :=
  ⟨rfl, rfl,
   match strict_count_bounds (Collab.sample 2 100)
      (Dataset.sample true (Body.sample 4 [.str "x", .num 1, .str "y", .num 3, .str "z"]))
      (File.sample (Body.sample 4 [.str "x", .num 1, .str "y", .num 3, .str "z"]))
      rfl (sample_sound 2 100) rfl (by decide) with
   | ⟨e, n, h1, h2, h3, h4, _⟩ => ⟨e, n, h1, h2, h3, h4⟩⟩

/-- C9 at the body whose single entry is "foo": the trace ends with the nil
send, and before it come the write of the derived fields and the calls of
the accumulator, the entry and then the close. -/
theorem nil_sent_after_writes_witness :
    (handleRows (Collab.sample 5 100)
      (Cff.over (Dataset.sample false (Body.sample 5 [.str "foo"]))
        (File.sample (Body.sample 5 [.str "foo"])))).trace =
      [.accWrite { index := 0, key := "", value := .str "foo" }, .validated 1,
        .setStructure 1 1 1 5, .accClose, .setBody] ++ .send none :: [] ∧
    Event.setStructure 1 1 1 5 ∈
      [Event.accWrite { index := 0, key := "", value := .str "foo" }, .validated 1,
        .setStructure 1 1 1 5, .accClose, .setBody] ∧
    ([Event.accWrite { index := 0, key := "", value := .str "foo" }, .validated 1,
        .setStructure 1 1 1 5, .accClose, .setBody].filterMap Event.acc =
      [some { index := 0, key := "", value := .str "foo" }, none]) :=
  ⟨rfl,
   (nil_sent_after_writes (Collab.sample 5 100)
      (Dataset.sample false (Body.sample 5 [.str "foo"]))
      (File.sample (Body.sample 5 [.str "foo"])) _ [] rfl).1,
   (nil_sent_after_writes (Collab.sample 5 100)
      (Dataset.sample false (Body.sample 5 [.str "foo"]))
      (File.sample (Body.sample 5 [.str "foo"])) _ [] rfl).2.1⟩

/-- C7 at a body of 21 bytes with a threshold of 10 and at the same body
with a threshold of 100: nil is sent in both runs; the first ends with
`BodyTooBig` and `ds.Body` still nil, the second with `BodyDefault` and the
three entries in `ds.Body`. -/
theorem diff_buffer_policy_witness :
    (none ∈ (handleRows (Collab.sample 2 10)
        (Cff.over (Dataset.sample false (Body.sample 7 [.num 1, .str "x", .num 3]))
          (File.sample (Body.sample 7 [.num 1, .str "x", .num 3])))).sends ∧
      (handleRows (Collab.sample 2 10)
        (Cff.over (Dataset.sample false (Body.sample 7 [.num 1, .str "x", .num 3]))
          (File.sample (Body.sample 7 [.num 1, .str "x", .num 3])))).bodyAct = .BodyTooBig ∧
      (handleRows (Collab.sample 2 10)
        (Cff.over (Dataset.sample false (Body.sample 7 [.num 1, .str "x", .num 3]))
          (File.sample (Body.sample 7 [.num 1, .str "x", .num 3])))).ds.body = none) ∧
    (none ∈ (handleRows (Collab.sample 2 100)
        (Cff.over (Dataset.sample false (Body.sample 7 [.num 1, .str "x", .num 3]))
          (File.sample (Body.sample 7 [.num 1, .str "x", .num 3])))).sends ∧
      (handleRows (Collab.sample 2 100)
        (Cff.over (Dataset.sample false (Body.sample 7 [.num 1, .str "x", .num 3]))
          (File.sample (Body.sample 7 [.num 1, .str "x", .num 3])))).bodyAct = .BodyDefault ∧
      (handleRows (Collab.sample 2 100)
        (Cff.over (Dataset.sample false (Body.sample 7 [.num 1, .str "x", .num 3]))
          (File.sample (Body.sample 7 [.num 1, .str "x", .num 3])))).ds.body =
        some (Body.sample 7 [.num 1, .str "x", .num 3]).entries) :=
  ⟨⟨by decide,
    ((diff_buffer_policy (Collab.sample 2 10)
      (Dataset.sample false (Body.sample 7 [.num 1, .str "x", .num 3]))
      (File.sample (Body.sample 7 [.num 1, .str "x", .num 3]))).2.2.2.2.2
      (by decide)).2.1 (by decide)⟩,
   ⟨by decide,
    ((diff_buffer_policy (Collab.sample 2 100)
      (Dataset.sample false (Body.sample 7 [.num 1, .str "x", .num 3]))
      (File.sample (Body.sample 7 [.num 1, .str "x", .num 3]))).2.2.2.2.2
      (by decide)).2.2 (by decide)⟩⟩

/-- C10 at a next dataset without a body file and a previous dataset whose
body file has size 42: the previous body is the stream source and `Size` is
42; with no previous dataset the call fails. -/
theorem newComputeFieldsFile_spec_witness :
    (∃ cff, newComputeFieldsFile
        { bodyFile := none, strict := false, errCount := 0, entries := 0, depth := 0,
          length := 0, body := none }
        (some { bodyFile := some { name := "body.csv", size := some 42,
                                   content := Body.sample 1 [] },
                strict := false, errCount := 0, entries := 0, depth := 0, length := 0,
                body := none }) = .ok cff ∧
      cff.source = { name := "body.csv", size := some 42, content := Body.sample 1 [] } ∧
      cff.Size = 42) ∧
    newComputeFieldsFile
        { bodyFile := none, strict := false, errCount := 0, entries := 0, depth := 0,
          length := 0, body := none } none =
      .error (.simple "bodyfile or previous bodyfile needed") :=
  ⟨match (newComputeFieldsFile_spec
      { bodyFile := none, strict := false, errCount := 0, entries := 0, depth := 0,
        length := 0, body := none }
      (some { bodyFile := some { name := "body.csv", size := some 42,
                                 content := Body.sample 1 [] },
              strict := false, errCount := 0, entries := 0, depth := 0, length := 0,
              body := none })).2.2.2 _ _ rfl rfl rfl with
    | ⟨cff, h1, h2, _, h3, _⟩ => ⟨cff, h1, h2, h3 42 rfl⟩,
   (newComputeFieldsFile_spec
      { bodyFile := none, strict := false, errCount := 0, entries := 0, depth := 0,
        length := 0, body := none } none).1.2 ⟨rfl, Or.inl rfl⟩⟩

/-! ### Facts about the progress events -/

theorem passed_append (strict : Bool) (vs ws : List Nat) :
    passed strict (vs ++ ws) = passed strict vs + passed strict ws := by
  simp [passed, List.filter_append]

theorem Emits.silent (pub : Publisher) {s s' : Cff} (h1 : s'.ds.strict = s.ds.strict)
    (h2 : s'.bodySize = s.bodySize) (h3 : s'.validations = s.validations) :
    Emits pub s s' [] where
  strict := h1
  bodySize := h2
  quiet := fun _ => rfl
  count := fun _ _ => by simp [h3]
  shape := fun _ _ e he => by cases he

theorem Emits.chain {pub : Publisher} {s s' s'' : Cff} {e₁ e₂ : List Published}
    (h₁ : Emits pub s s' e₁) (h₂ : Emits pub s' s'' e₂) : Emits pub s s'' (e₁ ++ e₂) where
  strict := h₂.strict.trans h₁.strict
  bodySize := h₂.bodySize.trans h₁.bodySize
  quiet := fun h => by
    rw [h₁.quiet h, h₂.quiet (by rw [h₁.bodySize]; exact h)]
    rfl
  count := fun hp hb => by
    have a := h₁.count hp hb
    have b := h₂.count hp (by rw [h₁.bodySize]; exact hb)
    rw [h₁.strict] at b
    rw [b, a, List.length_append]
    omega
  shape := fun publish hp e he => by
    rcases List.mem_append.1 he with h | h
    · exact h₁.shape publish hp e h
    · have := h₂.shape publish hp e h
      rw [h₁.bodySize] at this
      exact this

theorem flushBatchP_spec (c : Collab) (pub : Publisher) (s : Cff) (buf : List Entry) :
    (flushBatchP c pub s buf).1 = flushBatch c s buf ∧
    Emits pub s (flushBatchP c pub s buf).1.1 (flushBatchP c pub s buf).2 := by
  obtain ⟨f1, _, f3, _, _, _, _, _, _, _, f11⟩ := beginFlush_frame c s
  have hsil : Emits pub s (beginFlush c s) [] :=
    Emits.silent pub (by rw [f1]) f3 f11
  unfold flushBatchP flushBatch
  simp only
  split
  · exact ⟨rfl, hsil⟩
  · split_ifs with h0
    · exact ⟨rfl, hsil⟩
    · split
      · exact ⟨rfl, hsil⟩
      · rename_i doc _
        split
        · rename_i hst
          refine ⟨rfl, ?_⟩
          exact
            { strict := by simp [f1]
              bodySize := by simp [f3]
              quiet := fun _ => rfl
              count := fun _ _ => by
                have : s.ds.strict = true ∧ 0 < c.validate doc := by
                  simpa [f1] using hst
                simp [emit_validations, Event.errs, f11, passed_append, passed, this.1, this.2]
              shape := fun _ _ e he => by cases he }
        · rename_i hst
          have hns : ¬ (s.ds.strict = true ∧ 0 < c.validate doc) := by
            simpa [f1] using hst
          have hpass : passed s.ds.strict [c.validate doc] = 1 := by
            by_cases hs : s.ds.strict = true
            · have : ¬ 0 < c.validate doc := fun h => hns ⟨hs, h⟩
              simp [passed, hs, this]
            · simp [passed, hs]
          cases pub with
          | none =>
            refine ⟨rfl, ?_⟩
            exact
              { strict := by simp [f1]
                bodySize := by simp [f3]
                quiet := fun _ => rfl
                count := fun h _ => by cases h
                shape := fun _ h => by cases h }
          | some publish =>
            simp only [emit_bodySize, f3]
            split
            · rename_i hb
              refine ⟨rfl, ?_⟩
              exact
                { strict := by simp [f1]
                  bodySize := by simp [f3]
                  quiet := fun h => by
                    rcases h with h | h
                    · cases h
                    · omega
                  count := fun _ _ => by
                    simp [emit_validations, Event.errs, f11, passed_append, hpass]
                  shape := fun p hp e he => by
                    cases hp
                    simp only [List.mem_singleton] at he
                    exact ⟨_, he⟩ }
            · rename_i hb
              refine ⟨rfl, ?_⟩
              exact
                { strict := by simp [f1]
                  bodySize := by simp [f3]
                  quiet := fun _ => rfl
                  count := fun _ h => absurd h hb
                  shape := fun _ _ e he => by cases he }

theorem Emits.same {pub : Publisher} {s s' t : Cff} {evts : List Published}
    (h : Emits pub s s' evts) (h1 : t.ds.strict = s'.ds.strict) (h2 : t.bodySize = s'.bodySize)
    (h3 : t.validations = s'.validations) : Emits pub s t evts := by
  have := h.chain (Emits.silent pub h1 h2 h3)
  simpa using this

theorem Emits.onward {pub : Publisher} {s s' t : Cff} {evts : List Published}
    (h : Emits pub t s' evts) (h1 : t.ds.strict = s.ds.strict) (h2 : t.bodySize = s.bodySize)
    (h3 : t.validations = s.validations) : Emits pub s s' evts := by
  have := (Emits.silent pub h1 h2 h3).chain h
  simpa using this

theorem flushAndCountP_spec (c : Collab) (pub : Publisher) (s : Cff) :
    (flushAndCountP c pub s).1 = flushAndCount c s ∧
    Emits pub s (flushAndCountP c pub s).1.1 (flushAndCountP c pub s).2 := by
  obtain ⟨h1, h2⟩ := flushBatchP_spec c pub s s.batchBuf
  unfold flushAndCountP flushAndCount
  rw [← h1]
  rcases hb : flushBatchP c pub s s.batchBuf with ⟨⟨t, r⟩, evts⟩
  rw [hb] at h2
  cases r with
  | error e => exact ⟨rfl, h2⟩
  | ok n => exact ⟨rfl, h2.same rfl rfl rfl⟩

theorem flushIfDueP_spec (c : Collab) (pub : Publisher) (s : Cff) (i : Nat) :
    (flushIfDueP c pub s i).1 = flushIfDue c s i ∧
    Emits pub s (flushIfDueP c pub s i).1.1 (flushIfDueP c pub s i).2 := by
  obtain ⟨h1, h2⟩ := flushAndCountP_spec c pub s
  unfold flushIfDueP flushIfDue
  split
  · rw [← h1]
    rcases hb : flushAndCountP c pub s with ⟨⟨t, r⟩, evts⟩
    rw [hb] at h2
    cases r with
    | some e => exact ⟨rfl, h2⟩
    | none =>
      simp only
      cases c.renewBatchBuf i with
      | some e => exact ⟨rfl, h2⟩
      | none => exact ⟨rfl, h2.same rfl rfl rfl⟩
  · exact ⟨rfl, Emits.silent pub rfl rfl rfl⟩

theorem bufferEntry_quiet (c : Collab) (s : Cff) (i : Nat) (ent : Entry) :
    (bufferEntry c s i ent).1.ds = s.ds ∧ (bufferEntry c s i ent).1.bodySize = s.bodySize ∧
    (bufferEntry c s i ent).1.validations = s.validations := by
  unfold bufferEntry
  split
  · exact ⟨rfl, rfl, rfl⟩
  · simp only
    split
    · exact ⟨rfl, rfl, rfl⟩
    · split
      · exact ⟨rfl, rfl, rfl⟩
      · exact ⟨rfl, rfl, rfl⟩

theorem onEntryP_spec (c : Collab) (pub : Publisher) (s : Cff) (i : Nat) (ent : Entry)
    (err : Option String) :
    (onEntryP c pub s i ent err).1 = onEntry c s i ent err ∧
    Emits pub s (onEntryP c pub s i ent err).1.1 (onEntryP c pub s i ent err).2 := by
  obtain ⟨k1, _, k3, _, _, _, _, _, _, _, _, k12⟩ := countEntry_frame s ent
  have hcount : Emits pub s (countEntry s ent) [] :=
    Emits.silent pub (by rw [k1]) k3 k12
  obtain ⟨h1, h2⟩ := flushIfDueP_spec c pub (countEntry s ent) i
  unfold onEntryP onEntry
  cases err with
  | some e => exact ⟨rfl, Emits.silent pub rfl rfl rfl⟩
  | none =>
    simp only
    cases c.accWriteEntry i with
    | some e => exact ⟨rfl, hcount⟩
    | none =>
      simp only
      rw [← h1]
      rcases hb : flushIfDueP c pub (countEntry s ent) i with ⟨⟨t, r⟩, evts⟩
      rw [hb] at h2
      cases r with
      | some e => exact ⟨rfl, by simpa using hcount.chain h2⟩
      | none =>
        obtain ⟨b1, b2, b3⟩ := bufferEntry_quiet c t i ent
        exact ⟨rfl, by simpa using hcount.chain (h2.same (by rw [b1]) b2 b3)⟩

theorem eachEntryP_spec (c : Collab) (pub : Publisher) (tail : Nat) (reads : List Read) :
    ∀ (num : Nat) (s : Cff),
      (eachEntryP c pub tail reads num s).1 = eachEntry c tail reads num s ∧
      Emits pub s (eachEntryP c pub tail reads num s).1.1 (eachEntryP c pub tail reads num s).2 := by
  induction reads with
  | nil =>
    intro num s
    exact ⟨rfl, Emits.silent pub rfl rfl rfl⟩
  | cons r rest ih =>
    intro num s
    unfold eachEntryP eachEntry
    simp only
    cases hr : r.result with
    | error e => exact ⟨rfl, Emits.silent pub rfl rfl rfl⟩
    | ok ent =>
      simp only
      obtain ⟨h1, h2⟩ := onEntryP_spec c pub { s with bytesRead := s.bytesRead + r.bytes } num ent none
      rw [← h1]
      rcases hb : onEntryP c pub { s with bytesRead := s.bytesRead + r.bytes } num ent none with
        ⟨⟨t, res⟩, evts⟩
      rw [hb] at h2
      have h2' : Emits pub s t evts := h2.onward rfl rfl rfl
      cases res with
      | some e => exact ⟨rfl, h2'⟩
      | none =>
        obtain ⟨i1, i2⟩ := ih (num + 1) t
        exact ⟨i1, h2'.chain i2⟩

theorem startEvent_ready (publish : Completion → Option String) (s : Cff) :
    startEvent publish
        { s with valErrorCount := 0, entries := 0, depth := 0, batchBuf := [],
                 diffMessageBuf := some [] } = startEvent publish s := rfl

/-- The run with a publisher ends in the state of the run without one, and
what it publishes after set-up is the start event followed by the events of
the flushes. -/
theorem handleRowsP_spec (c : Collab) (pub : Publisher) (s : Cff) :
    (handleRowsP c pub s).1 = handleRows c s ∧
    (¬ c.setUp → (handleRowsP c pub s).2 = []) ∧
    (c.setUp → ∃ rest,
      (handleRowsP c pub s).2 =
        (match pub with
          | some publish => [startEvent publish s]
          | none => []) ++ rest ∧
      Emits pub s (handleRows c s) rest) := by
  unfold handleRowsP handleRows Collab.setUp
  simp only
  cases c.newEntryReader with
  | some e => exact ⟨rfl, fun _ => rfl, fun h => by cases h.1⟩
  | none =>
    cases c.jsonSchema with
    | some e => exact ⟨rfl, fun _ => rfl, fun h => by cases h.2.1⟩
    | none =>
      cases c.newBatchBuf with
      | some e => exact ⟨rfl, fun _ => rfl, fun h => by cases h.2.2.1⟩
      | none =>
        cases c.newDiffBuf with
        | some e => exact ⟨rfl, fun _ => rfl, fun h => by cases h.2.2.2⟩
        | none =>
          simp only [not_true_eq_false, and_self, false_implies, true_implies, true_and]
          obtain ⟨h1, h2⟩ := eachEntryP_spec c pub s.source.content.tail s.source.content.reads 0
            { s with valErrorCount := 0, entries := 0, depth := 0, batchBuf := [],
                     diffMessageBuf := some [] }
          rw [← h1]
          rcases hb : eachEntryP c pub s.source.content.tail s.source.content.reads 0
            { s with valErrorCount := 0, entries := 0, depth := 0, batchBuf := [],
                     diffMessageBuf := some [] } with ⟨⟨t, res⟩, evts⟩
          rw [hb] at h2
          have h2' : Emits pub s t evts := h2.onward rfl rfl rfl
          cases res with
          | some e =>
            refine ⟨rfl, evts, ?_, h2'.same rfl rfl ?_⟩
            · cases pub <;> rfl
            · simp [emit_validations, Event.errs]
          | none =>
            simp only
            obtain ⟨g1, g2⟩ := flushAndCountP_spec c pub t
            rw [← g1]
            rcases hg : flushAndCountP c pub t with ⟨⟨u, res2⟩, last⟩
            rw [hg] at g2
            cases res2 with
            | some e =>
              refine ⟨rfl, evts ++ last, ?_, (h2'.chain g2).same rfl rfl ?_⟩
              · cases pub with
                | none => simp
                | some p => simp; rfl
              · simp [emit_validations, Event.errs]
            | none =>
              obtain ⟨_, _, _, _, q5, _, q7⟩ := finish_frame c u
              refine ⟨rfl, evts ++ last, ?_, (h2'.chain g2).same q5 ?_ q7⟩
              · cases pub with
                | none => simp
                | some p => simp; rfl
              · unfold finish
                simp only
                cases u.diffMessageBuf with
                | none => rfl
                | some d => cases c.diffClose <;> cases c.readAll <;> rfl

/-! ### The bytes a progress event reports -/

theorem flushBatchP_exact (c : Collab) (pub : Publisher) (s : Cff) (buf : List Entry) :
    (∀ publish, pub = some publish →
      ((flushBatchP c pub s buf).2 = [] ∨
        (flushBatchP c pub s buf).2 =
          [{ completion := .ratio s.bytesRead s.bodySize,
             evtErr := publish (.ratio s.bytesRead s.bodySize) }]) ∧
      ((flushBatchP c pub s buf).2 ≠ [] ↔
        0 < s.bodySize ∧
        ∃ n, flushBatch c s buf = ((beginFlush c s).emit (.validated n), .ok n))) := by
  obtain ⟨_, _, f3, f4, _⟩ := beginFlush_frame c s
  intro publish hp
  subst hp
  unfold flushBatchP flushBatch
  simp only
  split
  · simp
  · split
    · refine ⟨Or.inl rfl, ?_⟩
      simp only [ne_eq, not_true_eq_false, false_iff, not_and, not_exists]
      intro _ n h
      have := congrArg (fun p => p.1.validations) h
      simp [emit_validations, Event.errs] at this
    · split
      · simp
      · split
        · simp
        · simp only [emit_bodySize, emit_bytesRead, f3, f4]
          split
          · rename_i hb
            refine ⟨Or.inr rfl, ?_⟩
            simp only [ne_eq, List.cons_ne_self, not_false_eq_true, true_iff]
            exact ⟨hb, _, rfl⟩
          · rename_i hb
            refine ⟨Or.inl rfl, ?_⟩
            simp only [ne_eq, not_true_eq_false, false_iff, not_and]
            exact fun h => absurd h hb

theorem flushBatchP_point (c : Collab) (pub : Publisher) (s : Cff) (buf : List Entry) :
    ((flushBatchP c pub s buf).2.map Published.completion).Sublist
      [.ratio s.bytesRead s.bodySize] := by
  cases pub with
  | none =>
    rw [(flushBatchP_spec c none s buf).2.quiet (Or.inl rfl)]
    exact List.nil_sublist _
  | some publish =>
    rcases (flushBatchP_exact c (some publish) s buf publish rfl).1 with h | h
    · rw [h]
      exact List.nil_sublist _
    · rw [h]
      exact List.Sublist.refl _

theorem flushAndCountP_point (c : Collab) (pub : Publisher) (s : Cff) :
    ((flushAndCountP c pub s).2.map Published.completion).Sublist
      [.ratio s.bytesRead s.bodySize] := by
  have h := flushBatchP_point c pub s s.batchBuf
  unfold flushAndCountP
  rcases hb : flushBatchP c pub s s.batchBuf with ⟨⟨t, r⟩, evts⟩
  rw [hb] at h
  cases r <;> exact h

theorem flushIfDueP_point (c : Collab) (pub : Publisher) (s : Cff) (i : Nat) :
    ((flushIfDueP c pub s i).2.map Published.completion).Sublist
      (if i % c.batchSize = 0 ∧ i ≠ 0 then [.ratio s.bytesRead s.bodySize] else []) := by
  have h := flushAndCountP_point c pub s
  unfold flushIfDueP
  by_cases hd : i % c.batchSize = 0 ∧ i ≠ 0
  · rw [if_pos hd, if_pos hd]
    rcases hb : flushAndCountP c pub s with ⟨⟨t, r⟩, evts⟩
    rw [hb] at h
    cases r with
    | some e => exact h
    | none =>
      simp only
      cases c.renewBatchBuf i <;> exact h
  · rw [if_neg hd, if_neg hd]
    exact List.nil_sublist _

theorem onEntryP_point (c : Collab) (pub : Publisher) (s : Cff) (i : Nat) (ent : Entry) :
    ((onEntryP c pub s i ent none).2.map Published.completion).Sublist
      (if i % c.batchSize = 0 ∧ i ≠ 0 then [.ratio s.bytesRead s.bodySize] else []) := by
  obtain ⟨_, _, k3, k4, _⟩ := countEntry_frame s ent
  have h := flushIfDueP_point c pub (countEntry s ent) i
  rw [k3, k4] at h
  unfold onEntryP
  simp only
  cases c.accWriteEntry i with
  | some e => exact List.nil_sublist _
  | none =>
    simp only
    rcases hb : flushIfDueP c pub (countEntry s ent) i with ⟨⟨t, r⟩, evts⟩
    rw [hb] at h
    cases r <;> exact h

theorem loopPoints_cons (batchSize : Nat) (r : Read) (rest : List Read) (num bytes : Nat) :
    loopPoints batchSize (r :: rest) num bytes =
      if num % batchSize = 0 ∧ num ≠ 0 then
        (bytes + r.bytes) :: loopPoints batchSize rest (num + 1) (bytes + r.bytes)
      else loopPoints batchSize rest (num + 1) (bytes + r.bytes) := by
  rw [loopPoints]

theorem eachEntryP_points (c : Collab) (pub : Publisher) (tail : Nat) (reads : List Read) :
    ∀ (num : Nat) (s : Cff),
      ((eachEntryP c pub tail reads num s).2.map Published.completion).Sublist
        ((loopPoints c.batchSize reads num s.bytesRead).map fun b => .ratio b s.bodySize) := by
  induction reads with
  | nil =>
    intro num s
    exact List.nil_sublist _
  | cons r rest ih =>
    intro num s
    unfold eachEntryP
    simp only
    cases hr : r.result with
    | error e => exact List.nil_sublist _
    | ok ent =>
      simp only
      have hp := onEntryP_point c pub { s with bytesRead := s.bytesRead + r.bytes } num ent
      obtain ⟨h1, h2⟩ :=
        onEntryP_spec c pub { s with bytesRead := s.bytesRead + r.bytes } num ent none
      have hbytes := onEntry_bytes c { s with bytesRead := s.bytesRead + r.bytes } num ent
      rw [← h1] at hbytes
      rcases hb : onEntryP c pub { s with bytesRead := s.bytesRead + r.bytes } num ent none with
        ⟨⟨t, res⟩, evts⟩
      rw [hb] at hp h2 hbytes
      simp only at hp hbytes
      have hsize : t.bodySize = s.bodySize := h2.bodySize
      have hstep : (evts.map Published.completion).Sublist
          ((loopPoints c.batchSize (r :: rest) num s.bytesRead).map
            fun b => Completion.ratio b s.bodySize) ∧
          ∀ more : List Completion,
            more.Sublist ((loopPoints c.batchSize rest (num + 1) (s.bytesRead + r.bytes)).map
              fun b => Completion.ratio b s.bodySize) →
            (evts.map Published.completion ++ more).Sublist
              ((loopPoints c.batchSize (r :: rest) num s.bytesRead).map
                fun b => Completion.ratio b s.bodySize) := by
        rw [loopPoints_cons]
        by_cases hd : num % c.batchSize = 0 ∧ num ≠ 0
        · rw [if_pos hd] at hp ⊢
          simp only [List.map_cons]
          have hp' : (evts.map Published.completion).Sublist
              [Completion.ratio (s.bytesRead + r.bytes) s.bodySize] := hp
          refine ⟨hp'.trans (List.singleton_sublist.2 (List.mem_cons_self _ _)), ?_⟩
          intro more hm
          exact List.Sublist.append hp' hm
        · rw [if_neg hd] at hp ⊢
          have hnil : evts.map Published.completion = [] := List.sublist_nil.1 hp
          rw [hnil]
          exact ⟨List.nil_sublist _, fun more hm => by simpa using hm⟩
      cases res with
      | some e => exact hstep.1
      | none =>
        simp only [List.map_append]
        have := ih (num + 1) t
        rw [hbytes, hsize] at this
        exact hstep.2 _ this

/-- The completions published after the start event follow the counts of
the tracked reader at the calls of `flushBatch`, in order. -/
theorem handleRowsP_points (c : Collab) (pub : Publisher) (s : Cff) (hset : c.setUp) :
    ∃ rest,
      (handleRowsP c pub s).2 =
        (match pub with
          | some publish => [startEvent publish s]
          | none => []) ++ rest ∧
      (rest.map Published.completion).Sublist
        ((loopPoints c.batchSize s.source.content.reads 0 s.bytesRead ++
          [s.bytesRead + s.source.content.length]).map fun b => .ratio b s.bodySize) := by
  obtain ⟨u1, u2, u3, u4⟩ := hset
  unfold handleRowsP
  simp only [u1, u2, u3, u4]
  have hp := eachEntryP_points c pub s.source.content.tail s.source.content.reads 0
    { s with valErrorCount := 0, entries := 0, depth := 0, batchBuf := [],
             diffMessageBuf := some [] }
  obtain ⟨h1, h2⟩ := eachEntryP_spec c pub s.source.content.tail s.source.content.reads 0
    { s with valErrorCount := 0, entries := 0, depth := 0, batchBuf := [],
             diffMessageBuf := some [] }
  have hok := eachEntry_ok c s.source.content.tail s.source.content.reads 0
    { s with valErrorCount := 0, entries := 0, depth := 0, batchBuf := [],
             diffMessageBuf := some [] }
  rw [← h1] at hok
  rcases hb : eachEntryP c pub s.source.content.tail s.source.content.reads 0
    { s with valErrorCount := 0, entries := 0, depth := 0, batchBuf := [],
             diffMessageBuf := some [] } with ⟨⟨t, res⟩, evts⟩
  rw [hb] at hp h2 hok
  simp only at hp hok
  have hsize : t.bodySize = s.bodySize := h2.bodySize
  cases res with
  | some e =>
    refine ⟨evts, by cases pub <;> rfl, ?_⟩
    rw [List.map_append]
    exact hp.trans (List.sublist_append_left _ _)
  | none =>
    simp only
    have hl := flushAndCountP_point c pub t
    have hbytes : t.bytesRead = s.bytesRead + s.source.content.length := by
      rw [(hok rfl).2, Body.length]
      omega
    rw [hbytes, hsize] at hl
    rcases hg : flushAndCountP c pub t with ⟨⟨u, res2⟩, last⟩
    rw [hg] at hl
    have hboth : ((evts ++ last).map Published.completion).Sublist
        ((loopPoints c.batchSize s.source.content.reads 0 s.bytesRead ++
          [s.bytesRead + s.source.content.length]).map
            fun b => Completion.ratio b s.bodySize) := by
      rw [List.map_append, List.map_append]
      exact List.Sublist.append hp hl
    cases res2 with
    | some e =>
      refine ⟨evts ++ last, ?_, hboth⟩
      cases pub with
      | none => simp
      | some p => simp; rfl
    | none =>
      refine ⟨evts ++ last, ?_, hboth⟩
      cases pub with
      | none => simp
      | some p => simp; rfl

/-! ### The claim about the progress events -/

theorem maxDepthOf_mem {l : List Nat} (h : l ≠ []) : maxDepthOf l ∈ l := by
  induction l with
  | nil => exact absurd rfl h
  | cons a rest ih =>
    simp only [maxDepthOf, List.foldr_cons]
    by_cases hr : rest = []
    · subst hr
      simp
    · have := ih hr
      simp only [maxDepthOf] at this
      rcases Nat.le_total a (List.foldr max 0 rest) with h1 | h1
      · rw [max_eq_right h1]
        exact List.mem_cons_of_mem _ this
      · rw [max_eq_left h1]
        exact List.mem_cons_self _ _

theorem le_maxDepthOf {l : List Nat} {n : Nat} (h : n ∈ l) : n ≤ maxDepthOf l := by
  induction l with
  | nil => cases h
  | cons a rest ih =>
    simp only [maxDepthOf, List.foldr_cons]
    rcases List.mem_cons.1 h with h1 | h1
    · subst h1
      exact le_max_left _ _
    · exact le_trans (ih h1) (le_max_right _ _)

theorem maxDepthOf_map_succ {l : List Nat} (h : l ≠ []) :
    maxDepthOf (l.map (· + 1)) = maxDepthOf l + 1 := by
  induction l with
  | nil => exact absurd rfl h
  | cons a rest ih =>
    by_cases hr : rest = []
    · subst hr
      simp [maxDepthOf]
    · have := ih hr
      simp only [maxDepthOf, List.map_cons, List.foldr_cons] at this ⊢
      rw [this]
      omega

mutual
theorem levels_depth : ∀ v : JVal, levels v ≠ [] ∧ getDepth v = maxDepthOf (levels v)
  | .null => ⟨by simp [levels], by simp [levels, getDepth, maxDepthOf]⟩
  | .bool _ => ⟨by simp [levels], by simp [levels, getDepth, maxDepthOf]⟩
  | .num _ => ⟨by simp [levels], by simp [levels, getDepth, maxDepthOf]⟩
  | .str _ => ⟨by simp [levels], by simp [levels, getDepth, maxDepthOf]⟩
  | .arr xs => by
    have h := levelsArr_depth xs
    cases xs with
    | nil => simp [levels, getDepth, getDepthArr, maxDepthOf]
    | cons x rest =>
      have hne : levelsArr (x :: rest) ≠ [] := h.1 (by simp)
      refine ⟨by simpa [levels] using hne, ?_⟩
      rw [getDepth, getDepthArr_eq, h.2]
      simp only [levels, List.isEmpty_cons, Bool.false_eq_true, if_false]
      rw [maxDepthOf_map_succ hne]
      omega
  | .obj kvs => by
    have h := levelsObj_depth kvs
    cases kvs with
    | nil => simp [levels, getDepth, getDepthObj, maxDepthOf]
    | cons kv rest =>
      have hne : levelsObj (kv :: rest) ≠ [] := h.1 (by simp)
      refine ⟨by simpa [levels] using hne, ?_⟩
      rw [getDepth, getDepthObj_eq, h.2]
      simp only [levels, List.isEmpty_cons, Bool.false_eq_true, if_false]
      rw [maxDepthOf_map_succ hne]
      omega
theorem levelsArr_depth : ∀ xs : List JVal,
    (xs ≠ [] → levelsArr xs ≠ []) ∧
    maxDepthOf (xs.map getDepth) = maxDepthOf (levelsArr xs)
  | [] => ⟨fun h => absurd rfl h, by simp [levelsArr]⟩
  | x :: rest => by
    have hx := levels_depth x
    have hr := levelsArr_depth rest
    refine ⟨fun _ => by simp [levelsArr, hx.1], ?_⟩
    simp only [List.map_cons, levelsArr]
    rw [maxDepthOf_append, ← hx.2, ← hr.2]
    simp [maxDepthOf]
theorem levelsObj_depth : ∀ kvs : List (String × JVal),
    (kvs ≠ [] → levelsObj kvs ≠ []) ∧
    maxDepthOf ((kvs.map Prod.snd).map getDepth) = maxDepthOf (levelsObj kvs)
  | [] => ⟨fun h => absurd rfl h, by simp [levelsObj]⟩
  | (k, x) :: rest => by
    have hx := levels_depth x
    have hr := levelsObj_depth rest
    refine ⟨fun _ => by simp [levelsObj, hx.1], ?_⟩
    simp only [List.map_cons, levelsObj]
    rw [maxDepthOf_append, ← hx.2, ← hr.2]
    simp [maxDepthOf]
end

/-- C23: for every value, `getDepth` is the nesting level of one of the
paths from the value down to a leaf and no such path has a larger one, so it
is the largest number of containers found on a path; it is 0 exactly when
the value is a scalar.  `getDepth` is defined by structural recursion on the
value, so it has a result on every value. -/
theorem getDepth_nesting (v : JVal) :
    getDepth v ∈ levels v ∧ (∀ n ∈ levels v, n ≤ getDepth v) ∧
    getDepth v = maxDepthOf (levels v) ∧
    (getDepth v = 0 ↔ v.isScalar = true) := by
  obtain ⟨hne, hd⟩ := levels_depth v
  refine ⟨?_, fun n hn => ?_, hd, ?_⟩
  · rw [hd]
    exact maxDepthOf_mem hne
  · rw [hd]
    exact le_maxDepthOf hn
  · cases v <;> simp [getDepth, JVal.isScalar]

/-- C23 at the object `{"foo":"bar","baz":{"a":[]}}`: its paths have the
levels 1 and 3, and its depth is 3. -/
theorem getDepth_nesting_witness :
    levels (.obj [("foo", .str "bar"), ("baz", .obj [("a", .arr [])])]) = [1, 3] ∧
    getDepth (.obj [("foo", .str "bar"), ("baz", .obj [("a", .arr [])])]) = 3 ∧
    ∀ n ∈ levels (.obj [("foo", .str "bar"), ("baz", .obj [("a", .arr [])])]), n ≤ 3 :=
  ⟨rfl, rfl,
    (getDepth_nesting (.obj [("foo", .str "bar"), ("baz", .obj [("a", .arr [])])])).2.1⟩

/-! ### The commit descriptions -/

theorem differing_nil_of_same (prev next : Version)
    (h : ∀ kind, prev.get kind = next.get kind) : differing prev next = [] := by
  unfold differing
  rw [List.filter_eq_nil_iff]
  intro kind _
  simp [h kind]

/-- C21 (as amended): when the previous version holds a component and no
component differs between the previous and the next version,
`generateCommitDescriptions` fails with the error "no changes" if
`forceIfNoChanges` is false, and returns the short title and the long
message "forced update" if it is true, whatever the body action and the
describer of changes; when the previous version is entirely empty it
returns "created dataset" for both, forced or not. -/
theorem no_changes_or_forced
    (describe : Version → Version → BodyAction → List String → String × String)
    (ds prev : Version) (bodyAct : BodyAction) :
    (prev ≠ [] → (∀ kind, prev.get kind = ds.get kind) →
      generateCommitDescriptions describe ds prev bodyAct false = .error "no changes" ∧
      generateCommitDescriptions describe ds prev bodyAct true =
        .ok ("forced update", "forced update")) ∧
    (prev = [] → ∀ force,
      generateCommitDescriptions describe ds prev bodyAct force =
        .ok ("created dataset", "created dataset")) := by
  constructor
  · intro hp h
    have hd := differing_nil_of_same prev ds h
    simp [generateCommitDescriptions, hd, hp]
  · intro hp force
    simp [generateCommitDescriptions, hp]

/-- C21 at the case of `TestGenerateCommitMessage`: both versions hold the
meta component with the title "same dataset". -/
theorem no_changes_or_forced_witness :
    generateCommitDescriptions (fun _ _ _ kinds => (String.intercalate ", " kinds, ""))
      [("meta", [("title", "same dataset")])] [("meta", [("title", "same dataset")])]
      .BodySame false = .error "no changes" ∧
    generateCommitDescriptions (fun _ _ _ kinds => (String.intercalate ", " kinds, ""))
      [("meta", [("title", "same dataset")])] [("meta", [("title", "same dataset")])]
      .BodySame true = .ok ("forced update", "forced update") :=
  (no_changes_or_forced (fun _ _ _ kinds => (String.intercalate ", " kinds, ""))
    [("meta", [("title", "same dataset")])] [("meta", [("title", "same dataset")])]
    .BodySame).1 (by decide) (fun _ => rfl)

/-- C21 fails when both versions are entirely empty: no component differs,
and the generator returns "created dataset", with or without force, instead
of the error "no changes" or "forced update". -/
theorem created_dataset_when_both_empty :
    (∀ kind, Version.get [] kind = Version.get [] kind) ∧
    differing [] [] = [] ∧
    generateCommitDescriptions (fun _ _ _ kinds => (String.intercalate ", " kinds, ""))
      [] [] .BodySame false = .ok ("created dataset", "created dataset") ∧
    generateCommitDescriptions (fun _ _ _ kinds => (String.intercalate ", " kinds, ""))
      [] [] .BodySame true = .ok ("created dataset", "created dataset") :=
  ⟨fun _ => rfl, rfl, rfl, rfl⟩

/-! ### The reading side -/

theorem teeRead_same (f : Feed) :
    (teeRead f).1.piped = f.piped ++ (teeRead f).2.1 ∧ (teeRead f).1.handed = f.handed ∧
    (teeRead f).1.pipeClosed = f.pipeClosed ∧ (teeRead f).1.closes = f.closes := by
  unfold teeRead
  cases f.body with
  | nil => simp
  | cons p rest =>
    simp only
    split
    · split <;> simp
    · simp

theorem Read_frame (f : Feed) :
    f.Read.2 = ((teeRead f).2.1.length, (teeRead f).2.2) ∧
    f.Read.1.handed = f.handed ++ (teeRead f).2.1 ∧
    f.Read.1.piped = f.piped ++ (teeRead f).2.1 ∧
    ((teeRead f).2.2 = some "EOF" →
      f.Read.1.pipeClosed = true ∧ f.Read.1.closes = f.closes + 1) ∧
    ((teeRead f).2.2 ≠ some "EOF" →
      f.Read.1.pipeClosed = f.pipeClosed ∧ f.Read.1.closes = f.closes) := by
  obtain ⟨h1, h2, h3, h4⟩ := teeRead_same f
  unfold Feed.Read
  rcases ht : teeRead f with ⟨g, bytes, err⟩
  rw [ht] at h1 h2 h3 h4
  simp only at h1 h2 h3 h4 ⊢
  by_cases he : err = some "EOF"
  · simp [he, h1, h2, h4]
  · simp [he, h1, h2, h3, h4]

theorem calls_same (body : List Pull) (k : Nat) :
    ((Feed.over body).calls k).handed = ((Feed.over body).calls k).piped := by
  induction k with
  | zero => rfl
  | succ k ih =>
    obtain ⟨_, h2, h3, _⟩ := Read_frame ((Feed.over body).calls k)
    rw [Feed.calls, h2, h3, ih]

/-- C24: `Read` returns the byte count and the error of the tee reader;
the bytes it hands to its caller are the bytes the same call writes to the
pipe, so after any number of calls the caller and the pipe have received
the same bytes in the same order; and the call closes the pipe writer, once,
exactly when the error of the tee reader is `io.EOF`: on a read without
error or with another error it does not call `Close` and the pipe is left
as it was. -/
theorem Read_spec (f : Feed) :
    f.Read.2 = ((teeRead f).2.1.length, (teeRead f).2.2) ∧
    (∃ bytes, bytes.length = f.Read.2.1 ∧ f.Read.1.handed = f.handed ++ bytes ∧
      f.Read.1.piped = f.piped ++ bytes) ∧
    (∀ body k, ((Feed.over body).calls k).handed = ((Feed.over body).calls k).piped) ∧
    (f.Read.1.closes = f.closes + 1 ↔ f.Read.2.2 = some "EOF") ∧
    (f.Read.2.2 = some "EOF" → f.Read.1.pipeClosed = true) ∧
    (f.Read.2.2 ≠ some "EOF" →
      f.Read.1.pipeClosed = f.pipeClosed ∧ f.Read.1.closes = f.closes) := by
  obtain ⟨h1, h2, h3, h4, h5⟩ := Read_frame f
  have he : f.Read.2.2 = (teeRead f).2.2 := by rw [h1]
  refine ⟨h1, ⟨(teeRead f).2.1, by rw [h1], h2, h3⟩, calls_same, ?_, ?_, ?_⟩
  · rw [he]
    constructor
    · intro hc
      by_contra hne
      have := (h5 hne).2
      omega
    · exact fun h => (h4 h).2
  · rw [he]
    exact fun h => (h4 h).1
  · rw [he]
    exact h5

/-- C24 at a body file that answers two bytes, then one byte with
`io.EOF`: the second call returns 1 and `io.EOF` and closes the pipe, the
first leaves it open, and both sides have received the bytes 1, 2, 3. -/
theorem Read_spec_witness :
    (Feed.over [⟨[1, 2], none⟩, ⟨[3], some "EOF"⟩]).Read.2 = (2, none) ∧
    (Feed.over [⟨[1, 2], none⟩, ⟨[3], some "EOF"⟩]).Read.1.pipeClosed = false ∧
    ((Feed.over [⟨[1, 2], none⟩, ⟨[3], some "EOF"⟩]).calls 1).Read.2 = (1, some "EOF") ∧
    ((Feed.over [⟨[1, 2], none⟩, ⟨[3], some "EOF"⟩]).calls 1).Read.1.pipeClosed = true ∧
    ((Feed.over [⟨[1, 2], none⟩, ⟨[3], some "EOF"⟩]).calls 2).piped = [1, 2, 3] ∧
    ((Feed.over [⟨[1, 2], none⟩, ⟨[3], some "EOF"⟩]).calls 2).handed =
      ((Feed.over [⟨[1, 2], none⟩, ⟨[3], some "EOF"⟩]).calls 2).piped :=
  ⟨rfl, rfl, rfl,
    (Read_spec ((Feed.over [⟨[1, 2], none⟩, ⟨[3], some "EOF"⟩]).calls 1)).2.2.2.2.1 rfl,
    rfl,
    (Read_spec (Feed.over [])).2.2.1 [⟨[1, 2], none⟩, ⟨[3], some "EOF"⟩] 2⟩

/-! ### The derived fields of a run that fails -/

theorem finish_sent_errs (c : Collab) (s : Cff) (h : s.sends = []) :
    ∀ e, some e ∈ (finish c s).sends →
      (∃ x, e = .wrap "closing body data buffer" x) ∨
      (∃ x, e = .wrap "inlining buffered body data" x) := by
  obtain ⟨tl, htr, hcases⟩ := finish_trace c s
  have hs : (finish c s).sends = tl.filterMap Event.sent := by
    rw [Cff.sends, htr, List.filterMap_append]
    show s.sends ++ _ = _
    rw [h]
    simp [Event.sent]
  rw [hs]
  intro e he
  rcases hcases with ⟨_, h, _⟩ | ⟨_, _, _, _, h, _⟩ | ⟨_, _, _, _, _, h, _⟩ |
    ⟨_, _, _, _, _, h⟩ | ⟨_, _, _, _, _, _, h⟩
  · rw [h] at he; simp [Event.sent] at he
  · rw [h] at he; simp [Event.sent] at he
  · rw [h] at he
    simp [Event.sent] at he
    exact Or.inl ⟨_, he⟩
  · rw [h] at he
    simp [Event.sent] at he
    exact Or.inr ⟨_, he⟩
  · rw [h] at he
    simp [Event.sent] at he
    rcases he with he | he
    · exact Or.inl ⟨_, he⟩
    · exact Or.inr ⟨_, he⟩

/-- C27 (as amended): when a run sends an error that is neither the error
of closing the diff buffer nor the error of reading it back, the dataset
record is left as it was, `ErrCount`, `Entries`, `Depth` and `Length`
included; so it is whenever an error is sent and neither of these two steps
fails. -/
theorem fields_kept_on_early_error (c : Collab) (ds : Dataset) (bf : File) :
    (∀ e, some e ∈ (handleRows c (Cff.over ds bf)).sends →
      (∀ x, e ≠ .wrap "closing body data buffer" x) →
      (∀ x, e ≠ .wrap "inlining buffered body data" x) →
      (handleRows c (Cff.over ds bf)).ds = ds ∧
      (handleRows c (Cff.over ds bf)).ds.errCount = ds.errCount ∧
      (handleRows c (Cff.over ds bf)).ds.entries = ds.entries ∧
      (handleRows c (Cff.over ds bf)).ds.depth = ds.depth ∧
      (handleRows c (Cff.over ds bf)).ds.length = ds.length) ∧
    (c.diffClose = none → c.readAll = none →
      ∀ e, some e ∈ (handleRows c (Cff.over ds bf)).sends →
        (handleRows c (Cff.over ds bf)).ds = ds) := by
  have main : ∀ e, some e ∈ (handleRows c (Cff.over ds bf)).sends →
      (handleRows c (Cff.over ds bf)).ds = ds ∨
      ((∃ x, e = .wrap "closing body data buffer" x) ∨
        (∃ x, e = .wrap "inlining buffered body data" x)) ∧
      (c.diffClose ≠ none ∨ c.readAll ≠ none) := by
    intro e he
    rcases handleRows_cases c (Cff.over ds bf) with
      ⟨t, e', h1, _, _, hds, _⟩ | ⟨t, e', h1, hr⟩ | ⟨s₁, s₂, h1, h2, h3, _⟩
    · left
      rw [h1, emit_ds, hds]
      rfl
    · left
      rw [h1, emit_ds, hr.ds, (ready_fields _).2.1]
      rfl
    · right
      have r1 := eachEntry_run c (Cff.over ds bf).source.content.tail
        (Cff.over ds bf).source.content.reads 0 (Cff.over ds bf).ready
      rw [h2] at r1
      have r2 := flushAndCount_run c s₁
      rw [h3] at r2
      have hs : s₂.sends = [] := by
        rw [r2.sends, r1.sends, (ready_fields _).2.2.2.2.2.2.2.2.2.1]
        rfl
      rw [h1] at he
      refine ⟨finish_sent_errs c s₂ hs e he, ?_⟩
      by_contra hno
      simp only [not_or, not_not] at hno
      obtain ⟨tl, htr, hcases⟩ := finish_trace c s₂
      have hse : (finish c s₂).sends = tl.filterMap Event.sent := by
        rw [Cff.sends, htr, List.filterMap_append]
        show s₂.sends ++ _ = _
        rw [hs]
        simp [Event.sent]
      rw [hse] at he
      rcases hcases with ⟨_, h, _⟩ | ⟨_, _, _, _, h, _⟩ | ⟨_, _, _, hc, _⟩ |
        ⟨_, _, _, _, hc, _⟩ | ⟨_, _, _, _, hc, _⟩
      · rw [h] at he; simp [Event.sent] at he
      · rw [h] at he; simp [Event.sent] at he
      · rw [hno.1] at hc; cases hc
      · rw [hno.2] at hc; cases hc
      · rw [hno.1] at hc; cases hc
  refine ⟨fun e he h1 h2 => ?_, fun hc hr e he => ?_⟩
  · rcases main e he with h | ⟨⟨x, hx⟩ | ⟨x, hx⟩, _⟩
    · exact ⟨h, by rw [h], by rw [h], by rw [h], by rw [h]⟩
    · exact absurd hx (h1 x)
    · exact absurd hx (h2 x)
  · rcases main e he with h | ⟨_, h | h⟩
    · exact h
    · exact absurd hc h
    · exact absurd hr h

/-- C27 at a run whose schema cannot be built: the error is sent and the
dataset record is as it was. -/
theorem fields_kept_on_early_error_witness :
    (handleRows { Collab.sample 5 100 with jsonSchema := some "invalid schema" }
      (Cff.over (Dataset.sample false (Body.sample 5 [.num 1]))
        (File.sample (Body.sample 5 [.num 1])))).sends = [some (.ext "invalid schema")] ∧
    (handleRows { Collab.sample 5 100 with jsonSchema := some "invalid schema" }
      (Cff.over (Dataset.sample false (Body.sample 5 [.num 1]))
        (File.sample (Body.sample 5 [.num 1])))).ds =
      Dataset.sample false (Body.sample 5 [.num 1]) :=
  ⟨rfl,
   ((fields_kept_on_early_error { Collab.sample 5 100 with jsonSchema := some "invalid schema" }
      (Dataset.sample false (Body.sample 5 [.num 1]))
      (File.sample (Body.sample 5 [.num 1]))).1 (.ext "invalid schema")
      (by decide) (fun x h => by cases h) (fun x h => by cases h)).1⟩

/-- C27 fails when the read-back of the diff buffer fails: the run sends
the error "inlining buffered body data", and nothing else, after it has
written the derived fields: `Entries` is 1, `Depth` 1 and `Length` 5 where
the record had 0. -/
theorem fields_written_before_read_back_fails :
    (handleRows { Collab.sample 5 100 with readAll := some "short read" }
      (Cff.over (Dataset.sample false (Body.sample 5 [.num 1]))
        (File.sample (Body.sample 5 [.num 1])))).sends =
      [some (.wrap "inlining buffered body data" (.ext "short read"))] ∧
    (Dataset.sample false (Body.sample 5 [.num 1])).entries = 0 ∧
    (Dataset.sample false (Body.sample 5 [.num 1])).depth = 0 ∧
    (Dataset.sample false (Body.sample 5 [.num 1])).length = 0 ∧
    (handleRows { Collab.sample 5 100 with readAll := some "short read" }
      (Cff.over (Dataset.sample false (Body.sample 5 [.num 1]))
        (File.sample (Body.sample 5 [.num 1])))).ds.entries = 1 ∧
    (handleRows { Collab.sample 5 100 with readAll := some "short read" }
      (Cff.over (Dataset.sample false (Body.sample 5 [.num 1]))
        (File.sample (Body.sample 5 [.num 1])))).ds.depth = 1 ∧
    (handleRows { Collab.sample 5 100 with readAll := some "short read" }
      (Cff.over (Dataset.sample false (Body.sample 5 [.num 1]))
        (File.sample (Body.sample 5 [.num 1])))).ds.length = 5 :=
  ⟨rfl, rfl, rfl, rfl, rfl, rfl, rfl⟩

/-! ### The batches of a run -/

theorem countEntry_buf (s : Cff) (ent : Entry) :
    (countEntry s ent).batchBuf = s.batchBuf ∧ (countEntry s ent).batches = s.batches := by
  unfold countEntry
  simp only
  split_ifs <;> exact ⟨rfl, rfl⟩

theorem beginFlush_batches (c : Collab) (s : Cff) :
    (beginFlush c s).batches = s.batches + 1 := by
  unfold beginFlush
  simp only
  split_ifs <;> rfl

theorem flushAndCount_buf (c : Collab) (s : Cff) :
    (flushAndCount c s).1.batchBuf = s.batchBuf ∧
    (flushAndCount c s).1.batches = s.batches + 1 := by
  have hb := (beginFlush_frame c s).2.2.2.2.1
  have hn := beginFlush_batches c s
  unfold flushAndCount
  rcases flushBatch_cases c s s.batchBuf with ⟨e, h, _⟩ | h | ⟨n, h, _⟩ | ⟨n, h, _⟩ <;>
    rw [h] <;> simp [hb, hn]

theorem bufferEntry_buf (c : Collab) (s : Cff) (i : Nat) (ent : Entry) :
    (bufferEntry c s i ent).1.batches = s.batches ∧
    ((bufferEntry c s i ent).2 = none →
      (bufferEntry c s i ent).1.batchBuf = s.batchBuf ++ [ent]) := by
  unfold bufferEntry
  split
  · exact ⟨rfl, fun h => by cases h⟩
  · simp only
    split
    · exact ⟨rfl, fun _ => rfl⟩
    · split
      · exact ⟨rfl, fun h => by cases h⟩
      · exact ⟨rfl, fun _ => rfl⟩

theorem finish_accLog (c : Collab) (s : Cff) :
    (finish c s).accLog = s.accLog ++ [none] ∧ (finish c s).batches = s.batches := by
  unfold finish
  simp only
  cases s.diffMessageBuf with
  | none => simp [emit_accLog, Event.acc, Cff.accLog]
  | some d =>
    cases c.diffClose <;> cases c.readAll <;> simp [emit_accLog, Event.acc, Cff.accLog]

theorem Batched.start (batchSize : Nat) : Batched batchSize 0 [] [] [] where
  order := rfl
  full := fun _ h => by cases h
  count := by simp
  held := fun h => by omega

/-- The buffer is full exactly when the number of entries read is a
positive multiple of the batch size. -/
theorem Batched.due {batchSize num : Nat} {done : List (List Entry)} {buf es : List Entry}
    (h : Batched batchSize num done buf es) (hb : 0 < batchSize) :
    (num % batchSize = 0 ∧ num ≠ 0 → buf.length = batchSize) ∧
    (¬ (num % batchSize = 0 ∧ num ≠ 0) → buf.length < batchSize) := by
  have hmod : num % batchSize = buf.length % batchSize := by
    rw [← h.count, Nat.mul_add_mod']
  constructor
  · rintro ⟨h0, hn⟩
    obtain ⟨h1, h2⟩ := h.held (by omega)
    by_contra hne
    have hlt : buf.length < batchSize := by omega
    rw [Nat.mod_eq_of_lt hlt] at hmod
    omega
  · intro hnd
    by_cases hz : num = 0
    · have := h.count
      rw [hz] at this
      have hl : buf.length = 0 := by omega
      omega
    · obtain ⟨h1, h2⟩ := h.held (by omega)
      by_contra hge
      have hl : buf.length = batchSize := by omega
      rw [hl, Nat.mod_self] at hmod
      exact hnd ⟨hmod, hz⟩

theorem flushIfDueL_spec (c : Collab) (s : Cff) (i : Nat) :
    (flushIfDueL c s i).1 = flushIfDue c s i ∧
    (flushIfDueL c s i).1.1.batches = s.batches + (flushIfDueL c s i).2.length ∧
    (0 < c.batchSize → ∀ done es, Batched c.batchSize i done s.batchBuf es →
      (flushIfDueL c s i).1.2 = none →
      (done ++ (flushIfDueL c s i).2).flatten ++ (flushIfDueL c s i).1.1.batchBuf = es ∧
      (∀ b ∈ done ++ (flushIfDueL c s i).2, b.length = c.batchSize) ∧
      (done ++ (flushIfDueL c s i).2).length * c.batchSize +
        (flushIfDueL c s i).1.1.batchBuf.length = i ∧
      (flushIfDueL c s i).1.1.batchBuf.length < c.batchSize) := by
  obtain ⟨f1, f2⟩ := flushAndCount_buf c s
  unfold flushIfDueL flushIfDue flushAndCountL
  by_cases hd : i % c.batchSize = 0 ∧ i ≠ 0
  · rw [if_pos hd, if_pos hd]
    rcases hf : flushAndCount c s with ⟨t, r⟩
    rw [hf] at f1 f2
    simp only at f1 f2
    cases r with
    | some e => exact ⟨rfl, by simp [f2], fun _ _ _ _ h => by cases h⟩
    | none =>
      simp only
      cases c.renewBatchBuf i with
      | some e => exact ⟨rfl, by simp [f2], fun _ _ _ _ h => by cases h⟩
      | none =>
        refine ⟨rfl, by simp [f2], fun hb done es hB _ => ?_⟩
        have hfull := (hB.due hb).1 hd
        have hc := hB.count
        refine ⟨?_, ?_, ?_, ?_⟩
        · simpa using hB.order
        · intro b hm
          rcases List.mem_append.1 hm with h | h
          · exact hB.full b h
          · rw [List.mem_singleton.1 h]
            exact hfull
        · simp only [List.length_append, List.length_singleton, List.length_nil, Nat.add_mul,
            Nat.one_mul]
          omega
        · exact hb
  · rw [if_neg hd, if_neg hd]
    refine ⟨rfl, by simp, fun hb done es hB _ => ?_⟩
    simp only [List.append_nil]
    exact ⟨hB.order, hB.full, hB.count, (hB.due hb).2 hd⟩

theorem onEntryL_spec (c : Collab) (s : Cff) (i : Nat) (ent : Entry) (err : Option String) :
    (onEntryL c s i ent err).1 = onEntry c s i ent err ∧
    (onEntryL c s i ent err).1.1.batches = s.batches + (onEntryL c s i ent err).2.length ∧
    (0 < c.batchSize → ∀ done es, Batched c.batchSize i done s.batchBuf es →
      (onEntryL c s i ent err).1.2 = none →
      Batched c.batchSize (i + 1) (done ++ (onEntryL c s i ent err).2)
        (onEntryL c s i ent err).1.1.batchBuf (es ++ [ent])) := by
  obtain ⟨k1, k2⟩ := countEntry_buf s ent
  obtain ⟨h1, h2, h3⟩ := flushIfDueL_spec c (countEntry s ent) i
  unfold onEntryL onEntry
  cases err with
  | some e => exact ⟨rfl, by simp, fun _ _ _ _ h => by cases h⟩
  | none =>
    simp only
    cases c.accWriteEntry i with
    | some e => exact ⟨rfl, by simp [k2], fun _ _ _ _ h => by cases h⟩
    | none =>
      simp only
      rw [← h1]
      rcases hf : flushIfDueL c (countEntry s ent) i with ⟨⟨t, r⟩, log⟩
      rw [hf] at h2 h3
      simp only at h2 h3
      cases r with
      | some e => exact ⟨rfl, by rw [h2, k2], fun _ _ _ _ h => by cases h⟩
      | none =>
        obtain ⟨b1, b2⟩ := bufferEntry_buf c t i ent
        refine ⟨rfl, by simp only; rw [b1, h2, k2], fun hb done es hB hok => ?_⟩
        simp only at hok ⊢
        rw [k1] at h3
        obtain ⟨g1, g2, g3, g4⟩ := h3 hb done es hB rfl
        rw [b2 hok]
        exact
          { order := by rw [← List.append_assoc, g1]
            full := g2
            count := by
              simp only [List.length_append, List.length_singleton] at g3 ⊢
              omega
            held := fun _ => by
              rw [List.length_append, List.length_singleton]
              omega }

theorem eachEntryL_spec (c : Collab) (tail : Nat) (reads : List Read) :
    ∀ (num : Nat) (s : Cff),
      (eachEntryL c tail reads num s).1 = eachEntry c tail reads num s ∧
      (eachEntryL c tail reads num s).1.1.batches =
        s.batches + (eachEntryL c tail reads num s).2.length ∧
      (0 < c.batchSize → ∀ done es, Batched c.batchSize num done s.batchBuf es →
        (eachEntryL c tail reads num s).1.2 = none →
        Batched c.batchSize (num + reads.length) (done ++ (eachEntryL c tail reads num s).2)
          (eachEntryL c tail reads num s).1.1.batchBuf (es ++ decoded reads) ∧
        (decoded reads).length = reads.length) := by
  induction reads with
  | nil =>
    intro num s
    refine ⟨rfl, by simp [eachEntryL], fun _ done es hB _ => ?_⟩
    simpa [eachEntryL, decoded] using hB
  | cons r rest ih =>
    intro num s
    unfold eachEntryL eachEntry
    simp only
    cases hr : r.result with
    | error e => exact ⟨rfl, by simp, fun _ _ _ _ h => by cases h⟩
    | ok ent =>
      simp only
      obtain ⟨h1, h2, h3⟩ :=
        onEntryL_spec c { s with bytesRead := s.bytesRead + r.bytes } num ent none
      rw [← h1]
      rcases hb : onEntryL c { s with bytesRead := s.bytesRead + r.bytes } num ent none with
        ⟨⟨t, res⟩, log⟩
      rw [hb] at h2 h3
      simp only at h2 h3
      cases res with
      | some e => exact ⟨rfl, h2, fun _ _ _ _ h => by cases h⟩
      | none =>
        obtain ⟨i1, i2, i3⟩ := ih (num + 1) t
        refine ⟨i1, ?_, fun hpos done es hB hok => ?_⟩
        · simp only [List.length_append]
          rw [i2, h2]
          omega
        · simp only at hok ⊢
          have hB' := h3 hpos done es hB rfl
          obtain ⟨j1, j2⟩ := i3 hpos (done ++ log) (es ++ [ent]) hB' hok
          have hdec : decoded (r :: rest) = ent :: decoded rest := by
            simp [decoded, hr]
          rw [hdec]
          refine ⟨?_, by simp [j2]⟩
          have e1 : num + (r :: rest).length = num + 1 + rest.length := by
            simp only [List.length_cons]
            omega
          have e2 : es ++ ent :: decoded rest = es ++ [ent] ++ decoded rest := by simp
          rw [e1, e2, ← List.append_assoc]
          exact j1

theorem handleRowsL_spec (c : Collab) (s : Cff) :
    (handleRowsL c s).1 = handleRows c s ∧
    (handleRowsL c s).1.batches = s.batches + (handleRowsL c s).2.length ∧
    (0 < c.batchSize → s.trace = [] → none ∈ (handleRows c s).sends →
      ∃ done last, (handleRowsL c s).2 = done ++ [last] ∧
        Batched c.batchSize s.source.content.reads.length done last s.source.content.entries ∧
        s.source.content.entries.length = s.source.content.reads.length) := by
  have hs0 : s.trace = [] → s.sends = [] := fun h => by simp [Cff.sends, h]
  unfold handleRowsL handleRows
  simp only
  cases c.newEntryReader with
  | some e =>
    refine ⟨rfl, by simp, fun _ h0 h => ?_⟩
    simp [emit_sends, Cff.sends, h0, Event.sent] at h
  | none =>
    cases c.jsonSchema with
    | some e =>
      refine ⟨rfl, by simp, fun _ h0 h => ?_⟩
      simp [emit_sends, Cff.sends, h0, Event.sent] at h
    | none =>
      cases c.newBatchBuf with
      | some e =>
        refine ⟨rfl, by simp, fun _ h0 h => ?_⟩
        simp [emit_sends, Cff.sends, h0, Event.sent] at h
      | none =>
        cases c.newDiffBuf with
        | some e =>
          refine ⟨rfl, by simp, fun _ h0 h => ?_⟩
          simp [emit_sends, Cff.sends, h0, Event.sent] at h
        | none =>
          simp only
          obtain ⟨h1, h2, h3⟩ := eachEntryL_spec c s.source.content.tail s.source.content.reads 0
            { s with valErrorCount := 0, entries := 0, depth := 0, batchBuf := [],
                     diffMessageBuf := some [] }
          have r1 := eachEntry_run c s.source.content.tail s.source.content.reads 0
            { s with valErrorCount := 0, entries := 0, depth := 0, batchBuf := [],
                     diffMessageBuf := some [] }
          rw [← h1] at r1 ⊢
          rcases hb : eachEntryL c s.source.content.tail s.source.content.reads 0
            { s with valErrorCount := 0, entries := 0, depth := 0, batchBuf := [],
                     diffMessageBuf := some [] } with ⟨⟨t, res⟩, log⟩
          rw [hb] at h2 h3 r1
          simp only at h2 h3 r1
          have ht : s.trace = [] → t.sends = [] := fun h0 => by
            rw [r1.sends]
            exact hs0 h0
          cases res with
          | some e =>
            refine ⟨rfl, h2, fun _ h0 h => ?_⟩
            simp [emit_sends, ht h0, Event.sent] at h
          | none =>
            simp only
            obtain ⟨f1, f2⟩ := flushAndCount_buf c t
            have r2 := flushAndCount_run c t
            unfold flushAndCountL
            rcases hf : flushAndCount c t with ⟨u, res2⟩
            rw [hf] at f1 f2 r2
            simp only at f1 f2 r2
            cases res2 with
            | some e =>
              refine ⟨rfl, ?_, fun _ h0 h => ?_⟩
              · simp only [emit_batches, List.length_append, List.length_singleton]
                rw [f2, h2]
                omega
              · simp [emit_sends, r2.sends, ht h0, Event.sent] at h
            | none =>
              refine ⟨rfl, ?_, fun hpos _ _ => ?_⟩
              · simp only [List.length_append, List.length_singleton]
                rw [(finish_accLog c u).2, f2, h2]
                omega
              · obtain ⟨g1, g2⟩ := h3 hpos [] [] (Batched.start c.batchSize) rfl
                refine ⟨log, t.batchBuf, rfl, ?_, g2⟩
                simpa [Body.entries] using g1

/-- C22 (as amended): with a batch size of at least 1, in a run that sends
nil on the completion channel every read of the body has decoded an entry,
and the batches handed to `flushBatch`, in the order of the calls, hold the
entries of the body in stream order, each entry in one batch: every batch
but the last holds `batchSize` entries, and the last holds between 1 and
`batchSize` entries when the body has an entry; `flushBatch` is called once
for an empty body and ceil(n / batchSize) times for a body of n ≥ 1
entries, which is what the counter `batches` ends at; and the statistics
accumulator has received the same entries, once each and in the same order,
before its close. -/
theorem batches_in_order (c : Collab) (ds : Dataset) (bf : File) (hb : 0 < c.batchSize)
    (hok : none ∈ (handleRows c (Cff.over ds bf)).sends) :
    (handleRowsL c (Cff.over ds bf)).1 = handleRows c (Cff.over ds bf) ∧
    bf.content.entries.length = bf.content.reads.length ∧
    (handleRowsL c (Cff.over ds bf)).2.flatten = bf.content.entries ∧
    (∀ b ∈ (handleRowsL c (Cff.over ds bf)).2.dropLast, b.length = c.batchSize) ∧
    (0 < bf.content.entries.length →
      ∃ last, (handleRowsL c (Cff.over ds bf)).2.getLast? = some last ∧
        1 ≤ last.length ∧ last.length ≤ c.batchSize) ∧
    (handleRowsL c (Cff.over ds bf)).2.length =
      (if bf.content.entries.length = 0 then 1
       else (bf.content.entries.length + c.batchSize - 1) / c.batchSize) ∧
    (handleRows c (Cff.over ds bf)).batches = (handleRowsL c (Cff.over ds bf)).2.length ∧
    (handleRows c (Cff.over ds bf)).accLog = bf.content.entries.map some ++ [none] := by
  obtain ⟨h1, h2, h3⟩ := handleRowsL_spec c (Cff.over ds bf)
  obtain ⟨done, last, hlog, hB, hlen⟩ := h3 hb rfl hok
  have hsrc : (Cff.over ds bf).source = bf := rfl
  rw [hsrc] at hB hlen
  have hcount := hB.count
  rw [← hlen] at hcount
  refine ⟨h1, hlen, ?_, ?_, ?_, ?_, ?_, ?_⟩
  · rw [hlog]
    simpa using hB.order
  · rw [hlog, List.dropLast_concat]
    exact hB.full
  · intro hpos
    refine ⟨last, by rw [hlog]; simp, ?_⟩
    exact hB.held (by rw [← hlen]; exact hpos)
  · rw [hlog, List.length_append, List.length_singleton]
    split
    · rename_i hz
      rw [hz] at hcount
      have : done.length * c.batchSize = 0 := by omega
      rcases Nat.mul_eq_zero.1 this with h | h
      · omega
      · omega
    · rename_i hz
      obtain ⟨l1, l2⟩ := hB.held (by rw [← hlen]; omega)
      symm
      apply Nat.div_eq_of_lt_le
      · rw [Nat.add_mul, Nat.one_mul]
        omega
      · rw [Nat.add_mul, Nat.add_mul, Nat.one_mul]
        omega
  · rw [← h1, h2]
    simp [Cff.over]
  · obtain ⟨s₁, s₂, he, _, _, r1, r2, _⟩ := success_shape c (Cff.over ds bf) rfl hok
    have hr := r1.trans r2
    rw [he, (finish_accLog c s₂).1, hr.accLog rfl, (ready_fields _).2.2.2.2.2.2.2.2.2.2.2]
    simp [Cff.over, Cff.accLog]

/-- C22 at a body of five entries flushed in batches of two: three batches
of 2, 2 and 1 entries, three calls of `flushBatch`. -/
theorem batches_in_order_witness :
    (handleRowsL (Collab.sample 2 100)
      (Cff.over (Dataset.sample false (Body.sample 4 [.str "x", .num 1, .str "y", .num 3, .str "z"]))
        (File.sample (Body.sample 4 [.str "x", .num 1, .str "y", .num 3, .str "z"])))).2.map
      List.length = [2, 2, 1] ∧
    (handleRowsL (Collab.sample 2 100)
      (Cff.over (Dataset.sample false (Body.sample 4 [.str "x", .num 1, .str "y", .num 3, .str "z"]))
        (File.sample (Body.sample 4 [.str "x", .num 1, .str "y", .num 3, .str "z"])))).2.flatten =
      (File.sample
        (Body.sample 4 [.str "x", .num 1, .str "y", .num 3, .str "z"])).content.entries ∧
    (handleRows (Collab.sample 2 100)
      (Cff.over (Dataset.sample false (Body.sample 4 [.str "x", .num 1, .str "y", .num 3, .str "z"]))
        (File.sample (Body.sample 4 [.str "x", .num 1, .str "y", .num 3, .str "z"])))).batches = 3 :=
  ⟨rfl,
   (batches_in_order (Collab.sample 2 100)
      (Dataset.sample false (Body.sample 4 [.str "x", .num 1, .str "y", .num 3, .str "z"]))
      (File.sample (Body.sample 4 [.str "x", .num 1, .str "y", .num 3, .str "z"]))
      (by decide) (by decide)).2.2.1,
   rfl⟩

/-- C22 fails in a run that is cut short: in strict mode, with batches of
two over five entries of which the first is invalid, the first flush raises
the strict-mode error; `flushBatch` has been called once, not three times,
and the third entry, which was read and counted, is in no batch. -/
theorem batches_cut_short :
    (handleRowsL (Collab.sample 2 100)
      (Cff.over (Dataset.sample true (Body.sample 4 [.str "x", .num 1, .str "y", .num 3, .str "z"]))
        (File.sample (Body.sample 4 [.str "x", .num 1, .str "y", .num 3, .str "z"])))).2.map
      List.length = [2] ∧
    (handleRows (Collab.sample 2 100)
      (Cff.over (Dataset.sample true (Body.sample 4 [.str "x", .num 1, .str "y", .num 3, .str "z"]))
        (File.sample (Body.sample 4 [.str "x", .num 1, .str "y", .num 3, .str "z"])))).batches = 1 ∧
    (handleRows (Collab.sample 2 100)
      (Cff.over (Dataset.sample true (Body.sample 4 [.str "x", .num 1, .str "y", .num 3, .str "z"]))
        (File.sample (Body.sample 4 [.str "x", .num 1, .str "y", .num 3, .str "z"])))).entries = 3 ∧
    (File.sample
      (Body.sample 4 [.str "x", .num 1, .str "y", .num 3, .str "z"])).content.entries.length = 5 ∧
    (5 + (Collab.sample 2 100).batchSize - 1) / (Collab.sample 2 100).batchSize = 3 ∧
    (handleRows (Collab.sample 2 100)
      (Cff.over (Dataset.sample true (Body.sample 4 [.str "x", .num 1, .str "y", .num 3, .str "z"]))
        (File.sample (Body.sample 4 [.str "x", .num 1, .str "y", .num 3, .str "z"])))).sends =
      [some (.wrap "processing body data" (.strictMode 1))] :=
  ⟨rfl, rfl, rfl, rfl, rfl, rfl⟩

end Dsfs

namespace Kinds

/-! ### Facts about components -/

@[simp] theorem ofBase_kind (k : Kind) (b : BaseComponent) (e : Extra) :
    (Component.ofBase k b e).kind = k := rfl

@[simp] theorem ofBase_Base (k : Kind) (b : BaseComponent) (e : Extra) :
    (Component.ofBase k b e).Base = b := rfl

@[simp] theorem ofBase_extra (k : Kind) (b : BaseComponent) (e : Extra) :
    (Component.ofBase k b e).extra = e := rfl

@[simp] theorem withBase_kind (c : Component) (b : BaseComponent) :
    (c.withBase b).kind = c.kind := rfl

@[simp] theorem withBase_Base (c : Component) (b : BaseComponent) :
    (c.withBase b).Base = b := rfl

@[simp] theorem withBase_extra (c : Component) (b : BaseComponent) :
    (c.withBase b).extra = c.extra := rfl

@[simp] theorem withExtra_kind (c : Component) (e : Extra) :
    (c.withExtra e).kind = c.kind := rfl

@[simp] theorem withExtra_Base (c : Component) (e : Extra) :
    (c.withExtra e).Base = c.Base := rfl

@[simp] theorem withExtra_extra (c : Component) (e : Extra) :
    (c.withExtra e).extra = e := rfl

theorem mapGet_mapSet_same (m : List (String × Component)) (name : String) (c : Component) :
    mapGet (mapSet m name c) name = some c := by
  induction m with
  | nil => simp [mapSet, mapGet]
  | cons kv rest ih =>
    obtain ⟨k, v⟩ := kv
    by_cases h : k = name
    · simp [mapSet, mapGet, h]
    · simp [mapSet, mapGet, h, ih]

theorem mapGet_mapSet_other (m : List (String × Component)) (name other : String)
    (c : Component) (h : other ≠ name) :
    mapGet (mapSet m name c) other = mapGet m other := by
  induction m with
  | nil => simp [mapSet, mapGet, h.symm]
  | cons kv rest ih =>
    obtain ⟨k, v⟩ := kv
    by_cases hk : k = name
    · subst hk
      simp [mapSet, mapGet, h.symm]
    · simp only [mapSet, if_neg hk, mapGet, ih]

/-- C19: for each of the names meta, commit, structure, readme, transform,
body and dataset, `SetSubcomponent(name, base)` returns a component of the
matching kind whose base is `base`, and after the call `GetSubcomponent`
gives that component for `name` and what it gave before for every other
name; for a name that is none of the seven it returns nil and leaves the
base, its sub-component map included, as it was. -/
theorem SetSubcomponent_spec (bc base : BaseComponent) (name : String) :
    (∀ k, (name, k) ∈ [("meta", Kind.meta), ("commit", Kind.commit),
        ("structure", Kind.structure), ("readme", Kind.readme),
        ("transform", Kind.transform), ("body", Kind.body), ("dataset", Kind.dataset)] →
      (bc.SetSubcomponent name base).2 = some (Component.ofBase k base Extra.zero) ∧
      (Component.ofBase k base Extra.zero).kind = k ∧
      (Component.ofBase k base Extra.zero).Base = base ∧
      (bc.SetSubcomponent name base).1.GetSubcomponent name =
        some (Component.ofBase k base Extra.zero) ∧
      ∀ other, other ≠ name →
        (bc.SetSubcomponent name base).1.GetSubcomponent other = bc.GetSubcomponent other) ∧
    (name ∉ ["meta", "commit", "structure", "readme", "transform", "body", "dataset"] →
      (bc.SetSubcomponent name base).2 = none ∧ (bc.SetSubcomponent name base).1 = bc) := by
  constructor
  · intro k hk
    simp only [List.mem_cons, Prod.mk.injEq, List.mem_singleton, List.not_mem_nil, or_false] at hk
    rcases hk with ⟨rfl, rfl⟩ | ⟨rfl, rfl⟩ | ⟨rfl, rfl⟩ | ⟨rfl, rfl⟩ | ⟨rfl, rfl⟩ | ⟨rfl, rfl⟩ |
      ⟨rfl, rfl⟩ <;>
    · refine ⟨by simp [BaseComponent.SetSubcomponent], rfl, rfl, ?_, fun other ho => ?_⟩
      · simp [BaseComponent.SetSubcomponent, BaseComponent.GetSubcomponent, mapGet_mapSet_same]
      · simp [BaseComponent.SetSubcomponent, BaseComponent.GetSubcomponent,
          mapGet_mapSet_other _ _ _ _ ho]
  · intro h
    simp only [List.mem_cons, List.mem_singleton, List.not_mem_nil, or_false, not_or] at h
    obtain ⟨h1, h2, h3, h4, h5, h6, h7⟩ := h
    simp [BaseComponent.SetSubcomponent, h1, h2, h3, h4, h5, h6, h7]

/-- C19 at the name "meta" on an empty base, and at the name "stats": the
first call registers and returns a meta component, the second returns nil
and changes nothing. -/
theorem SetSubcomponent_spec_witness :
    ((BaseComponent.zero.SetSubcomponent "meta" BaseComponent.zero).2 =
        some (Component.ofBase .meta BaseComponent.zero Extra.zero) ∧
      (BaseComponent.zero.SetSubcomponent "meta" BaseComponent.zero).1.GetSubcomponent "meta" =
        some (Component.ofBase .meta BaseComponent.zero Extra.zero)) ∧
    ((BaseComponent.zero.SetSubcomponent "stats" BaseComponent.zero).2 = none ∧
      (BaseComponent.zero.SetSubcomponent "stats" BaseComponent.zero).1 = BaseComponent.zero) :=
  ⟨⟨((SetSubcomponent_spec BaseComponent.zero BaseComponent.zero "meta").1 .meta
        (by decide)).1,
    ((SetSubcomponent_spec BaseComponent.zero BaseComponent.zero "meta").1 .meta
        (by decide)).2.2.2.1⟩,
   (SetSubcomponent_spec BaseComponent.zero BaseComponent.zero "stats").2 (by decide)⟩

/-- C15: `WriteTo` on a meta component marked `DisableSerialization`
returns the error "serialization is disabled" and an empty target file,
writes no file and leaves the component as it was, whatever its value and
its loaded flag. -/
theorem WriteTo_disabled (w : World) (c : Component) (dirPath : String)
    (hk : c.kind = .meta) (hd : c.extra.disableSerialization = true) :
    (c.WriteTo w dirPath).err = some "serialization is disabled" ∧
    (c.WriteTo w dirPath).targetFile = "" ∧
    (c.WriteTo w dirPath).files = [] ∧
    (c.WriteTo w dirPath).comp = c := by
  simp [Component.WriteTo, hk, hd]

/-- C15 at a meta component without a value, not loaded, marked
`DisableSerialization`. -/
theorem WriteTo_disabled_witness :
    ((Component.ofBase .meta BaseComponent.zero
        { Extra.zero with disableSerialization := true }).WriteTo World.sample "dir").err =
      some "serialization is disabled" ∧
    ((Component.ofBase .meta BaseComponent.zero
        { Extra.zero with disableSerialization := true }).WriteTo World.sample "dir").files = [] :=
  ⟨(WriteTo_disabled World.sample
      (Component.ofBase .meta BaseComponent.zero { Extra.zero with disableSerialization := true })
      "dir" rfl rfl).1,
   (WriteTo_disabled World.sample
      (Component.ofBase .meta BaseComponent.zero { Extra.zero with disableSerialization := true })
      "dir" rfl rfl).2.2.1⟩

/-! ### Facts about `LoadAndFill` -/

theorem LoadFile_ok (w : World) (bc : BaseComponent) (fields : Option Fields)
    (h : (bc.LoadFile w).2 = .ok fields) : (bc.LoadFile w).1.isLoaded = true := by
  unfold BaseComponent.LoadFile at h ⊢
  cases hl : bc.isLoaded
  · simp only [hl, Bool.false_eq_true, if_false] at h ⊢
    cases hr : w.readFile bc.sourceFile with
    | error err => simp [hr] at h
    | ok data =>
      simp only [hr] at h ⊢
      split_ifs at h ⊢
      · cases hj : w.jsonUnmarshal data <;> simp_all [BaseComponent.SetErrorAsProblem]
      · cases hy : w.yamlUnmarshal data <;> simp_all [BaseComponent.SetErrorAsProblem]
      · rfl
  · simp [hl]

theorem loadValue_inv (w : World) (c : Component) :
    (loadValue w c).1.kind = c.kind ∧
    ((loadValue w c).2 = none → (loadValue w c).1.Base.isLoaded = true) := by
  have hf := fun fields => LoadFile_ok w c.Base fields
  unfold loadValue
  split
  · simp
  · rename_i b fields he
    rw [he] at hf
    refine ⟨rfl, fun _ => ?_⟩
    simpa using hf fields rfl

theorem loadStructured_inv (w : World) (c : Component) (ds : Option Dataset) :
    (loadStructured w c ds).1.kind = c.kind ∧
    ((loadStructured w c ds).2.2 = none → (loadStructured w c ds).1.Base.isLoaded = true) := by
  have hv := loadValue_inv w c
  unfold loadStructured
  split
  · exact ⟨rfl, fun _ => by assumption⟩
  · split
    · exact ⟨rfl, fun _ => rfl⟩
    · split
      · rename_i he
        rw [he] at hv
        exact ⟨hv.1, fun h => by simp at h⟩
      · rename_i he
        rw [he] at hv
        split
        · exact ⟨hv.1, fun _ => hv.2 rfl⟩
        · exact ⟨hv.1, fun _ => hv.2 rfl⟩

theorem loadScript_inv (w : World) (c : Component) (ds : Option Dataset) :
    (loadScript w c ds).1.kind = c.kind ∧
    ((loadScript w c ds).2.2 = none → (loadScript w c ds).1.Base.isLoaded = true) := by
  have hv := loadValue_inv w c
  unfold loadScript
  split
  · exact ⟨rfl, fun _ => by assumption⟩
  · simp only
    split
    · rename_i c' err he
      refine ⟨?_, fun h => by simp at h⟩
      split at he
      · rw [he] at hv; exact hv.1
      · cases he
    · rename_i c' he
      have hk : c'.kind = c.kind := by
        split at he
        · rw [he] at hv; exact hv.1
        · cases he; rfl
      split
      · exact ⟨hk, fun _ => rfl⟩
      · split
        · split
          · exact ⟨hk, fun _ => rfl⟩
          · exact ⟨hk, fun _ => rfl⟩
        · exact ⟨hk, fun _ => rfl⟩

theorem loadBody_inv (w : World) (c : Component) (ds : Option Dataset) :
    (loadBody w c ds).1.kind = c.kind ∧
    ((loadBody w c ds).2.2 = none → (loadBody w c ds).1.extra.bodyValue.isSome = true) := by
  unfold loadBody
  split
  · exact ⟨rfl, fun _ => by assumption⟩
  · simp only
    split
    · exact ⟨rfl, fun h => by simp at h⟩
    · rename_i c' entries he
      have hc : c'.kind = c.kind := by
        revert he
        split
        · split
          · intro h; cases h
          · intro h; cases h; rfl
        · split
          · split
            · intro h; cases h
            · split
              · intro h; cases h
              · intro h; cases h; rfl
          · split
            · intro h; cases h
            · split
              · intro h; cases h
              · intro h; cases h; rfl
      split
      · exact ⟨hc, fun h => by simp at h⟩
      · split
        · split
          · exact ⟨hc, fun h => by simp at h⟩
          · exact ⟨hc, fun _ => rfl⟩
        · split
          · exact ⟨hc, fun h => by simp at h⟩
          · exact ⟨hc, fun _ => rfl⟩

theorem LoadAndFill_kind (w : World) (c : Component) (ds : Option Dataset) :
    (c.LoadAndFill w ds).1.kind = c.kind := by
  unfold Component.LoadAndFill
  split
  · rfl
  · rfl
  · exact (loadStructured_inv w c ds).1
  · exact (loadStructured_inv w c ds).1
  · exact (loadStructured_inv w c ds).1
  · exact (loadBody_inv w c ds).1
  · exact (loadScript_inv w c ds).1
  · exact (loadScript_inv w c ds).1

theorem LoadAndFill_again (w : World) (c : Component) (ds ds' : Option Dataset)
    (h : (c.LoadAndFill w ds).2.2 = none) :
    (c.LoadAndFill w ds).1.LoadAndFill w ds' = ((c.LoadAndFill w ds).1, ds', none) := by
  have hk := LoadAndFill_kind w c ds
  generalize hc : (c.LoadAndFill w ds).1 = c1 at hk
  have key : (c.kind = .filesys ∨ c.kind = .dataset) ∨
      ((c.kind = .meta ∨ c.kind = .structure ∨ c.kind = .commit) ∧ c1.Base.isLoaded = true) ∨
      ((c.kind = .readme ∨ c.kind = .transform) ∧ c1.Base.isLoaded = true) ∨
      (c.kind = .body ∧ c1.extra.bodyValue.isSome = true) := by
    subst hc
    unfold Component.LoadAndFill at h ⊢
    cases hkd : c.kind <;> simp only [hkd] at h ⊢ <;> simp
    · exact (loadStructured_inv w c ds).2 h
    · exact (loadStructured_inv w c ds).2 h
    · exact (loadStructured_inv w c ds).2 h
    · exact (loadBody_inv w c ds).2 h
    · exact (loadScript_inv w c ds).2 h
    · exact (loadScript_inv w c ds).2 h
  unfold Component.LoadAndFill
  rcases key with (hf | hf) | ⟨hf | hf | hf, hl⟩ | ⟨hf | hf, hl⟩ | ⟨hf, hl⟩
  · simp [hk, hf]
  · simp [hk, hf]
  · simp [hk, hf, loadStructured, hl]
  · simp [hk, hf, loadStructured, hl]
  · simp [hk, hf, loadStructured, hl]
  · simp [hk, hf, loadScript, hl]
  · simp [hk, hf, loadScript, hl]
  · simp [hk, hf, loadBody, hl]

/-! ### Claims about comparing and loading -/

/-- C11 (as amended): for a component of any kind but the filesys
container, `Compare` against a component of a different kind returns false
with no error and leaves both components as they were; a filesys container
returns false with the error "cannot compare filesys component containers"
whatever it is compared with. -/
theorem Compare_other_kind (w : World) (c other : Component) :
    (c.kind ≠ .filesys → other.kind ≠ c.kind → c.Compare w other = (c, other, false, none)) ∧
    (c.kind = .filesys →
      c.Compare w other =
        (c, other, false, some "cannot compare filesys component containers")) := by
  constructor
  · intro h1 h2
    unfold Component.Compare
    cases hk : c.kind <;> simp_all
  · intro h1
    unfold Component.Compare
    simp [h1]

/-- C11 at a body component compared with a meta component. -/
theorem Compare_other_kind_witness :
    (Component.sample .body "body.csv" "csv").Compare World.sample
        (Component.sample .meta "meta.json" "json") =
      (Component.sample .body "body.csv" "csv", Component.sample .meta "meta.json" "json",
        false, none) :=
  (Compare_other_kind World.sample (Component.sample .body "body.csv" "csv")
    (Component.sample .meta "meta.json" "json")).1 (by decide) (by decide)

/-- C11 fails for the filesys container: compared with a meta component,
which is of a different kind, it returns an error. -/
theorem Compare_filesys_errors :
    (Component.sample .meta "meta.json" "json").kind ≠ (Component.sample .filesys "" "").kind ∧
    ((Component.sample .filesys "" "").Compare World.sample
        (Component.sample .meta "meta.json" "json")).2.2 =
      (false, some "cannot compare filesys component containers") :=
  ⟨by decide, rfl⟩

/-- C12: once a `LoadAndFill` call on a component has returned no error, a
second call on the component it leaves returns no error, leaves the
component as it is, value and loaded flag included, and leaves the dataset
passed to it as it is; this holds for the meta, structure, commit, readme,
transform and body kinds, and for the two containers as well. -/
theorem LoadAndFill_idempotent (w : World) (c : Component) (ds ds' : Option Dataset)
    (h : (c.LoadAndFill w ds).2.2 = none) :
    ((c.LoadAndFill w ds).1.LoadAndFill w ds').2.2 = none ∧
    ((c.LoadAndFill w ds).1.LoadAndFill w ds').1 = (c.LoadAndFill w ds).1 ∧
    ((c.LoadAndFill w ds).1.LoadAndFill w ds').1.extra.value = (c.LoadAndFill w ds).1.extra.value ∧
    ((c.LoadAndFill w ds).1.LoadAndFill w ds').1.extra.bodyValue =
      (c.LoadAndFill w ds).1.extra.bodyValue ∧
    ((c.LoadAndFill w ds).1.LoadAndFill w ds').1.Base.isLoaded =
      (c.LoadAndFill w ds).1.Base.isLoaded ∧
    ((c.LoadAndFill w ds).1.LoadAndFill w ds').2.1 = ds' := by
  rw [LoadAndFill_again w c ds ds' h]
  simp

/-- C12 at a meta component read from "meta.json" and at a body component
read from "body.csv": the first call loads a value, the second changes
nothing. -/
theorem LoadAndFill_idempotent_witness :
    (((Component.sample .meta "meta.json" "json").LoadAndFill World.sample none).2.2 = none ∧
      ((Component.sample .meta "meta.json" "json").LoadAndFill World.sample none).1.extra.value =
        some { text := "meta.json", fields := [("title", .str "meta.json")] }) ∧
    ((((Component.sample .meta "meta.json" "json").LoadAndFill World.sample none).1.LoadAndFill
        World.sample none).2.2 = none ∧
      (((Component.sample .meta "meta.json" "json").LoadAndFill World.sample none).1.LoadAndFill
        World.sample none).1 =
        ((Component.sample .meta "meta.json" "json").LoadAndFill World.sample none).1) :=
  ⟨⟨rfl, rfl⟩,
    (LoadAndFill_idempotent World.sample (Component.sample .meta "meta.json" "json") none none
      rfl).1,
    (LoadAndFill_idempotent World.sample (Component.sample .meta "meta.json" "json") none none
      rfl).2.1⟩

theorem LoadAndFill_of_LoadFile_error (w : World) (c : Component) (ds : Option Dataset)
    (hk : c.kind ∈ [Kind.meta, Kind.structure, Kind.commit, Kind.readme, Kind.transform])
    (hv : c.extra.value = none) (hl : c.Base.isLoaded = false)
    (b : BaseComponent) (err : String) (h : c.Base.LoadFile w = (b, .error err)) :
    c.LoadAndFill w ds = (c.withBase b, ds, some err) := by
  have hlv : loadValue w c = (c.withBase b, some err) := by
    unfold loadValue
    rw [h]
  simp only [List.mem_cons, List.mem_singleton, List.not_mem_nil, or_false] at hk
  unfold Component.LoadAndFill
  rcases hk with hk | hk | hk | hk | hk
  · simp [hk, loadStructured, hl, hv, hlv]
  · simp [hk, loadStructured, hl, hv, hlv]
  · simp [hk, loadStructured, hl, hv, hlv]
  · simp [hk, loadScript, hl, hv, hlv]
  · simp [hk, loadScript, hl, hv, hlv]

/-- C13 (as amended): for a meta, structure, commit, readme or transform
component that has no value and is not marked loaded, `LoadAndFill`
returns the read error when the source file cannot be read, the decoding
error when the file is read and its bytes do not decode in the declared
json or yaml format, and the error `unknown local file format` when the file
is read and the declared format is none of json, yaml, html, md, star, so
that it returns an error whenever the declared format is none of these; in
each case the value stays unset and the dataset passed in is returned as it
was. -/
theorem LoadAndFill_failure (w : World) (c : Component) (ds : Option Dataset)
    (hk : c.kind ∈ [Kind.meta, Kind.structure, Kind.commit, Kind.readme, Kind.transform])
    (hv : c.extra.value = none) (hl : c.Base.isLoaded = false) :
    (∀ err, w.readFile c.Base.sourceFile = .error err →
      (c.LoadAndFill w ds).2.2 = some err ∧
      (c.LoadAndFill w ds).1.extra.value = none ∧ (c.LoadAndFill w ds).2.1 = ds) ∧
    (∀ data err, w.readFile c.Base.sourceFile = .ok data → c.Base.format = "json" →
      w.jsonUnmarshal data = .error err →
      (c.LoadAndFill w ds).2.2 = some err ∧
      (c.LoadAndFill w ds).1.extra.value = none ∧ (c.LoadAndFill w ds).2.1 = ds) ∧
    (∀ data err, w.readFile c.Base.sourceFile = .ok data → c.Base.format = "yaml" →
      w.yamlUnmarshal data = .error err →
      (c.LoadAndFill w ds).2.2 = some err ∧
      (c.LoadAndFill w ds).1.extra.value = none ∧ (c.LoadAndFill w ds).2.1 = ds) ∧
    (∀ data, w.readFile c.Base.sourceFile = .ok data →
      c.Base.format ∉ ["json", "yaml", "html", "md", "star"] →
      (c.LoadAndFill w ds).2.2 =
        some ("unknown local file format \"" ++ c.Base.format ++ "\"") ∧
      (c.LoadAndFill w ds).1.extra.value = none ∧ (c.LoadAndFill w ds).2.1 = ds) ∧
    (c.Base.format ∉ ["json", "yaml", "html", "md", "star"] →
      (c.LoadAndFill w ds).2.2 ≠ none ∧
      (c.LoadAndFill w ds).1.extra.value = none ∧ (c.LoadAndFill w ds).2.1 = ds) := by
  suffices main : (∀ err, w.readFile c.Base.sourceFile = .error err →
      (c.LoadAndFill w ds).2.2 = some err ∧
      (c.LoadAndFill w ds).1.extra.value = none ∧ (c.LoadAndFill w ds).2.1 = ds) ∧
    (∀ data err, w.readFile c.Base.sourceFile = .ok data → c.Base.format = "json" →
      w.jsonUnmarshal data = .error err →
      (c.LoadAndFill w ds).2.2 = some err ∧
      (c.LoadAndFill w ds).1.extra.value = none ∧ (c.LoadAndFill w ds).2.1 = ds) ∧
    (∀ data err, w.readFile c.Base.sourceFile = .ok data → c.Base.format = "yaml" →
      w.yamlUnmarshal data = .error err →
      (c.LoadAndFill w ds).2.2 = some err ∧
      (c.LoadAndFill w ds).1.extra.value = none ∧ (c.LoadAndFill w ds).2.1 = ds) ∧
    (∀ data, w.readFile c.Base.sourceFile = .ok data →
      c.Base.format ∉ ["json", "yaml", "html", "md", "star"] →
      (c.LoadAndFill w ds).2.2 =
        some ("unknown local file format \"" ++ c.Base.format ++ "\"") ∧
      (c.LoadAndFill w ds).1.extra.value = none ∧ (c.LoadAndFill w ds).2.1 = ds) by
    obtain ⟨m1, m2, m3, m4⟩ := main
    refine ⟨m1, m2, m3, m4, fun hf => ?_⟩
    cases hr : w.readFile c.Base.sourceFile with
    | error err =>
      obtain ⟨a, b, d⟩ := m1 err hr
      exact ⟨by rw [a]; simp, b, d⟩
    | ok data =>
      obtain ⟨a, b, d⟩ := m4 data hr hf
      exact ⟨by rw [a]; simp, b, d⟩
  refine ⟨fun err hr => ?_, fun data err hr hf hj => ?_, fun data err hr hf hy => ?_,
    fun data hr hf => ?_⟩
  · rw [LoadAndFill_of_LoadFile_error w c ds hk hv hl
      (c.Base.SetErrorAsProblem "file-open" err) err
      (by simp [BaseComponent.LoadFile, hl, hr])]
    exact ⟨rfl, hv, rfl⟩
  · rw [LoadAndFill_of_LoadFile_error w c ds hk hv hl
      (BaseComponent.SetErrorAsProblem { c.Base with isLoaded := true } "parse" err)
      err (by simp [BaseComponent.LoadFile, hl, hr, hf, hj])]
    exact ⟨rfl, hv, rfl⟩
  · rw [LoadAndFill_of_LoadFile_error w c ds hk hv hl
      (BaseComponent.SetErrorAsProblem { c.Base with isLoaded := true } "parse" err)
      err (by simp [BaseComponent.LoadFile, hl, hr, hf, hy])]
    exact ⟨rfl, hv, rfl⟩
  · simp only [List.mem_cons, List.mem_singleton, List.not_mem_nil, or_false, not_or] at hf
    obtain ⟨h1, h2, h3, h4, h5⟩ := hf
    rw [LoadAndFill_of_LoadFile_error w c ds hk hv hl
      { c.Base with isLoaded := true }
      ("unknown local file format \"" ++ c.Base.format ++ "\"")
      (by simp [BaseComponent.LoadFile, hl, hr, h1, h2, h3, h4, h5])]
    exact ⟨rfl, hv, rfl⟩

/-- C13 at a meta component whose source file "missing.json" cannot be
read. -/
theorem LoadAndFill_failure_witness :
    ((Component.sample .meta "missing.json" "json").LoadAndFill World.sample none).2.2 =
      some "no such file" ∧
    ((Component.sample .meta "missing.json" "json").LoadAndFill World.sample none).1.extra.value =
      none ∧
    ((Component.sample .meta "missing.json" "json").LoadAndFill World.sample none).2.1 = none :=
  (LoadAndFill_failure World.sample (Component.sample .meta "missing.json" "json") none
    (by decide) rfl rfl).1 "no such file" rfl

/-- C13 fails for a component that has no value but is marked loaded, the
state a failed decoding leaves: the first `LoadAndFill` of a meta component
whose file does not decode returns the decoding error and leaves the value
unset, and the second call, on the same undecodable file, returns no
error. -/
theorem LoadAndFill_after_failed_decode :
    ((Component.sample .meta "broken.json" "json").LoadAndFill World.sample none).2.2 =
      some "invalid character" ∧
    ((Component.sample .meta "broken.json" "json").LoadAndFill World.sample none).1.extra.value =
      none ∧
    ((Component.sample .meta "broken.json" "json").LoadAndFill World.sample none).1.kind =
      .meta ∧
    World.sample.readFile
        ((Component.sample .meta "broken.json" "json").LoadAndFill World.sample
          none).1.Base.sourceFile = .ok "broken.json" ∧
    ((Component.sample .meta "broken.json" "json").LoadAndFill World.sample none).1.Base.format =
      "json" ∧
    World.sample.jsonUnmarshal "broken.json" = .error "invalid character" ∧
    (((Component.sample .meta "broken.json" "json").LoadAndFill World.sample none).1.LoadAndFill
      World.sample none).2.2 = none :=
  ⟨rfl, rfl, rfl, rfl, rfl, rfl, rfl⟩

/-! ### Claims about writing -/

/-- C14 (as amended): for a meta component not marked
`DisableSerialization`, and for a structure, commit, readme or transform
component, on which the `LoadAndFill` that `WriteTo` starts with returns no
error: when the value it leaves is absent, or is empty and the component is
not a meta component, `WriteTo` writes no file and returns an empty target
file with no error; a meta component with a value, empty or not, that is
encoded and written without error, is written to "meta.json" in the
directory, which is the target file returned. -/
theorem WriteTo_skips (w : World) (c : Component) (dirPath : String)
    (hk : c.kind ∈ [Kind.meta, Kind.structure, Kind.commit, Kind.readme, Kind.transform])
    (hd : c.kind = .meta → c.extra.disableSerialization = false)
    (hload : (c.LoadAndFill w none).2.2 = none) :
    ((∀ v, (c.LoadAndFill w none).1.extra.value = some v → c.kind ≠ .meta ∧ w.isEmpty v = true) →
      (c.WriteTo w dirPath).files = [] ∧ (c.WriteTo w dirPath).targetFile = "" ∧
      (c.WriteTo w dirPath).err = none) ∧
    (c.kind = .meta → ∀ v data, (c.LoadAndFill w none).1.extra.value = some v →
      w.marshalIndent v = .ok data → w.writeFile (w.join dirPath "meta.json") data = none →
      (c.WriteTo w dirPath).files = [(w.join dirPath "meta.json", data)] ∧
      (c.WriteTo w dirPath).targetFile = w.join dirPath "meta.json" ∧
      (c.WriteTo w dirPath).err = none) := by
  rcases hc : c.LoadAndFill w none with ⟨c1, ds1, e1⟩
  simp only [hc] at hload
  subst hload
  simp only [List.mem_cons, List.mem_singleton, List.not_mem_nil, or_false] at hk
  constructor
  · intro hv
    unfold Component.WriteTo
    rcases hk with hk | hk | hk | hk | hk
    · simp only [hk, hd hk, Bool.false_eq_true, if_false, hc]
      cases hval : c1.extra.value with
      | none => simp
      | some v => exact absurd hk (hv v hval).1
    · simp only [hk, writeNonEmpty, hc]
      cases hval : c1.extra.value with
      | none => simp
      | some v => simp [(hv v hval).2]
    · simp only [hk, writeNonEmpty, hc]
      cases hval : c1.extra.value with
      | none => simp
      | some v => simp [(hv v hval).2]
    · simp only [hk, writeScript, hc]
      cases hval : c1.extra.value with
      | none => simp
      | some v => simp [(hv v hval).2]
    · simp only [hk, writeScript, hc]
      cases hval : c1.extra.value with
      | none => simp
      | some v => simp [(hv v hval).2]
  · intro hm v data hval hmar hwr
    unfold Component.WriteTo
    simp [hm, hd hm, hc, hval, writeComponentFile, hmar, hwr]

/-- C14 at a commit component whose value is present and empty. -/
theorem WriteTo_skips_witness :
    ((Component.ofBase .commit BaseComponent.zero
        { Extra.zero with value := some { text := "", fields := [] } }).WriteTo
      World.sample "dir").files = [] ∧
    ((Component.ofBase .commit BaseComponent.zero
        { Extra.zero with value := some { text := "", fields := [] } }).WriteTo
      World.sample "dir").targetFile = "" ∧
    ((Component.ofBase .commit BaseComponent.zero
        { Extra.zero with value := some { text := "", fields := [] } }).WriteTo
      World.sample "dir").err = none :=
  (WriteTo_skips World.sample
    (Component.ofBase .commit BaseComponent.zero
      { Extra.zero with value := some { text := "", fields := [] } })
    "dir" (by decide) (fun h => nomatch h) rfl).1
    (fun v hv => ⟨by decide, by cases hv; rfl⟩)

/-- C14 fails for the meta component: a meta component whose value is
present and empty is written to "meta.json". -/
theorem WriteTo_empty_meta :
    World.sample.isEmpty { text := "", fields := [] } = true ∧
    ((Component.ofBase .meta BaseComponent.zero
        { Extra.zero with value := some { text := "", fields := [] } }).WriteTo
      World.sample "dir").files = [("dir/meta.json", "")] ∧
    ((Component.ofBase .meta BaseComponent.zero
        { Extra.zero with value := some { text := "", fields := [] } }).WriteTo
      World.sample "dir").targetFile = "dir/meta.json" ∧
    ((Component.ofBase .meta BaseComponent.zero
        { Extra.zero with value := some { text := "", fields := [] } }).WriteTo
      World.sample "dir").err = none :=
  ⟨rfl, rfl, rfl, rfl⟩

theorem loadBody_frame (w : World) (c : Component) (ds : Option Dataset) :
    (loadBody w c ds).1.Base = c.Base ∧
    (loadBody w c ds).1.extra.bodyStructure = c.extra.bodyStructure := by
  unfold loadBody
  split
  · exact ⟨rfl, rfl⟩
  · simp only
    split
    · exact ⟨rfl, rfl⟩
    · rename_i c' entries he
      have hc : c'.Base = c.Base ∧ c'.extra.bodyStructure = c.extra.bodyStructure := by
        revert he
        split
        · split
          · intro h; cases h
          · intro h; cases h; exact ⟨rfl, rfl⟩
        · split
          · split
            · intro h; cases h
            · split
              · intro h; cases h
              · intro h; cases h; exact ⟨rfl, rfl⟩
          · split
            · intro h; cases h
            · split
              · intro h; cases h
              · intro h; cases h; exact ⟨rfl, rfl⟩
      split
      · exact hc
      · split
        · split
          · exact hc
          · exact hc
        · split
          · exact hc
          · exact hc

theorem WriteTo_body_loaded (w : World) (c : Component) (dirPath : String)
    (hk : c.kind = .body) (hv : c.extra.bodyValue.isSome = true) :
    ((c.WriteTo w dirPath).err = none →
      ∃ st data, (c.WriteTo w dirPath).comp.extra.bodyStructure = some st ∧
        SerializeBody w (c.WriteTo w dirPath).comp.extra.bodyValue st = .ok data ∧
        (c.WriteTo w dirPath).targetFile = w.join dirPath ("body." ++ c.Base.format) ∧
        (c.WriteTo w dirPath).files = [(w.join dirPath ("body." ++ c.Base.format), data)]) ∧
    (c.extra.bodyStructure = none →
      (c.WriteTo w dirPath).files = [] ∧
      (c.WriteTo w dirPath).err = some "cannot write body without a structure") := by
  have hn : c.extra.bodyValue.isNone = false := by
    cases hx : c.extra.bodyValue <;> simp_all
  unfold Component.WriteTo
  simp only [hk, hn, Bool.false_eq_true, if_false]
  cases hst : c.extra.bodyStructure with
  | none => simp
  | some st =>
    cases hser : SerializeBody w c.extra.bodyValue st with
    | error err => simp [hser]
    | ok data =>
      cases hwr : w.writeFile (w.join dirPath ("body." ++ c.Base.format)) data with
      | some err => simp [hser, hwr]
      | none => simp [hst, hser, hwr]

theorem WriteTo_body_unloaded (w : World) (c : Component) (dirPath : String)
    (hk : c.kind = .body) (hv : c.extra.bodyValue = none) :
    (∀ err, (c.LoadAndFill w none).2.2 = some err →
      (c.WriteTo w dirPath).err = some err ∧ (c.WriteTo w dirPath).files = []) ∧
    ((c.LoadAndFill w none).2.2 = none →
      c.WriteTo w dirPath = (c.LoadAndFill w none).1.WriteTo w dirPath) := by
  have hi := loadBody_inv w c none
  have hlf : c.LoadAndFill w none = loadBody w c none := by
    unfold Component.LoadAndFill
    simp [hk]
  rw [← hlf] at hi
  rcases hb : c.LoadAndFill w none with ⟨c1, ds1, e1⟩
  rw [hb] at hi
  simp only at hi
  constructor
  · intro err he
    simp only at he
    subst he
    unfold Component.WriteTo
    simp [hk, hv, hb]
  · intro he
    simp only at he
    subst he
    have hn : c1.extra.bodyValue.isNone = false := by
      have := hi.2 rfl
      cases hx : c1.extra.bodyValue <;> simp_all
    unfold Component.WriteTo
    simp only [hk, hi.1, hv, hb, hn, Option.isNone_none, if_true, Bool.false_eq_true, if_false]

/-- C16 (as amended): for every body component, a `WriteTo` that returns
no error has written the serialized body to the path made of the directory
and "body." followed by the component's format, and returns that path; when
the component has no structure `WriteTo` writes nothing and fails, with the
error "cannot write body without a structure" when it has a value or its
`LoadAndFill` succeeds, and with the error of `LoadAndFill` otherwise. -/
theorem WriteTo_body (w : World) (c : Component) (dirPath : String) (hk : c.kind = .body) :
    ((c.WriteTo w dirPath).err = none →
      ∃ st data, (c.WriteTo w dirPath).comp.extra.bodyStructure = some st ∧
        SerializeBody w (c.WriteTo w dirPath).comp.extra.bodyValue st = .ok data ∧
        (c.WriteTo w dirPath).targetFile = w.join dirPath ("body." ++ c.Base.format) ∧
        (c.WriteTo w dirPath).files = [(w.join dirPath ("body." ++ c.Base.format), data)]) ∧
    (c.extra.bodyStructure = none →
      (c.WriteTo w dirPath).files = [] ∧
      (c.extra.bodyValue.isSome = true ∨ (c.LoadAndFill w none).2.2 = none →
        (c.WriteTo w dirPath).err = some "cannot write body without a structure") ∧
      (∀ err, c.extra.bodyValue = none → (c.LoadAndFill w none).2.2 = some err →
        (c.WriteTo w dirPath).err = some err)) := by
  cases hv : c.extra.bodyValue with
  | some v =>
    have hA := WriteTo_body_loaded w c dirPath hk (by simp [hv])
    refine ⟨hA.1, fun hns => ⟨(hA.2 hns).1, fun _ => (hA.2 hns).2, fun err h => by cases h⟩⟩
  | none =>
    have hB := WriteTo_body_unloaded w c dirPath hk hv
    have hlf : c.LoadAndFill w none = loadBody w c none := by
      unfold Component.LoadAndFill
      simp [hk]
    have hi := loadBody_inv w c none
    have hf := loadBody_frame w c none
    rw [← hlf] at hi hf
    cases he : (c.LoadAndFill w none).2.2 with
    | some err =>
      have hB1 := hB.1 err he
      refine ⟨fun h => ?_, fun _ => ⟨hB1.2, fun h => ?_, fun err2 _ h => ?_⟩⟩
      · rw [hB1.1] at h; cases h
      · rcases h with h | h
        · simp at h
        · cases h
      · cases h; exact hB1.1
    | none =>
      have hB2 := hB.2 he
      have hA := WriteTo_body_loaded w (c.LoadAndFill w none).1 dirPath (hi.1.trans hk) (hi.2 he)
      rw [← hB2, hf.1, hf.2] at hA
      refine ⟨hA.1, fun hns => ⟨(hA.2 hns).1, fun _ => (hA.2 hns).2, fun err _ h => by cases h⟩⟩

/-- C16 at a body component with format "csv", a structure and an empty
array as value. -/
theorem WriteTo_body_witness :
    ((Component.ofBase .body { BaseComponent.zero with format := "csv" }
        { Extra.zero with bodyStructure := some { text := "", fields := [] },
                          bodyValue := some (.arr []) }).WriteTo World.sample "dir").err = none ∧
    ∃ st data,
      ((Component.ofBase .body { BaseComponent.zero with format := "csv" }
          { Extra.zero with bodyStructure := some { text := "", fields := [] },
                            bodyValue := some (.arr []) }).WriteTo World.sample
        "dir").comp.extra.bodyStructure = some st ∧
      SerializeBody World.sample
        ((Component.ofBase .body { BaseComponent.zero with format := "csv" }
          { Extra.zero with bodyStructure := some { text := "", fields := [] },
                            bodyValue := some (.arr []) }).WriteTo World.sample
        "dir").comp.extra.bodyValue st = .ok data ∧
      ((Component.ofBase .body { BaseComponent.zero with format := "csv" }
          { Extra.zero with bodyStructure := some { text := "", fields := [] },
                            bodyValue := some (.arr []) }).WriteTo World.sample
        "dir").targetFile =
        World.sample.join "dir"
          ("body." ++ (Component.ofBase .body { BaseComponent.zero with format := "csv" }
            { Extra.zero with bodyStructure := some { text := "", fields := [] },
                              bodyValue := some (.arr []) }).Base.format) ∧
      ((Component.ofBase .body { BaseComponent.zero with format := "csv" }
          { Extra.zero with bodyStructure := some { text := "", fields := [] },
                            bodyValue := some (.arr []) }).WriteTo World.sample
        "dir").files =
        [(World.sample.join "dir"
          ("body." ++ (Component.ofBase .body { BaseComponent.zero with format := "csv" }
            { Extra.zero with bodyStructure := some { text := "", fields := [] },
                              bodyValue := some (.arr []) }).Base.format), data)] :=
  ⟨rfl, (WriteTo_body World.sample
    (Component.ofBase .body { BaseComponent.zero with format := "csv" }
      { Extra.zero with bodyStructure := some { text := "", fields := [] },
                        bodyValue := some (.arr []) }) "dir" rfl).1 rfl⟩

/-- C16 fails in two ways.  The body component that `NewBodyComponent`
builds from "body.csv" has the format ".csv", dot included, so that once it
has a structure and a value a successful `WriteTo` into "dir" writes and
returns "dir/body..csv", not "dir/body.csv".  And a body component without
a structure whose source file cannot be opened fails with the error of the
load, not with "cannot write body without a structure". -/
theorem WriteTo_body_path :
    ((NewBodyComponent "body.csv").Base.format = ".csv" ∧
      (((NewBodyComponent "body.csv").withExtra
          { Extra.zero with bodyStructure := some { text := "", fields := [] },
                            bodyValue := some (.arr []) }).WriteTo
        World.sample "dir").err = none ∧
      (((NewBodyComponent "body.csv").withExtra
          { Extra.zero with bodyStructure := some { text := "", fields := [] },
                            bodyValue := some (.arr []) }).WriteTo
        World.sample "dir").targetFile = "dir/body..csv" ∧
      (((NewBodyComponent "body.csv").withExtra
          { Extra.zero with bodyStructure := some { text := "", fields := [] },
                            bodyValue := some (.arr []) }).WriteTo
        World.sample "dir").files = [("dir/body..csv", "")]) ∧
    ((NewBodyComponent "missing.csv").extra.bodyStructure = none ∧
      ((NewBodyComponent "missing.csv").WriteTo World.sample "dir").err = some "no such file") :=
  ⟨⟨by decide, by decide, by decide, by decide⟩, rfl, by decide⟩

/-- C17 evaluated: a loaded readme component with the text "hello" and
format "md", and a loaded transform component with the text "step" and
format "star", are written to "dir/readme.md" and "dir/transform.star"
without error, and the target file returned is empty in both cases. -/
theorem WriteTo_script_returns_empty :
    (((Component.ofBase .readme { BaseComponent.zero with format := "md", isLoaded := true }
        { Extra.zero with value := some { text := "hello", fields := [] } }).WriteTo
        World.sample "dir").files = [("dir/readme.md", "hello")] ∧
      ((Component.ofBase .readme { BaseComponent.zero with format := "md", isLoaded := true }
        { Extra.zero with value := some { text := "hello", fields := [] } }).WriteTo
        World.sample "dir").err = none ∧
      ((Component.ofBase .readme { BaseComponent.zero with format := "md", isLoaded := true }
        { Extra.zero with value := some { text := "hello", fields := [] } }).WriteTo
        World.sample "dir").targetFile = "") ∧
    (((Component.ofBase .transform { BaseComponent.zero with format := "star", isLoaded := true }
        { Extra.zero with value := some { text := "step", fields := [] } }).WriteTo
        World.sample "dir").files = [("dir/transform.star", "step")] ∧
      ((Component.ofBase .transform { BaseComponent.zero with format := "star", isLoaded := true }
        { Extra.zero with value := some { text := "step", fields := [] } }).WriteTo
        World.sample "dir").err = none ∧
      ((Component.ofBase .transform { BaseComponent.zero with format := "star", isLoaded := true }
        { Extra.zero with value := some { text := "step", fields := [] } }).WriteTo
        World.sample "dir").targetFile = "") :=
  ⟨⟨by decide, by decide, by decide⟩, by decide, by decide, by decide⟩

/-! ### Claims about dropping derived values -/

theorem dropEach_calls (w : World) (skip : Bool) (subs : List (String × Component)) :
    (∀ name sub, (name, sub) ∈ subs → ¬ (skip = true ∧ name = "dataset") →
      { via := [], name := name } ∈ (dropEach w skip subs).2) ∧
    (skip = true → ({ via := [], name := "dataset" } : Call) ∉ (dropEach w skip subs).2) := by
  induction subs with
  | nil => exact ⟨fun _ _ h => (by cases h), fun _ => (by simp [dropEach])⟩
  | cons kv rest ih =>
    obtain ⟨k, v⟩ := kv
    by_cases hs : skip = true ∧ k = "dataset"
    · constructor
      · intro name sub hm hn
        rw [dropEach, if_pos hs]
        rcases List.mem_cons.1 hm with h | h
        · cases h
          exact absurd hs hn
        · exact ih.1 name sub h hn
      · intro h
        rw [dropEach, if_pos hs]
        exact ih.2 h
    · constructor
      · intro name sub hm hn
        rw [dropEach, if_neg hs]
        rcases List.mem_cons.1 hm with h | h
        · cases h
          simp
        · simp only [List.cons_append, List.mem_cons, List.mem_append]
          exact Or.inr (Or.inr (ih.1 name sub h hn))
      · intro h
        rw [dropEach, if_neg hs]
        simp only [List.cons_append, List.mem_cons, List.mem_append, List.mem_map, not_or]
        refine ⟨fun heq => hs ⟨h, ?_⟩, ?_, ih.2 h⟩
        · cases heq
          rfl
        · rintro ⟨call, _, heq⟩
          cases heq

/-- C25 evaluated: a meta component that is not loaded and reads its value
from "meta.json" puts it in the dataset passed in; a meta, a structure and
a commit component that already hold a value return no error, are marked
loaded and leave the field of the dataset nil; a readme component that
already holds a value puts it in the dataset. -/
theorem LoadAndFill_preset_value :
    (((Component.sample .meta "meta.json" "json").LoadAndFill World.sample
        (some Dataset.zero)).2.2 = none ∧
      ((Component.sample .meta "meta.json" "json").LoadAndFill World.sample
        (some Dataset.zero)).2.1.map Dataset.Meta =
        some ((Component.sample .meta "meta.json" "json").LoadAndFill World.sample
          (some Dataset.zero)).1.extra.value ∧
      (((Component.sample .meta "meta.json" "json").LoadAndFill World.sample
        (some Dataset.zero)).1.extra.value.map Payload.text) = some "meta.json") ∧
    (((Component.ofBase .meta BaseComponent.zero
        { Extra.zero with value := some { text := "about", fields := [] } }).LoadAndFill
        World.sample (some Dataset.zero)).2.2 = none ∧
      ((Component.ofBase .meta BaseComponent.zero
        { Extra.zero with value := some { text := "about", fields := [] } }).LoadAndFill
        World.sample (some Dataset.zero)).1.Base.isLoaded = true ∧
      (((Component.ofBase .meta BaseComponent.zero
        { Extra.zero with value := some { text := "about", fields := [] } }).LoadAndFill
        World.sample (some Dataset.zero)).1.extra.value.map Payload.text) = some "about" ∧
      (((Component.ofBase .meta BaseComponent.zero
        { Extra.zero with value := some { text := "about", fields := [] } }).LoadAndFill
        World.sample (some Dataset.zero)).2.1.map fun d => d.Meta.isNone) = some true) ∧
    ((((Component.ofBase .structure BaseComponent.zero
        { Extra.zero with value := some { text := "about", fields := [] } }).LoadAndFill
        World.sample (some Dataset.zero)).2.1.map fun d => d.Structure.isNone) = some true ∧
      (((Component.ofBase .commit BaseComponent.zero
        { Extra.zero with value := some { text := "about", fields := [] } }).LoadAndFill
        World.sample (some Dataset.zero)).2.1.map fun d => d.Commit.isNone) = some true) ∧
    (((Component.ofBase .readme BaseComponent.zero
        { Extra.zero with value := some { text := "about", fields := [] } }).LoadAndFill
        World.sample (some Dataset.zero)).2.2 = none ∧
      (((Component.ofBase .readme BaseComponent.zero
        { Extra.zero with value := some { text := "about", fields := [] } }).LoadAndFill
        World.sample (some Dataset.zero)).2.1.map fun d => d.Readme.map Payload.text) =
        some (some "about")) :=
  ⟨⟨rfl, rfl, rfl⟩, ⟨rfl, rfl, rfl, rfl⟩, ⟨rfl, rfl⟩, rfl, rfl⟩

/-- C28 evaluated: a meta component whose file is read but does not decode
fails on the first `LoadAndFill`, is left marked loaded with no value, and
returns no error on the second call; so is one whose format is unknown; a
component whose file cannot be read is left not loaded and fails again. -/
theorem LoadAndFill_marks_loaded_on_failure :
    (((Component.sample .meta "broken.json" "json").LoadAndFill World.sample none).2.2 =
        some "invalid character" ∧
      ((Component.sample .meta "broken.json" "json").LoadAndFill World.sample
        none).1.Base.isLoaded = true ∧
      ((Component.sample .meta "broken.json" "json").LoadAndFill World.sample
        none).1.extra.value.isNone = true ∧
      (((Component.sample .meta "broken.json" "json").LoadAndFill World.sample
        none).1.LoadAndFill World.sample none).2.2 = none) ∧
    (((Component.sample .transform "transform.toml" "toml").LoadAndFill World.sample none).2.2 =
        some "unknown local file format \"toml\"" ∧
      ((Component.sample .transform "transform.toml" "toml").LoadAndFill World.sample
        none).1.Base.isLoaded = true ∧
      ((Component.sample .transform "transform.toml" "toml").LoadAndFill World.sample
        none).1.extra.value.isNone = true ∧
      (((Component.sample .transform "transform.toml" "toml").LoadAndFill World.sample
        none).1.LoadAndFill World.sample none).2.2 = none) ∧
    (((Component.sample .meta "missing.json" "json").LoadAndFill World.sample none).2.2 =
        some "no such file" ∧
      ((Component.sample .meta "missing.json" "json").LoadAndFill World.sample
        none).1.Base.isLoaded = false ∧
      (((Component.sample .meta "missing.json" "json").LoadAndFill World.sample
        none).1.LoadAndFill World.sample none).2.2 = some "no such file") :=
  ⟨⟨rfl, rfl, rfl, rfl⟩, ⟨by decide, rfl, rfl, rfl⟩, rfl, rfl, rfl⟩

/-! ### Claims about `Compare` on loaded components -/

theorem LoadAndFill_of_loaded (w : World) (c : Component) (ds : Option Dataset)
    (h : c.loaded = true) : c.LoadAndFill w ds = (c, ds, none) := by
  unfold Component.loaded at h
  unfold Component.LoadAndFill
  cases hk : c.kind <;> simp only [hk] at h ⊢ <;>
    simp [loadStructured, loadScript, loadBody, h]

theorem compareComponentData_ok (w : World) (first second : Option Payload)
    (left rite : String) (h1 : w.marshal first = .ok left) (h2 : w.marshal second = .ok rite) :
    compareComponentData w first second = (decide (left = rite), none) := by
  simp [compareComponentData, h1, h2]

theorem compareBodyData_ok (w : World) (first second : Option Dsfs.JVal)
    (left rite : String) (h1 : w.marshalBody first = .ok left)
    (h2 : w.marshalBody second = .ok rite) :
    compareBodyData w first second = (decide (left = rite), none) := by
  simp [compareBodyData, h1, h2]

theorem Compare_of_loads (w : World) (c other c1 other1 : Component)
    (d1 d2 : Option Dataset) (hf : c.kind ≠ .filesys) (hk : other.kind = c.kind)
    (h1 : c.LoadAndFill w none = (c1, d1, none))
    (h2 : other.LoadAndFill w none = (other1, d2, none)) :
    c.Compare w other =
      match c.kind with
      | .structure =>
        (c1.withExtra { c1.extra with value := c1.extra.value.map w.dropDerived },
          other1.withExtra { other1.extra with value := other1.extra.value.map w.dropDerived },
          (compareComponentData w (c1.extra.value.map w.dropDerived)
            (other1.extra.value.map w.dropDerived)).1,
          (compareComponentData w (c1.extra.value.map w.dropDerived)
            (other1.extra.value.map w.dropDerived)).2)
      | .body =>
        (c1, other1, (compareBodyData w c1.extra.bodyValue other1.extra.bodyValue).1,
          (compareBodyData w c1.extra.bodyValue other1.extra.bodyValue).2)
      | .transform =>
        match textOf c1.extra.value, textOf other1.extra.value with
        | some mine, some theirs => (c1, other1, decide (mine = theirs), none)
        | _, _ => (c1, other1, false, some nilDereference)
      | _ =>
        (c1, other1, (compareComponentData w c1.extra.value other1.extra.value).1,
          (compareComponentData w c1.extra.value other1.extra.value).2) := by
  unfold Component.Compare
  cases hc : c.kind <;> simp only [hc] at hf hk ⊢ <;>
    first
    | exact absurd rfl hf
    | simp [hk, h1, h2]

/-- C26: when `Compare` is called on two transform components whose
`LoadAndFill` both succeed and leave a value, it returns no error and
returns true exactly when the `Text` of the two values is the same, whatever
their other fields hold. -/
theorem Compare_transform (w : World) (c other : Component) (v1 v2 : Payload)
    (hk : c.kind = .transform) (ho : other.kind = .transform)
    (h1 : (c.LoadAndFill w none).2.2 = none) (h2 : (other.LoadAndFill w none).2.2 = none)
    (hv1 : (c.LoadAndFill w none).1.extra.value = some v1)
    (hv2 : (other.LoadAndFill w none).1.extra.value = some v2) :
    (c.Compare w other).2.2.2 = none ∧
    ((c.Compare w other).2.2.1 = true ↔ v1.text = v2.text) := by
  rcases hc : c.LoadAndFill w none with ⟨c1, d1, e1⟩
  rcases hoo : other.LoadAndFill w none with ⟨o1, d2, e2⟩
  rw [hc] at h1 hv1
  rw [hoo] at h2 hv2
  simp only at h1 h2 hv1 hv2
  subst h1 h2
  rw [Compare_of_loads w c other c1 o1 d1 d2 (by rw [hk]; decide) (by rw [hk, ho]) hc hoo]
  simp [hk, hv1, hv2, textOf]

/-- C26 at two loaded transform components with the same script and
different other fields: they compare equal. -/
theorem Compare_transform_witness :
    ((Component.ofBase .transform { BaseComponent.zero with isLoaded := true }
        { Extra.zero with value := some { text := "step()", fields := [] } }).Compare
      World.sample
      (Component.ofBase .transform { BaseComponent.zero with isLoaded := true }
        { Extra.zero with
          value := some { text := "step()", fields := [("config", .num 1)] } })).2.2.2 = none ∧
    (((Component.ofBase .transform { BaseComponent.zero with isLoaded := true }
        { Extra.zero with value := some { text := "step()", fields := [] } }).Compare
      World.sample
      (Component.ofBase .transform { BaseComponent.zero with isLoaded := true }
        { Extra.zero with
          value := some { text := "step()", fields := [("config", .num 1)] } })).2.2.1 = true ↔
      "step()" = "step()") :=
  Compare_transform World.sample
    (Component.ofBase .transform { BaseComponent.zero with isLoaded := true }
      { Extra.zero with value := some { text := "step()", fields := [] } })
    (Component.ofBase .transform { BaseComponent.zero with isLoaded := true }
      { Extra.zero with value := some { text := "step()", fields := [("config", .num 1)] } })
    { text := "step()", fields := [] } { text := "step()", fields := [("config", .num 1)] }
    rfl rfl rfl rfl rfl rfl

/-- C29 (as amended): on two loaded components of the same kind, `Compare`
of meta, commit, readme and dataset components leaves both as they were and
returns whether the JSON serializations of the two values are the same; so
does `Compare` of body components; `Compare` of transform components whose
values are present leaves both as they were and returns whether their
`Text` is the same; and `Compare` of structure components whose values are
present drops the derived values of both values, which it leaves so, and
returns whether the serializations of what remains are the same. -/
theorem Compare_loaded (w : World) (c other : Component) (hk : other.kind = c.kind)
    (hl : c.loaded = true) (ho : other.loaded = true) :
    (c.kind ∈ [Kind.meta, Kind.commit, Kind.readme, Kind.dataset] →
      (c.Compare w other).1 = c ∧ (c.Compare w other).2.1 = other ∧
      ∀ left rite, w.marshal c.extra.value = .ok left →
        w.marshal other.extra.value = .ok rite →
        (c.Compare w other).2.2 = (decide (left = rite), none)) ∧
    (c.kind = .body →
      (c.Compare w other).1 = c ∧ (c.Compare w other).2.1 = other ∧
      ∀ left rite, w.marshalBody c.extra.bodyValue = .ok left →
        w.marshalBody other.extra.bodyValue = .ok rite →
        (c.Compare w other).2.2 = (decide (left = rite), none)) ∧
    (c.kind = .transform → ∀ v1 v2, c.extra.value = some v1 → other.extra.value = some v2 →
      (c.Compare w other).1 = c ∧ (c.Compare w other).2.1 = other ∧
      (c.Compare w other).2.2 = (decide (v1.text = v2.text), none)) ∧
    (c.kind = .structure → ∀ v1 v2, c.extra.value = some v1 → other.extra.value = some v2 →
      (c.Compare w other).1.extra.value = some (w.dropDerived v1) ∧
      (c.Compare w other).2.1.extra.value = some (w.dropDerived v2) ∧
      ∀ left rite, w.marshal (some (w.dropDerived v1)) = .ok left →
        w.marshal (some (w.dropDerived v2)) = .ok rite →
        (c.Compare w other).2.2 = (decide (left = rite), none)) := by
  have h1 := LoadAndFill_of_loaded w c none hl
  have h2 := LoadAndFill_of_loaded w other none ho
  refine ⟨fun hm => ?_, fun hb => ?_, fun ht v1 v2 hv1 hv2 => ?_,
    fun hs v1 v2 hv1 hv2 => ?_⟩
  · have hf : c.kind ≠ .filesys := by
      intro h
      rw [h] at hm
      simp at hm
    rw [Compare_of_loads w c other c other none none hf hk h1 h2]
    simp only [List.mem_cons, List.mem_singleton, List.not_mem_nil, or_false] at hm
    rcases hm with hm | hm | hm | hm <;> rw [hm] <;>
      exact ⟨rfl, rfl, fun left rite a b => by
        rw [compareComponentData_ok w _ _ left rite a b]⟩
  · rw [Compare_of_loads w c other c other none none (by rw [hb]; decide) hk h1 h2, hb]
    exact ⟨rfl, rfl, fun left rite a b => by rw [compareBodyData_ok w _ _ left rite a b]⟩
  · rw [Compare_of_loads w c other c other none none (by rw [ht]; decide) hk h1 h2, ht]
    simp [hv1, hv2, textOf]
  · rw [Compare_of_loads w c other c other none none (by rw [hs]; decide) hk h1 h2, hs]
    simp only [hv1, hv2, Option.map_some']
    exact ⟨rfl, rfl, fun left rite a b => by
      rw [compareComponentData_ok w _ _ left rite a b]⟩

/-- C29 at two loaded commit components with the same text: both are left
as they were and the answer is true. -/
theorem Compare_loaded_witness :
    ((Component.ofBase .commit { BaseComponent.zero with isLoaded := true }
        { Extra.zero with value := some { text := "first", fields := [] } }).Compare
      World.sample
      (Component.ofBase .commit { BaseComponent.zero with isLoaded := true }
        { Extra.zero with value := some { text := "first", fields := [] } })).1 =
      Component.ofBase .commit { BaseComponent.zero with isLoaded := true }
        { Extra.zero with value := some { text := "first", fields := [] } } ∧
    ((Component.ofBase .commit { BaseComponent.zero with isLoaded := true }
        { Extra.zero with value := some { text := "first", fields := [] } }).Compare
      World.sample
      (Component.ofBase .commit { BaseComponent.zero with isLoaded := true }
        { Extra.zero with value := some { text := "first", fields := [] } })).2.2 =
      (true, none) :=
  ⟨((Compare_loaded World.sample
      (Component.ofBase .commit { BaseComponent.zero with isLoaded := true }
        { Extra.zero with value := some { text := "first", fields := [] } })
      (Component.ofBase .commit { BaseComponent.zero with isLoaded := true }
        { Extra.zero with value := some { text := "first", fields := [] } })
      rfl rfl rfl).1 (by decide)).1,
   ((Compare_loaded World.sample
      (Component.ofBase .commit { BaseComponent.zero with isLoaded := true }
        { Extra.zero with value := some { text := "first", fields := [] } })
      (Component.ofBase .commit { BaseComponent.zero with isLoaded := true }
        { Extra.zero with value := some { text := "first", fields := [] } })
      rfl rfl rfl).1 (by decide)).2.2 "first" "first" rfl rfl⟩

/-- C29 fails for structure and for transform components.  `Compare` of
two loaded structure components whose value has one field leaves a value
with no field in the receiver.  And where the serialization of a value
shows whether it has fields, two loaded transform components with the same
text, one with a field and one without, have different serializations and
compare equal. -/
theorem Compare_not_read_only :
    (((Component.ofBase .structure { BaseComponent.zero with isLoaded := true }
        { Extra.zero with
          value := some { text := "csv", fields := [("checksum", .str "Qm")] } }).extra.value.map
        fun v => v.fields.length) = some 1 ∧
      (((Component.ofBase .structure { BaseComponent.zero with isLoaded := true }
        { Extra.zero with
          value := some { text := "csv", fields := [("checksum", .str "Qm")] } }).Compare
        World.sample
        (Component.ofBase .structure { BaseComponent.zero with isLoaded := true }
          { Extra.zero with
            value := some { text := "csv", fields := [("checksum", .str "Qm")] } })).1.extra.value.map
        fun v => v.fields.length) = some 0) ∧
    ((World.telling.marshal (some { text := "step()", fields := [] }) = .ok "step()" ∧
      World.telling.marshal (some { text := "step()", fields := [("config", .num 1)] }) =
        .ok "step()+") ∧
      ((Component.ofBase .transform { BaseComponent.zero with isLoaded := true }
        { Extra.zero with value := some { text := "step()", fields := [] } }).Compare
        World.telling
        (Component.ofBase .transform { BaseComponent.zero with isLoaded := true }
          { Extra.zero with
            value := some { text := "step()", fields := [("config", .num 1)] } })).2.2 =
        (true, none)) :=
  ⟨⟨rfl, rfl⟩, ⟨rfl, rfl⟩, by decide⟩

/-- A readme or transform component that was not marked loaded has a value
once its `LoadAndFill` has succeeded. -/
theorem loadScript_value (w : World) (c : Component) (ds : Option Dataset)
    (hl : c.Base.isLoaded = false) (h : (loadScript w c ds).2.2 = none) :
    (loadScript w c ds).1.extra.value.isSome = true := by
  have hv : (loadValue w c).1.extra.value.isSome = true ∨ (loadValue w c).2 ≠ none := by
    unfold loadValue
    split
    · right; simp
    · left; simp
  unfold loadScript at h ⊢
  simp only [hl, Bool.false_eq_true, if_false] at h ⊢
  cases hval : c.extra.value with
  | some v =>
    simp only [hval, Option.isNone_some, Bool.false_eq_true, if_false, withBase_extra] at h ⊢
    split
    · split <;> simp
    · simp [hval]
  | none =>
    simp only [hval, Option.isNone_none, if_true] at h ⊢
    rcases hlv : loadValue w c with ⟨c1, e1⟩
    rw [hlv] at hv h
    cases e1 with
    | some e => simp at h
    | none =>
      simp only at hv h ⊢
      rcases hv with hv | hv
      · cases hc1 : c1.extra.value with
        | none => rw [hc1] at hv; cases hv
        | some v =>
          simp only [withBase_extra, hc1]
          split
          · split <;> simp
          · simp [hc1]
      · exact absurd rfl hv

/-! ### The entries `SerializeBody` writes -/

theorem zipWith_range_index (data : List Dsfs.JVal) (k : Nat) :
    ((List.range' k data.length).zipWith
      (fun i val => ({ index := i, key := "", value := val } : Dsfs.Entry)) data).map
        (fun e => e.index) = List.range' k data.length ∧
    ((List.range' k data.length).zipWith
      (fun i val => ({ index := i, key := "", value := val } : Dsfs.Entry)) data).map
        (fun e => e.value) = data ∧
    ∀ e ∈ (List.range' k data.length).zipWith
      (fun i val => ({ index := i, key := "", value := val } : Dsfs.Entry)) data, e.key = "" := by
  induction data generalizing k with
  | nil => simp
  | cons x rest ih =>
    obtain ⟨h1, h2, h3⟩ := ih (k + 1)
    simp only [List.length_cons, List.range'_succ, List.zipWith_cons_cons, List.map_cons,
      List.mem_cons]
    refine ⟨by rw [h1], by rw [h2], ?_⟩
    rintro e (rfl | he)
    · rfl
    · exact h3 e he

/-- C30 (as amended): for an array source `SerializeBody` writes one entry
per element, with the indices 0 to n-1 in order, each carrying its element
and no key, so the bytes are a function of the source and the structure;
for an object source it writes one keyed entry per member in the order the
map is iterated, so two iterations of the same map write the same entries
up to their order; and when no schema has to be inferred and the entry
writer is created, the bytes returned are those the writer holds after
these entries. -/
theorem SerializeBody_entries (w : World) (st : Payload) :
    (∀ data : List Dsfs.JVal,
      (bodyEntries (some (.arr data))).map (fun e => e.index) = List.range data.length ∧
      (bodyEntries (some (.arr data))).map (fun e => e.value) = data ∧
      ∀ e ∈ bodyEntries (some (.arr data)), e.key = "") ∧
    (∀ data : List (String × Dsfs.JVal),
      (bodyEntries (some (.obj data))).map (fun e => (e.key, e.value)) = data) ∧
    (∀ data₁ data₂ : List (String × Dsfs.JVal), data₁.Perm data₂ →
      (bodyEntries (some (.obj data₁))).Perm (bodyEntries (some (.obj data₂)))) ∧
    (∀ source, ¬ (w.requiresTabularSchema st = true ∧ w.schemaIsNil st = true) →
      w.newEntryWriter st = none →
      SerializeBody w source st = .ok (w.serialize st (bodyEntries source))) := by
  refine ⟨fun data => ?_, fun data => ?_, fun data₁ data₂ hp => ?_, fun source h1 h2 => ?_⟩
  · have := zipWith_range_index data 0
    simpa [bodyEntries, List.range_eq_range'] using this
  · simp [bodyEntries, Function.comp_def]
  · simp only [bodyEntries]
    exact hp.map _
  · simp [SerializeBody, h1, h2]

/-- C30 at the array `[true, null]`: the entries have the indices 0 and 1,
and the bytes are those of the writer. -/
theorem SerializeBody_entries_witness :
    (bodyEntries (some (.arr [.bool true, .null]))).map (fun e => e.index) = [0, 1] ∧
    SerializeBody World.sample (some (.arr [.bool true, .null])) { text := "", fields := [] } =
      .ok (World.sample.serialize { text := "", fields := [] }
        (bodyEntries (some (.arr [.bool true, .null])))) :=
  ⟨((SerializeBody_entries World.sample { text := "", fields := [] }).1
      [.bool true, .null]).1,
   (SerializeBody_entries World.sample { text := "", fields := [] }).2.2.2
      (some (.arr [.bool true, .null])) (by decide) rfl⟩

/-- C30 fails for an object source: the members "a" and "b" of one map,
visited in the two possible orders, give different bytes with a writer that
writes the keys as they come. -/
theorem SerializeBody_order_of_members :
    [("a", Dsfs.JVal.num 1), ("b", Dsfs.JVal.num 2)].Perm
      [("b", Dsfs.JVal.num 2), ("a", Dsfs.JVal.num 1)] ∧
    SerializeBody World.sample (some (.obj [("a", .num 1), ("b", .num 2)]))
      { text := "", fields := [] } = .ok "ab" ∧
    SerializeBody World.sample (some (.obj [("b", .num 2), ("a", .num 1)]))
      { text := "", fields := [] } = .ok "ba" ∧
    "ab" ≠ "ba" :=
  ⟨List.Perm.swap _ _ _, rfl, rfl, by decide⟩

end Kinds
